import Mathlib

/-!
# Intel rate-scaling manager (src/wifi/model/intel-rate-wifi-manager.cc)

A shallow embedding of the per-station rate-adaptation code of
`intel-rate-wifi-manager.cc` and of the class `Quaternion` of
`src/core/model/quaternion.cc`, followed by theorems about them.

Conventions of the embedding:

* C++ `int` values are `Int`.  Every quantity the code computes from its own
  tables stays far inside the 32-bit range (see `average_tpt_fits_int32`), so
  the arithmetic is exact; `/` on `int` truncates towards zero and is
  `Int.tdiv`.
* `std::vector<bool>` is `List Bool`, front of the vector first.
* `std::map` is an association list; `m[k]` both reads (`amAt`) and, when the
  key is absent, creates a default binding (`amTouch`).
* `std::set<antenna>` is its characteristic function on `A`, `B`, `C`.
* `ns3::Simulator::Now().GetNanoSeconds()` is the parameter `now`.
* Reading a vector out of bounds is undefined behaviour and is `none`.
* The `double` values of `quaternion.cc` are real numbers.
-/

set_option autoImplicit false

namespace IntelRate

/-! ## Constants -/

@[reducible] def INVALID_THROUGHPUT : Int := -1
@[reducible] def INVALID_INDEX : Int := -1

@[reducible] def IWL_MVM_RS_RATE_MIN_FAILURE_TH : Int := 3
@[reducible] def IWL_MVM_RS_RATE_MIN_SUCCESS_TH : Int := 8
@[reducible] def IWL_MVM_RS_SR_FORCE_DECREASE : Int := 15
@[reducible] def IWL_MVM_RS_SR_NO_DECREASE : Int := 85
@[reducible] def IWL_MVM_RS_STAY_IN_COLUMN_TIMEOUT : Int := 5

@[reducible] def IWL_MVM_RS_LEGACY_FAILURE_LIMIT : Int := 160
@[reducible] def IWL_MVM_RS_LEGACY_SUCCESS_LIMIT : Int := 480
@[reducible] def IWL_MVM_RS_LEGACY_TABLE_COUNT : Int := 160
@[reducible] def IWL_MVM_RS_NON_LEGACY_FAILURE_LIMIT : Int := 400
@[reducible] def IWL_MVM_RS_NON_LEGACY_SUCCESS_LIMIT : Int := 4500
@[reducible] def IWL_MVM_RS_NON_LEGACY_TABLE_COUNT : Int := 1500

/-- The macro `RS_PERCENT(x)`, which is `128 * x`. -/
@[reducible] def RS_PERCENT (x : Int) : Int := 128 * x

/-! ## class History -/

/-- The class `History`: the outcome window (`data`, newest outcome first)
and the theoretical ceiling of the rate slot (`max_throughput`, whose member
initialiser is `INVALID_THROUGHPUT`). -/
structure History where
  data : List Bool
  max_throughput : Int
deriving DecidableEq, Repr

namespace History

/-- The constructor `History(int max_throughput)`. -/
def ofMax (max_throughput : Int) : History := ⟨[], max_throughput⟩

/-- The constructor `History()`. -/
def empty : History := ⟨[], INVALID_THROUGHPUT⟩

def get_max_throughput (h : History) : Int := h.max_throughput

def set_max_throughput (h : History) (max_throughput : Int) : History :=
  { h with max_throughput := max_throughput }

def reset (h : History) : History := { h with data := [] }

def counter (h : History) : Int := (h.data.length : Int)

def success_counter (h : History) : Int :=
  if h.data.isEmpty then INVALID_THROUGHPUT else (h.data.count true : Int)

def fail_counter (h : History) : Int :=
  if h.data.isEmpty then INVALID_THROUGHPUT else (h.data.count false : Int)

/-- The method `tx(bool success)`: `emplace` at `begin()`, then `resize(62)`
when the size exceeds 62. -/
def tx (h : History) (success : Bool) : History :=
  let data := success :: h.data
  { h with data := if data.length > 62 then data.take 62 else data }

def success_ratio (h : History) : Int :=
  if h.counter > 0 then Int.tdiv (128 * 100 * h.success_counter) h.counter else -1

def average_tpt (h : History) : Int :=
  if h.fail_counter ≥ IWL_MVM_RS_RATE_MIN_FAILURE_TH ∨
      h.success_counter ≥ IWL_MVM_RS_RATE_MIN_SUCCESS_TH then
    Int.tdiv (h.success_ratio * h.get_max_throughput + 64) 128
  else
    INVALID_THROUGHPUT

/-- The loop `for (int i = 0; i < n; ++i) tx(success)` of `State::tx`, on one
history: no iteration when `n` is not positive. -/
def txLoop (h : History) (n : Int) (success : Bool) : History :=
  Nat.iterate (fun g => g.tx success) n.toNat h

end History

/-! ## Enumerations -/

inductive antenna where
  | A | B | C
deriving DecidableEq, Repr

inductive column_mode where
  | LEGACY | SISO | MIMO
deriving DecidableEq, Repr

inductive rate_type where
  | NONE | LEGACY_G
deriving DecidableEq, Repr

inductive guard_interval where
  | SGI | LGI
deriving DecidableEq, Repr

inductive rs_action where
  | RS_ACTION_STAY | RS_ACTION_DOWNSCALE | RS_ACTION_UPSCALE
deriving DecidableEq, Repr

/-- The enumeration `bandwidth`, by the integer value of its enumerators
(`BW_20 = 20`, ...); the code itself compares it with the integer 20, and a
value-initialised snapshot tuple holds the value 0. -/
abbrev bandwidth := Int

@[reducible] def BW_20 : bandwidth := 20
@[reducible] def BW_40 : bandwidth := 40
@[reducible] def BW_80 : bandwidth := 80
@[reducible] def BW_160 : bandwidth := 160

inductive aggregation where
  | NO_AGG | AGG
deriving DecidableEq, Repr

inductive state where
  | RS_STATE_SEARCH_CYCLE_STARTED | RS_STATE_SEARCH_CYCLE_ENDED | RS_STATE_STAY_IN_COLUMN
deriving DecidableEq, Repr

open antenna column_mode rate_type guard_interval rs_action aggregation state

/-- A `std::set<antenna>`, as the membership bit of each of the three
antennas. -/
structure AntennaSet where
  hasA : Bool
  hasB : Bool
  hasC : Bool
deriving DecidableEq, Repr

namespace AntennaSet

/-- The set `{}`. -/
def none : AntennaSet := ⟨false, false, false⟩

def insert (x : antenna) (t : AntennaSet) : AntennaSet :=
  match x with
  | A => { t with hasA := true }
  | B => { t with hasB := true }
  | C => { t with hasC := true }

/-- A braced initialiser list such as `{A, B}`. -/
def ofList (l : List antenna) : AntennaSet := l.foldr insert none

def size (t : AntennaSet) : Int :=
  (if t.hasA then 1 else 0) + (if t.hasB then 1 else 0) + (if t.hasC then 1 else 0)

end AntennaSet

/-! ## std::map as an association list -/

section AssocMap

variable {κ : Type} {ν : Type} [DecidableEq κ]

/-- The binding of `k`, if the map has one. -/
def amFind (k : κ) : List (κ × ν) → Option ν
  | [] => Option.none
  | (k1, v) :: m => if k1 = k then some v else amFind k m

/-- The value read through `m[k]`: the binding, or the default-constructed
value `d` that `operator[]` creates. -/
def amAt (d : ν) (k : κ) (m : List (κ × ν)) : ν :=
  (amFind k m).getD d

/-- The map after `m[k]` was evaluated: a default binding is created when the
key is absent. -/
def amTouch (d : ν) (k : κ) (m : List (κ × ν)) : List (κ × ν) :=
  if (amFind k m).isSome then m else m ++ [(k, d)]

/-- The map after `m[k] = v`. -/
def amSet (k : κ) (v : ν) : List (κ × ν) → List (κ × ν)
  | [] => [(k, v)]
  | (k1, v1) :: m => if k1 = k then (k1, v) :: m else (k1, v1) :: amSet k v m

end AssocMap

/-! ## Theoretical throughput tables and columns -/

abbrev TableKey := column_mode × bandwidth × guard_interval × aggregation

abbrev HistKey := column_mode × bandwidth × guard_interval × aggregation × Int

abbrev ColKey := column_mode × AntennaSet × guard_interval

/-- The function `buildTheoreticalThroughputTables`, in the order of its
assignments. -/
def buildTheoreticalThroughputTables : List (TableKey × List Int) :=
  [ ((LEGACY, BW_20, LGI, NO_AGG), [7, 13, 35, 58, 40, 57, 72, 98, 121, 154, 177, 186, 0, 0, 0]),
    ((SISO, BW_20, LGI, NO_AGG), [0, 0, 0, 0, 42, 0, 76, 102, 124, 159, 183, 193, 202, 216, 0]),
    ((SISO, BW_20, SGI, NO_AGG), [0, 0, 0, 0, 46, 0, 82, 110, 132, 168, 192, 202, 210, 225, 0]),
    ((SISO, BW_20, LGI, AGG), [0, 0, 0, 0, 49, 0, 97, 145, 192, 285, 375, 420, 464, 551, 0]),
    ((SISO, BW_20, SGI, AGG), [0, 0, 0, 0, 54, 0, 108, 160, 213, 315, 415, 465, 513, 608, 0]),
    ((SISO, BW_40, LGI, NO_AGG), [0, 0, 0, 0, 77, 0, 127, 160, 184, 220, 242, 250, 257, 269, 275]),
    ((SISO, BW_40, SGI, NO_AGG), [0, 0, 0, 0, 83, 0, 135, 169, 193, 229, 250, 257, 264, 275, 280]),
    ((SISO, BW_40, LGI, AGG), [0, 0, 0, 0, 101, 0, 199, 295, 389, 570, 744, 828, 911, 1070, 1173]),
    ((SISO, BW_40, SGI, AGG), [0, 0, 0, 0, 112, 0, 220, 326, 429, 629, 819, 912, 1000, 1173, 1284]),
    ((SISO, BW_80, LGI, NO_AGG), [0, 0, 0, 0, 130, 0, 191, 223, 244, 273, 288, 294, 298, 305, 308]),
    ((SISO, BW_80, SGI, NO_AGG), [0, 0, 0, 0, 138, 0, 200, 231, 251, 279, 293, 298, 302, 308, 312]),
    ((SISO, BW_80, LGI, AGG), [0, 0, 0, 0, 217, 0, 429, 634, 834, 1220, 1585, 1760, 1931, 2258, 2466]),
    ((SISO, BW_80, SGI, AGG), [0, 0, 0, 0, 241, 0, 475, 701, 921, 1343, 1741, 1931, 2117, 2468, 2691]),
    ((SISO, BW_160, LGI, NO_AGG), [0, 0, 0, 0, 191, 0, 244, 288, 298, 308, 313, 318, 323, 328, 330]),
    ((SISO, BW_160, SGI, NO_AGG), [0, 0, 0, 0, 200, 0, 251, 293, 302, 312, 317, 322, 327, 332, 334]),
    ((SISO, BW_160, LGI, AGG), [0, 0, 0, 0, 439, 0, 875, 1307, 1736, 2584, 3419, 3831, 4240, 5049, 5581]),
    ((SISO, BW_160, SGI, AGG), [0, 0, 0, 0, 488, 0, 972, 1451, 1925, 2864, 3785, 4240, 4691, 5581, 6165]),
    ((MIMO, BW_20, LGI, NO_AGG), [0, 0, 0, 0, 74, 0, 123, 155, 179, 213, 235, 243, 250, 261, 0]),
    ((MIMO, BW_20, SGI, NO_AGG), [0, 0, 0, 0, 81, 0, 131, 164, 187, 221, 242, 250, 256, 267, 0]),
    ((MIMO, BW_20, LGI, AGG), [0, 0, 0, 0, 98, 0, 193, 286, 375, 550, 718, 799, 878, 1032, 0]),
    ((MIMO, BW_20, SGI, AGG), [0, 0, 0, 0, 109, 0, 214, 316, 414, 607, 790, 879, 965, 1132, 0]),
    ((MIMO, BW_40, LGI, NO_AGG), [0, 0, 0, 0, 123, 0, 182, 214, 235, 264, 279, 285, 289, 296, 300]),
    ((MIMO, BW_40, SGI, NO_AGG), [0, 0, 0, 0, 131, 0, 191, 222, 242, 270, 284, 289, 293, 300, 303]),
    ((MIMO, BW_40, LGI, AGG), [0, 0, 0, 0, 200, 0, 390, 571, 741, 1067, 1365, 1505, 1640, 1894, 2053]),
    ((MIMO, BW_40, SGI, AGG), [0, 0, 0, 0, 221, 0, 430, 630, 816, 1169, 1490, 1641, 1784, 2053, 2221]),
    ((MIMO, BW_80, LGI, NO_AGG), [0, 0, 0, 0, 182, 0, 240, 264, 278, 299, 308, 311, 313, 317, 319]),
    ((MIMO, BW_80, SGI, NO_AGG), [0, 0, 0, 0, 190, 0, 247, 269, 282, 302, 310, 313, 315, 319, 320]),
    ((MIMO, BW_80, LGI, AGG), [0, 0, 0, 0, 428, 0, 833, 1215, 1577, 2254, 2863, 3147, 3418, 3913, 4219]),
    ((MIMO, BW_80, SGI, AGG), [0, 0, 0, 0, 474, 0, 920, 1338, 1732, 2464, 3116, 3418, 3705, 4225, 4545]),
    ((MIMO, BW_160, LGI, NO_AGG), [0, 0, 0, 0, 240, 0, 278, 308, 313, 319, 322, 324, 328, 330, 334]),
    ((MIMO, BW_160, SGI, NO_AGG), [0, 0, 0, 0, 247, 0, 282, 310, 315, 320, 323, 325, 329, 332, 338]),
    ((MIMO, BW_160, LGI, AGG), [0, 0, 0, 0, 875, 0, 1735, 2582, 3414, 5043, 6619, 7389, 8147, 9629, 10592]),
    ((MIMO, BW_160, SGI, AGG), [0, 0, 0, 0, 971, 0, 1925, 2861, 3779, 5574, 7304, 8147, 8976, 10592, 11640]) ]

/-- The class `Column`. -/
structure Column where
  mode : column_mode
  antennas : AntennaSet
  gi : guard_interval
  next_columns : List ColKey
deriving DecidableEq, Repr

namespace Column

/-- The constructor `Column()`, from the member initialisers. -/
def empty : Column := ⟨LEGACY, AntennaSet.none, LGI, []⟩

/-- The constructor `Column(mode, antennas, gi)`. -/
def ofKey (mode : column_mode) (antennas : AntennaSet) (gi : guard_interval) : Column :=
  ⟨mode, antennas, gi, []⟩

def getColumn (c : Column) : ColKey := (c.mode, c.antennas, c.gi)

def setNextColumns (c : Column) (columns : List Column) : Column :=
  { c with next_columns := c.next_columns ++ columns.map getColumn }

def getNextColumns (c : Column) : List ColKey := c.next_columns

end Column

/-- The function `buildColumns`, in the order of its assignments. -/
def buildColumns : List (ColKey × Column) :=
  let LEGACY_ANT_A := Column.ofKey LEGACY (AntennaSet.ofList [A]) LGI
  let LEGACY_ANT_B := Column.ofKey LEGACY (AntennaSet.ofList [B]) LGI
  let SISO_ANT_A := Column.ofKey SISO (AntennaSet.ofList [A]) LGI
  let SISO_ANT_B := Column.ofKey SISO (AntennaSet.ofList [B]) LGI
  let SISO_ANT_A_SGI := Column.ofKey SISO (AntennaSet.ofList [A]) SGI
  let SISO_ANT_B_SGI := Column.ofKey SISO (AntennaSet.ofList [B]) SGI
  let MIMO2 := Column.ofKey MIMO (AntennaSet.ofList [A, B]) LGI
  let MIMO2_SGI := Column.ofKey MIMO (AntennaSet.ofList [A, B]) SGI
  [ ((LEGACY, AntennaSet.ofList [A], LGI),
      LEGACY_ANT_A.setNextColumns [LEGACY_ANT_B, SISO_ANT_A, MIMO2]),
    ((LEGACY, AntennaSet.ofList [B], LGI),
      LEGACY_ANT_B.setNextColumns [LEGACY_ANT_A, SISO_ANT_B, MIMO2]),
    ((SISO, AntennaSet.ofList [A], LGI),
      SISO_ANT_A.setNextColumns [SISO_ANT_B, MIMO2, SISO_ANT_A_SGI, LEGACY_ANT_A, LEGACY_ANT_B]),
    ((SISO, AntennaSet.ofList [B], LGI),
      SISO_ANT_B.setNextColumns [SISO_ANT_A, MIMO2, SISO_ANT_B_SGI, LEGACY_ANT_A, LEGACY_ANT_B]),
    ((SISO, AntennaSet.ofList [A], SGI),
      SISO_ANT_A_SGI.setNextColumns
        [SISO_ANT_B_SGI, MIMO2_SGI, SISO_ANT_A, LEGACY_ANT_A, LEGACY_ANT_B]),
    ((SISO, AntennaSet.ofList [B], SGI),
      SISO_ANT_B_SGI.setNextColumns
        [SISO_ANT_A_SGI, MIMO2_SGI, SISO_ANT_B, LEGACY_ANT_A, LEGACY_ANT_B]),
    ((MIMO, AntennaSet.ofList [A, B], LGI),
      MIMO2.setNextColumns [SISO_ANT_A, MIMO2_SGI, LEGACY_ANT_A, LEGACY_ANT_B]),
    ((MIMO, AntennaSet.ofList [A, B], SGI),
      MIMO2_SGI.setNextColumns [SISO_ANT_A_SGI, MIMO2, LEGACY_ANT_A, LEGACY_ANT_B]) ]

/-! ## class State -/

/-- The class `State`, field by field. -/
structure State where
  columnScaling : Bool
  last_tpt : Int
  index : Int
  mode : column_mode
  type : rate_type
  bandWidth : bandwidth
  maxWidth : bandwidth
  guardInterval : guard_interval
  agg : aggregation
  antennas : AntennaSet
  s : state
  total_failed : Int
  total_success : Int
  table_count : Int
  flush_timer : Int
  last_tx : Int
  visited_columns : List ColKey
  oldColumnParameters : column_mode × AntennaSet × guard_interval × Int × bandwidth
  TheoreticalThroughputTables : List (TableKey × List Int)
  Histories : List (HistKey × History)
  columns : List (ColKey × Column)
deriving DecidableEq, Repr

/-- The effect of `insert` on a `std::set` of column keys. -/
def setInsert (k : ColKey) (v : List ColKey) : List ColKey :=
  if k ∈ v then v else v ++ [k]

namespace State

/-- The constructor `State()`: the member initialisers, empty containers and
a value-initialised snapshot tuple. -/
def default : State :=
  { columnScaling := false
    last_tpt := 0
    index := 0
    mode := LEGACY
    type := LEGACY_G
    bandWidth := BW_20
    maxWidth := BW_20
    guardInterval := LGI
    agg := NO_AGG
    antennas := AntennaSet.ofList [A]
    s := RS_STATE_SEARCH_CYCLE_STARTED
    total_failed := 0
    total_success := 0
    table_count := 0
    flush_timer := 0
    last_tx := 0
    visited_columns := []
    oldColumnParameters := (LEGACY, AntennaSet.none, SGI, 0, 0)
    TheoreticalThroughputTables := []
    Histories := []
    columns := [] }

/-- The histories created by the double loop of `State(int maxWidth)`: one
`History(throughputs[i])` for each table and each position `i` of it. -/
def initHistories (tables : List (TableKey × List Int)) : List (HistKey × History) :=
  tables.foldl
    (fun acc t =>
      (List.range t.2.length).foldl
        (fun acc1 (i : Nat) =>
          amSet (t.1.1, t.1.2.1, t.1.2.2.1, t.1.2.2.2, Int.ofNat i)
            (History.ofMax (t.2.getD i 0)) acc1)
        acc)
    []

/-- The constructor `State(int maxWidth)`. -/
def ofMaxWidth (maxWidth : Int) : State :=
  let tables := buildTheoreticalThroughputTables
  { default with
    TheoreticalThroughputTables := tables
    Histories := initHistories tables
    columns := buildColumns
    visited_columns := setInsert (LEGACY, AntennaSet.ofList [A], LGI) []
    maxWidth :=
      if maxWidth = 20 then BW_20
      else if maxWidth = 40 then BW_40
      else if maxWidth = 80 then BW_80
      else BW_160 }

/-- The key `std::make_tuple(mode, bandWidth, guardInterval, agg, index)`. -/
def histKey (t : State) (index : Int) : HistKey :=
  (t.mode, t.bandWidth, t.guardInterval, t.agg, index)

/-- The history that `getHistory(index)` points to. -/
def history (t : State) (index : Int) : History :=
  amAt History.empty (t.histKey index) t.Histories

/-- The state after `getHistory(index)` was evaluated (the map creates a
default history when the key is absent). -/
def touchHistory (t : State) (index : Int) : State :=
  { t with Histories := amTouch History.empty (t.histKey index) t.Histories }

/-- The state after the history that `getHistory(index)` points to was
overwritten with `h`. -/
def setHistory (t : State) (index : Int) (h : History) : State :=
  { t with Histories := amSet (t.histKey index) h t.Histories }

/-- The throughput vector read by `TheoreticalThroughputTables[k]`. -/
def table (t : State) (k : TableKey) : List Int :=
  amAt [] k t.TheoreticalThroughputTables

/-- The state after `TheoreticalThroughputTables[k]` was evaluated. -/
def touchTable (t : State) (k : TableKey) : State :=
  { t with TheoreticalThroughputTables := amTouch [] k t.TheoreticalThroughputTables }

/-- The key `{mode, antennas, guardInterval}` of the current column. -/
def colKey (t : State) : ColKey := (t.mode, t.antennas, t.guardInterval)

/-- The column that `getColumn(mode, antennas, gi)` points to. -/
def column (t : State) (k : ColKey) : Column := amAt Column.empty k t.columns

/-- The state after `getColumn(mode, antennas, gi)` was evaluated. -/
def touchColumn (t : State) (k : ColKey) : State :=
  { t with columns := amTouch Column.empty k t.columns }

/-- The method `clearHistories`: `getHistory(i)->reset()` for `i` from 0 to
14. -/
def clearHistories (t : State) : State :=
  (List.range 15).foldl
    (fun u (i : Nat) => u.setHistory (Int.ofNat i) (u.history (Int.ofNat i)).reset) t

def getMaxSuccessLimit (t : State) : Int :=
  if t.mode = LEGACY then IWL_MVM_RS_LEGACY_SUCCESS_LIMIT
  else IWL_MVM_RS_NON_LEGACY_SUCCESS_LIMIT

def getMaxFailureLimit (t : State) : Int :=
  if t.mode = LEGACY then IWL_MVM_RS_LEGACY_FAILURE_LIMIT
  else IWL_MVM_RS_NON_LEGACY_FAILURE_LIMIT

def getTableCountLimit (t : State) : Int :=
  if t.mode = LEGACY then IWL_MVM_RS_LEGACY_TABLE_COUNT
  else IWL_MVM_RS_NON_LEGACY_TABLE_COUNT

def set_stay_in_table (now : Int) (t : State) : State :=
  { t with
    s := RS_STATE_STAY_IN_COLUMN
    total_failed := 0
    total_success := 0
    table_count := 0
    flush_timer := now
    visited_columns := [t.colKey] }

/-- The local `flush_interval_passed` of `stay_in_table`: false, and set from
the clock only `if (this->flush_timer)`. -/
def flush_interval_passed (now : Int) (t : State) : Bool :=
  if t.flush_timer ≠ 0 then
    decide (now - t.flush_timer ≥ 5000000000 * IWL_MVM_RS_STAY_IN_COLUMN_TIMEOUT)
  else false

def stay_in_table (now : Int) (t : State) : State :=
  if t.s = RS_STATE_STAY_IN_COLUMN then
    if t.total_failed > t.getMaxFailureLimit ∨ t.total_success > t.getMaxSuccessLimit ∨
        (t.columnScaling = false ∧ flush_interval_passed now t = true) then
      { t with
        s := RS_STATE_SEARCH_CYCLE_STARTED
        total_failed := 0
        total_success := 0
        table_count := 0
        flush_timer := 0
        visited_columns := [t.colKey] }
    else
      let u := { t with table_count := t.table_count + 1 }
      if u.table_count > u.getTableCountLimit then
        clearHistories { u with table_count := 0 }
      else u
  else t

/-- One of the two search loops of `getAdjacentRatesIndexes`, over the
indices `i` it visits in order: the first `i` whose history has a non-zero
ceiling (the `break`), or `INVALID_INDEX` when the loop runs out. -/
def scanRates (t : State) : List Int → Int × State
  | [] => (INVALID_INDEX, t)
  | i :: rest =>
    let u := t.touchHistory i
    if (u.history i).get_max_throughput ≠ 0 then (i, u) else scanRates u rest

/-- The vector `legacy_g_mapping` of `getAdjacentRatesIndexes`. -/
def legacy_g_mapping : List (Int × Int) :=
  [(-1, 1), (0, 2), (1, 3), (5, 6), (2, 3), (4, 3), (3, 7), (6, 8), (7, 9), (8, 10), (9, 11),
    (10, -1)]

/-- The method `getAdjacentRatesIndexes`.  The first loop visits
`index - 1, index - 2, ..., 0`, the second `index + 1, ..., max_index`; in
the Legacy class the result is `legacy_g_mapping[index]`, which is undefined
outside the vector. -/
def getAdjacentRatesIndexes (t : State) : Option ((Int × Int) × State) :=
  let max_index : Int := if t.bandWidth = 20 ∧ t.mode ≠ LEGACY then 13 else 14
  if t.type ≠ LEGACY_G then
    let lo := scanRates t ((List.range t.index.toNat).reverse.map Int.ofNat)
    let hi := scanRates lo.2
      ((List.range (max_index - t.index).toNat).map (fun k => t.index + 1 + Int.ofNat k))
    some ((lo.1, hi.1), hi.2)
  else if 0 ≤ t.index then
    (legacy_g_mapping[t.index.toNat]?).map (fun p => (p, t))
  else Option.none

/-- The method `MCSScaling`: the action, and the state after the history
lookups it makes. -/
def MCSScaling (t0 : State) (adjacentIndexes adjacentRates : Int × Int) : rs_action × State :=
  let t := t0.touchHistory t0.index
  let cur := t.history t.index
  if cur.success_ratio ≤ RS_PERCENT IWL_MVM_RS_SR_FORCE_DECREASE ∨ cur.average_tpt = 0 then
    (RS_ACTION_DOWNSCALE, t)
  else if adjacentRates.1 = INVALID_THROUGHPUT ∧ adjacentRates.2 = INVALID_THROUGHPUT ∧
      adjacentIndexes.2 ≠ INVALID_INDEX then
    (RS_ACTION_UPSCALE, t)
  else if adjacentRates.2 = INVALID_THROUGHPUT ∧ adjacentIndexes.2 ≠ INVALID_INDEX ∧
      adjacentRates.1 ≠ INVALID_THROUGHPUT ∧ adjacentRates.1 < cur.average_tpt then
    (RS_ACTION_UPSCALE, t)
  else if adjacentRates.2 ≠ INVALID_THROUGHPUT ∧ adjacentRates.2 > cur.average_tpt then
    (RS_ACTION_UPSCALE, t)
  else if adjacentRates.1 ≠ INVALID_THROUGHPUT ∧ adjacentRates.2 ≠ INVALID_THROUGHPUT ∧
      adjacentRates.1 < cur.average_tpt ∧ adjacentRates.2 < cur.average_tpt then
    (RS_ACTION_STAY, t)
  else
    let action : rs_action :=
      if adjacentRates.1 ≠ INVALID_THROUGHPUT ∧ adjacentRates.1 > cur.average_tpt then
        RS_ACTION_DOWNSCALE
      else if adjacentRates.1 = INVALID_THROUGHPUT ∧ adjacentIndexes.1 ≠ INVALID_INDEX then
        RS_ACTION_DOWNSCALE
      else RS_ACTION_STAY
    if action = RS_ACTION_DOWNSCALE ∧ adjacentIndexes.1 ≠ INVALID_INDEX then
      if cur.success_ratio ≥ RS_PERCENT IWL_MVM_RS_SR_NO_DECREASE then
        (RS_ACTION_STAY, t)
      else
        let u := t.touchHistory adjacentIndexes.1
        if (u.history u.index).average_tpt >
            100 * (u.history adjacentIndexes.1).get_max_throughput then
          (RS_ACTION_STAY, u)
        else (action, u)
    else (action, t)

/-- The loop of `getNextColumn` over the candidate list.  Dereferencing
`max_element` of an empty vector is undefined. -/
def getNextColumnLoop (visited_columns : List ColKey) :
    State → List ColKey → Option ((Bool × ColKey) × State)
  | t, [] => some ((false, (LEGACY, AntennaSet.ofList [A], LGI)), t)
  | t, key :: rest =>
    if key ∉ visited_columns then
      let bandWidth : bandwidth := if key.1 = LEGACY then BW_20 else t.bandWidth
      let k : TableKey := (key.1, bandWidth, key.2.2, t.agg)
      let u := t.touchTable k
      match (u.table k).max? with
      | Option.none => Option.none
      | some max_expected_tpt =>
        let v := u.touchHistory u.index
        if 100 * max_expected_tpt ≤ (v.history v.index).average_tpt then
          getNextColumnLoop visited_columns v rest
        else some ((true, key), v)
    else getNextColumnLoop visited_columns t rest

/-- The method `getNextColumn`. -/
def getNextColumn (t : State) (visited_columns : List ColKey) :
    Option ((Bool × ColKey) × State) :=
  let u := t.touchColumn t.colKey
  getNextColumnLoop visited_columns u (u.column u.colKey).next_columns

/-- The loop of `getNextIndex` over the new throughput vector, `i` being the
position of the head of the list. -/
def getNextIndexLoop (throughputThreshold : Int) : List Int → Int → Int → Int
  | [], _, newIndex => newIndex
  | x :: rest, i, newIndex =>
    let newIndex1 := if x ≠ 0 then i else newIndex
    if x * 100 > throughputThreshold then newIndex1
    else getNextIndexLoop throughputThreshold rest (i + 1) newIndex1

/-- The method `getNextIndex`. -/
def getNextIndex (t0 : State) (newColumnParameters : ColKey) : Int × State :=
  let t := t0.touchHistory t0.index
  let cur := t.history t.index
  let throughputThreshold : Int :=
    if cur.success_ratio ≥ RS_PERCENT IWL_MVM_RS_SR_NO_DECREASE then
      cur.get_max_throughput * 100
    else cur.average_tpt
  let k : TableKey := (newColumnParameters.1, t.bandWidth, newColumnParameters.2.2, t.agg)
  let u := t.touchTable k
  (getNextIndexLoop throughputThreshold (u.table k) 0 INVALID_INDEX, u)

/-- The column-trial branch of `RateScaling` (`if (this->columnScaling)`):
the state, then the locals `update_lq`, `done_search` and `index`. -/
def columnTrialStep (t : State) (index : Int) : State × Bool × Bool × Int :=
  if (t.history t.index).average_tpt > t.last_tpt then
    ({ t with columnScaling := false }, false, true, index)
  else
    let mode := t.oldColumnParameters.1
    ({ t with
        mode := mode
        antennas := t.oldColumnParameters.2.1
        guardInterval := t.oldColumnParameters.2.2.1
        bandWidth := t.oldColumnParameters.2.2.2.2
        type := if mode = LEGACY then LEGACY_G else NONE
        columnScaling := false },
      true, true, t.oldColumnParameters.2.2.2.1)

/-- The MCS-scaling branch of `RateScaling` (the `else` of
`if (this->columnScaling)`): the state, then the locals `update_lq`,
`done_search` and `index`. -/
def mcsScalingStep (t : State) (index : Int) : Option (State × Bool × Bool × Int) :=
  match getAdjacentRatesIndexes t with
  | Option.none => Option.none
  | some (adjacentIndexes, t1) =>
    let t2 := if adjacentIndexes.1 ≠ INVALID_INDEX then t1.touchHistory adjacentIndexes.1 else t1
    let rate0 : Int :=
      if adjacentIndexes.1 ≠ INVALID_INDEX then (t2.history adjacentIndexes.1).average_tpt
      else INVALID_THROUGHPUT
    let t3 := if adjacentIndexes.2 ≠ INVALID_INDEX then t2.touchHistory adjacentIndexes.2 else t2
    let rate1 : Int :=
      if adjacentIndexes.2 ≠ INVALID_INDEX then (t3.history adjacentIndexes.2).average_tpt
      else INVALID_THROUGHPUT
    let r := MCSScaling t3 adjacentIndexes (rate0, rate1)
    match r.1 with
    | RS_ACTION_DOWNSCALE =>
      if adjacentIndexes.1 ≠ INVALID_INDEX then some (r.2, true, false, adjacentIndexes.1)
      else some (r.2, false, false, index)
    | RS_ACTION_UPSCALE =>
      if adjacentIndexes.2 ≠ INVALID_INDEX then some (r.2, true, false, adjacentIndexes.2)
      else some (r.2, false, false, index)
    | RS_ACTION_STAY => some (r.2, false, false, index)

/-- The column search of `RateScaling` (the body of
`if (!update_lq && !done_search && ...)`): the state and the local
`done_search`, which was false on entry. -/
def columnSearchStep (t : State) : Option (State × Bool) :=
  let t1 := { t with last_tpt := (t.history t.index).average_tpt }
  match getNextColumn t1 t1.visited_columns with
  | Option.none => Option.none
  | some (findColumn, t2) =>
    if findColumn.1 = true then
      let newColumnParameters := findColumn.2
      let t3 := { t2 with
        oldColumnParameters := (t2.mode, t2.antennas, t2.guardInterval, t2.index, t2.bandWidth) }
      let next := getNextIndex t3 newColumnParameters
      let t4 := next.2
      let mode := newColumnParameters.1
      let t5 := { t4 with
        columnScaling := true
        mode := mode
        type := if mode = LEGACY then LEGACY_G else NONE
        bandWidth := if mode = LEGACY then t4.bandWidth else t4.maxWidth
        antennas := newColumnParameters.2.1
        guardInterval := newColumnParameters.2.2
        index := next.1 }
      let t6 := { t5 with visited_columns := setInsert t5.colKey t5.visited_columns }
      some (clearHistories t6, false)
    else
      some ({ t2 with s := RS_STATE_SEARCH_CYCLE_ENDED }, true)

/-- The tail of `RateScaling`, from `if (update_lq)` to the end. -/
def rateScalingTail (now : Int) (r : State × Bool × Bool × Int) : Option State :=
  let update_lq := r.2.1
  let done_search := r.2.2.1
  let t1 := if update_lq = true then { r.1 with index := r.2.2.2 } else r.1
  let t2 := stay_in_table now t1
  let searched : Option (State × Bool) :=
    if update_lq = false ∧ done_search = false ∧ t2.s = RS_STATE_SEARCH_CYCLE_STARTED then
      let t3 := t2.touchHistory t2.index
      if (t3.history t3.index).counter ≠ 0 then columnSearchStep t3
      else some (t3, done_search)
    else some (t2, done_search)
  match searched with
  | Option.none => Option.none
  | some (t4, done_search1) =>
    if done_search1 = true ∧ t4.s = RS_STATE_SEARCH_CYCLE_ENDED then
      some (set_stay_in_table now t4)
    else some t4

/-- The method `RateScaling`; `now` is the value of the simulator clock. -/
def RateScaling (now : Int) (t0 : State) : Option State :=
  let index := t0.index
  let t := t0.touchHistory t0.index
  if (t.history t.index).average_tpt = INVALID_THROUGHPUT then
    some (stay_in_table now t)
  else
    let first : Option (State × Bool × Bool × Int) :=
      if t.columnScaling = true then some (columnTrialStep t index)
      else mcsScalingStep t index
    match first with
    | Option.none => Option.none
    | some r => rateScalingTail now r

/-- One of the two recording loops of `State::tx`:
`for (int i = 0; i < n; ++i) this->getHistory()->tx(success)`. -/
def recordLoop (t : State) (n : Int) (success : Bool) : State :=
  Nat.iterate (fun u => u.setHistory u.index ((u.history u.index).tx success)) n.toNat t

/-- The method `State::tx` up to, and without, its final call of
`RateScaling`. -/
def txRecord (t : State) (success failed : Int) (ampdu : Bool) : State :=
  let failed1 : Int := if ampdu = true ∧ success = 0 then 1 else failed
  let t1 := recordLoop t success true
  let t2 := recordLoop t1 failed1 false
  if t2.s = RS_STATE_STAY_IN_COLUMN then
    { t2 with
      total_success := t2.total_success + success
      total_failed := t2.total_failed + failed1 }
  else t2

/-- The method `State::tx`. -/
def tx (now : Int) (t : State) (success failed : Int) (ampdu : Bool) : Option State :=
  RateScaling now (txRecord t success failed ampdu)

/-- The neighbours' average throughputs computed by `RateScaling` before it
calls `MCSScaling`: `INVALID_THROUGHPUT`, replaced by the neighbour's
`average_tpt()` when the neighbour index is not `INVALID_INDEX`. -/
def adjacentRates (t1 : State) (adjacentIndexes : Int × Int) : (Int × Int) × State :=
  let t2 := if adjacentIndexes.1 ≠ INVALID_INDEX then t1.touchHistory adjacentIndexes.1 else t1
  let rate0 : Int :=
    if adjacentIndexes.1 ≠ INVALID_INDEX then (t2.history adjacentIndexes.1).average_tpt
    else INVALID_THROUGHPUT
  let t3 := if adjacentIndexes.2 ≠ INVALID_INDEX then t2.touchHistory adjacentIndexes.2 else t2
  let rate1 : Int :=
    if adjacentIndexes.2 ≠ INVALID_INDEX then (t3.history adjacentIndexes.2).average_tpt
    else INVALID_THROUGHPUT
  ((rate0, rate1), t3)

/-- The `switch (scale_action)` of `RateScaling`: the locals `update_lq` and
`index` after it, `index` being the value of the local before it. -/
def scaleSwitch (scale_action : rs_action) (adjacentIndexes : Int × Int) (index : Int) :
    Bool × Int :=
  match scale_action with
  | RS_ACTION_DOWNSCALE =>
    if adjacentIndexes.1 ≠ INVALID_INDEX then (true, adjacentIndexes.1) else (false, index)
  | RS_ACTION_UPSCALE =>
    if adjacentIndexes.2 ≠ INVALID_INDEX then (true, adjacentIndexes.2) else (false, index)
  | RS_ACTION_STAY => (false, index)

/-- The statement `if (update_lq) this->index = index` of `RateScaling`,
applied to the result of its first half. -/
def applyIndex (r : State × Bool × Bool × Int) : State :=
  if r.2.1 = true then { r.1 with index := r.2.2.2 } else r.1

/-- The scalar fields of a state: the state with its three maps emptied.  Two
states with the same `control` differ in their maps only. -/
def control (t : State) : State :=
  { t with Histories := [], TheoreticalThroughputTables := [], columns := [] }

/-- The states a station can be in: the state built by `State(maxWidth)` and
every state that a report `tx(success, failed, ampdu)`, made at any clock
value, returns from such a state. -/
inductive Reachable (maxWidth : Int) : State → Prop
  | init : Reachable maxWidth (ofMaxWidth maxWidth)
  | report (now : Int) (t u : State) (success failed : Int) (ampdu : Bool) :
      Reachable maxWidth t → tx now t success failed ampdu = some u → Reachable maxWidth u

/-! ## getTxVector -/

/-- The `switch (index)` of `getTxVector` in Legacy mode: the rate name of each case, and
the empty string of the default-constructed `std::string` in the `default` case. -/
def legacyRateName (index : Int) : String :=
  if index = 0 then "DsssRate1Mbps"
  else if index = 1 then "DsssRate2Mbps"
  else if index = 2 then "DsssRate5_5Mbps"
  else if index = 3 then "DsssRate11Mbps"
  else if index = 4 then "OfdmRate6Mbps"
  else if index = 5 then "OfdmRate9Mbps"
  else if index = 6 then "OfdmRate12Mbps"
  else if index = 7 then "OfdmRate18Mbps"
  else if index = 8 then "OfdmRate24Mbps"
  else if index = 9 then "OfdmRate36Mbps"
  else if index = 10 then "OfdmRate48Mbps"
  else if index = 11 then "OfdmRate54Mbps"
  else ""

/-- The local variables `rate` and `nss` of `getTxVector` when it reaches
`ns3::WifiMode mode(rate)`; `std::to_string` is `toString` on `Int`. -/
def txRate (t : State) (vht : Bool) : String × Int :=
  if t.mode = SISO then
    let index : Int := if t.index = 4 then 0 else t.index - 5
    if vht = false then ("HtMcs" ++ toString index, 1)
    else ("VhtMcs" ++ toString index, 1)
  else if t.mode = MIMO then
    if vht = false then
      let index : Int := if t.index = 4 then 8 else t.index + 3
      ("HtMcs" ++ toString index, 2)
    else
      let index : Int := if t.index = 4 then 0 else t.index - 5
      ("VhtMcs" ++ toString index, 2)
  else
    let index : Int := if t.index ≤ 4 then 4 else t.index
    (legacyRateName index, 1)

set_option linter.unusedVariables false in
/-- The method `getTxVector(bool ht, bool vht)`.  The `ns3::WifiMode` is represented by the
rate name it is built from; the components keep the order of `std::make_tuple`.  The
method reads the state and assigns to no member, so the model returns the tuple only. -/
def getTxVector (t : State) (ht vht : Bool) :
    String × Int × Int × Int × Int × Int × Bool × Bool :=
  ((txRate t vht).1, (if t.guardInterval = LGI then 800 else 400), t.antennas.size,
    (txRate t vht).2, 0, t.bandWidth, decide (t.agg = AGG), false)

/-! ## Runs of reports -/

/-- A sequence of transmission reports `(now, success, failed, ampdu)`, each passed to `tx`
in turn; the run has no result once a report runs into undefined behaviour. -/
def reports : Option State → List (Int × Int × Int × Bool) → Option State
  | Option.none, _ => Option.none
  | some t, [] => some t
  | some t, r :: rest => reports (tx r.1 t r.2.1 r.2.2.1 r.2.2.2) rest

/-- The histories of all table slots, in the order in which `State(int maxWidth)` creates
them, each holding the outcomes that `slots` lists for its key (none when not listed). -/
def slotList (slots : List (HistKey × List Bool)) : List (HistKey × History) :=
  buildTheoreticalThroughputTables.flatMap fun t =>
    (List.range t.2.length).map fun (i : Nat) =>
      ((t.1.1, t.1.2.1, t.1.2.2.1, t.1.2.2.2, Int.ofNat i),
        (⟨amAt [] (t.1.1, t.1.2.1, t.1.2.2.1, t.1.2.2.2, Int.ofNat i) slots,
          t.2.getD i 0⟩ : History))

/-- A state with the scalar fields of `c`, the tables and columns of the constructor, and
the histories `slotList slots`. -/
def withSlots (c : State) (slots : List (HistKey × List Bool)) : State :=
  { c with
    TheoreticalThroughputTables := buildTheoreticalThroughputTables
    Histories := slotList slots
    columns := buildColumns }

/-- Eighteen reports, the twelfth made 25 s after the others, that take a station of maximum
width 40 from its constructed state into a column trial of Legacy antenna A at 40 MHz:
a trial of Legacy B is rolled back, a trial of SISO A is kept, the trials of SISO B, MIMO
and SISO A short-GI are rolled back, the search finds nothing left, the timed expiry
restarts the cycle, and the same three trials are rolled back once more. -/
def legacyTrialReports : List (Int × Int × Int × Bool) :=
  [(1, 1, 6, true), (1, 1, 6, true), (1, 0, 1, false), (1, 1, 3, true), (1, 1, 9, true),
   (1, 1, 6, true), (1, 0, 1, false), (1, 1, 12, true), (1, 0, 1, false), (1, 1, 9, true),
   (1, 0, 1, false), (25000000001, 0, 1, false), (1, 1, 11, true), (1, 0, 1, false),
   (1, 1, 20, true), (1, 0, 1, false), (1, 1, 15, true), (1, 0, 1, false)]

/-- The states that the run `legacyTrialReports` passes after 2, 4, ..., 16 reports
(`legacyTrialCheckpoint 1` to `legacyTrialCheckpoint 8`). -/
def legacyTrialCheckpoint : Nat → State
  | 1 =>
    withSlots
      { State.default with
        last_tpt := 100
        maxWidth := 40
        visited_columns :=
          [(LEGACY, AntennaSet.ofList [A], LGI), (LEGACY, AntennaSet.ofList [B], LGI)]
        oldColumnParameters := (LEGACY, AntennaSet.ofList [A], LGI, 0, 20) }
      [((LEGACY, 20, LGI, NO_AGG, 0), List.replicate 6 false ++ [true])]
  | 2 =>
    withSlots
      { State.default with
        last_tpt := 88
        index := 4
        mode := SISO
        type := NONE
        bandWidth := 40
        maxWidth := 40
        visited_columns :=
          [(LEGACY, AntennaSet.ofList [A], LGI), (LEGACY, AntennaSet.ofList [B], LGI),
           (SISO, AntennaSet.ofList [A], LGI)]
        oldColumnParameters := (LEGACY, AntennaSet.ofList [A], LGI, 0, 20) }
      [((LEGACY, 20, LGI, NO_AGG, 0), List.replicate 7 false ++ [true]),
       ((SISO, 40, LGI, NO_AGG, 4), List.replicate 3 false ++ [true])]
  | 3 =>
    withSlots
      { State.default with
        last_tpt := 1100
        index := 4
        mode := SISO
        type := NONE
        bandWidth := 40
        maxWidth := 40
        visited_columns :=
          [(LEGACY, AntennaSet.ofList [A], LGI), (LEGACY, AntennaSet.ofList [B], LGI),
           (SISO, AntennaSet.ofList [A], LGI), (SISO, AntennaSet.ofList [B], LGI)]
        oldColumnParameters := (SISO, AntennaSet.ofList [A], LGI, 4, 40) }
      [((LEGACY, 20, LGI, NO_AGG, 0), List.replicate 7 false ++ [true]),
       ((SISO, 40, LGI, NO_AGG, 4), List.replicate 6 false ++ [true])]
  | 4 =>
    withSlots
      { State.default with
        last_tpt := 963
        index := 4
        mode := SISO
        type := NONE
        bandWidth := 40
        maxWidth := 40
        visited_columns :=
          [(LEGACY, AntennaSet.ofList [A], LGI), (LEGACY, AntennaSet.ofList [B], LGI),
           (SISO, AntennaSet.ofList [A], LGI), (SISO, AntennaSet.ofList [B], LGI),
           (MIMO, AntennaSet.ofList [A, B], LGI)]
        oldColumnParameters := (SISO, AntennaSet.ofList [A], LGI, 4, 40) }
      [((LEGACY, 20, LGI, NO_AGG, 0), List.replicate 7 false ++ [true]),
       ((SISO, 40, LGI, NO_AGG, 4), List.replicate 7 false ++ [true]),
       ((MIMO, 40, LGI, NO_AGG, 4), List.replicate 12 false ++ [true])]
  | 5 =>
    withSlots
      { State.default with
        last_tpt := 855
        index := 4
        mode := SISO
        type := NONE
        bandWidth := 40
        maxWidth := 40
        visited_columns :=
          [(LEGACY, AntennaSet.ofList [A], LGI), (LEGACY, AntennaSet.ofList [B], LGI),
           (SISO, AntennaSet.ofList [A], LGI), (SISO, AntennaSet.ofList [B], LGI),
           (MIMO, AntennaSet.ofList [A, B], LGI), (SISO, AntennaSet.ofList [A], SGI)]
        oldColumnParameters := (SISO, AntennaSet.ofList [A], LGI, 4, 40) }
      [((LEGACY, 20, LGI, NO_AGG, 0), List.replicate 7 false ++ [true]),
       ((SISO, 40, LGI, NO_AGG, 4), List.replicate 8 false ++ [true]),
       ((SISO, 40, SGI, NO_AGG, 4), List.replicate 9 false ++ [true]),
       ((MIMO, 40, LGI, NO_AGG, 4), List.replicate 12 false ++ [true])]
  | 6 =>
    withSlots
      { State.default with
        columnScaling := true
        last_tpt := 700
        index := 4
        mode := SISO
        type := NONE
        bandWidth := 40
        maxWidth := 40
        antennas := AntennaSet.ofList [B]
        visited_columns :=
          [(SISO, AntennaSet.ofList [A], LGI), (SISO, AntennaSet.ofList [B], LGI)]
        oldColumnParameters := (SISO, AntennaSet.ofList [A], LGI, 4, 40) }
      [((LEGACY, 20, LGI, NO_AGG, 0), List.replicate 7 false ++ [true]),
       ((SISO, 40, SGI, NO_AGG, 4), List.replicate 9 false ++ [true]),
       ((MIMO, 40, LGI, NO_AGG, 4), List.replicate 12 false ++ [true])]
  | 7 =>
    withSlots
      { State.default with
        columnScaling := true
        last_tpt := 592
        index := 4
        mode := MIMO
        type := NONE
        bandWidth := 40
        maxWidth := 40
        antennas := AntennaSet.ofList [A, B]
        visited_columns :=
          [(SISO, AntennaSet.ofList [A], LGI), (SISO, AntennaSet.ofList [B], LGI),
           (MIMO, AntennaSet.ofList [A, B], LGI)]
        oldColumnParameters := (SISO, AntennaSet.ofList [A], LGI, 4, 40) }
      [((LEGACY, 20, LGI, NO_AGG, 0), List.replicate 7 false ++ [true]),
       ((SISO, 40, LGI, NO_AGG, 4), List.replicate 12 false ++ [true]),
       ((SISO, 40, SGI, NO_AGG, 4), List.replicate 9 false ++ [true])]
  | 8 =>
    withSlots
      { State.default with
        columnScaling := true
        last_tpt := 550
        index := 4
        mode := SISO
        type := NONE
        bandWidth := 40
        maxWidth := 40
        guardInterval := SGI
        visited_columns :=
          [(SISO, AntennaSet.ofList [A], LGI), (SISO, AntennaSet.ofList [B], LGI),
           (MIMO, AntennaSet.ofList [A, B], LGI), (SISO, AntennaSet.ofList [A], SGI)]
        oldColumnParameters := (SISO, AntennaSet.ofList [A], LGI, 4, 40) }
      [((LEGACY, 20, LGI, NO_AGG, 0), List.replicate 7 false ++ [true]),
       ((SISO, 40, LGI, NO_AGG, 4), List.replicate 13 false ++ [true]),
       ((MIMO, 40, LGI, NO_AGG, 4), List.replicate 20 false ++ [true])]
  | _ => State.default

/-- The state in which the run `legacyTrialReports` starts its last report. -/
def legacyTrialBefore : State :=
  withSlots
    { State.default with
      last_tpt := 550
      index := 4
      mode := SISO
      type := NONE
      bandWidth := 40
      maxWidth := 40
      visited_columns :=
        [(SISO, AntennaSet.ofList [A], LGI), (SISO, AntennaSet.ofList [B], LGI),
         (MIMO, AntennaSet.ofList [A, B], LGI), (SISO, AntennaSet.ofList [A], SGI)]
      oldColumnParameters := (SISO, AntennaSet.ofList [A], LGI, 4, 40) }
    [((LEGACY, 20, LGI, NO_AGG, 0), List.replicate 7 false ++ [true]),
     ((SISO, 40, LGI, NO_AGG, 4), List.replicate 13 false ++ [true]),
     ((SISO, 40, SGI, NO_AGG, 4), List.replicate 15 false ++ [true]),
     ((MIMO, 40, LGI, NO_AGG, 4), List.replicate 20 false ++ [true])]

/-- The state in which the run `legacyTrialReports` ends. -/
def legacyTrialState : State :=
  { State.default with
    columnScaling := true
    last_tpt := 513
    index := -1
    bandWidth := 40
    maxWidth := 40
    visited_columns :=
      [(SISO, AntennaSet.ofList [A], LGI), (SISO, AntennaSet.ofList [B], LGI),
       (MIMO, AntennaSet.ofList [A, B], LGI), (SISO, AntennaSet.ofList [A], SGI),
       (LEGACY, AntennaSet.ofList [A], LGI)]
    oldColumnParameters := (SISO, AntennaSet.ofList [A], LGI, 4, 40)
    TheoreticalThroughputTables :=
      buildTheoreticalThroughputTables ++ [((LEGACY, 40, LGI, NO_AGG), [])]
    Histories :=
      slotList
        [((LEGACY, 20, LGI, NO_AGG, 0), List.replicate 7 false ++ [true]),
         ((SISO, 40, LGI, NO_AGG, 4), List.replicate 14 false ++ [true]),
         ((SISO, 40, SGI, NO_AGG, 4), List.replicate 15 false ++ [true]),
         ((MIMO, 40, LGI, NO_AGG, 4), List.replicate 20 false ++ [true])] ++
      (List.range 15).map fun (i : Nat) =>
        ((LEGACY, 40, LGI, NO_AGG, Int.ofNat i), History.empty)
    columns := buildColumns }

/-! ## The column graph -/

/-- An edge of the column graph: `b` is one of the candidates that the column registered
under `a` by `buildColumns` lists. -/
def columnEdge (a b : ColKey) : Prop :=
  b ∈ (amAt Column.empty a buildColumns).next_columns

instance columnEdgeDecidable (a b : ColKey) : Decidable (columnEdge a b) :=
  inferInstanceAs (Decidable (b ∈ (amAt Column.empty a buildColumns).next_columns))

/-! ## The visited-set invariant -/

/-- The column recorded in the rollback snapshot. -/
def oldColKey (t : State) : ColKey :=
  (t.oldColumnParameters.1, t.oldColumnParameters.2.1, t.oldColumnParameters.2.2.1)

/-- The invariant behind the visited set: the current column is visited, the phase is
never the transient `SearchCycleEnded`, and while a column trial is active the phase is
`SearchCycleStarted` and the column to roll back to is visited as well. -/
def VisitedInv (t : State) : Prop :=
  t.colKey ∈ t.visited_columns ∧ t.s ≠ RS_STATE_SEARCH_CYCLE_ENDED ∧
    (t.columnScaling = true →
      t.s = RS_STATE_SEARCH_CYCLE_STARTED ∧ t.oldColKey ∈ t.visited_columns) ∧
    (t.s = RS_STATE_STAY_IN_COLUMN → t.visited_columns = [t.colKey])

/-! ## Column search: the values it reads -/

/-- The throughput vector that `getNextColumn` reads for the candidate `c`:
`TheoreticalThroughputTables[(mode, bandWidth, gi, agg)]` with the local `bandWidth` set
to `BW_20` for a Legacy candidate and to the current bandwidth otherwise. -/
def candidateTable (t : State) (c : ColKey) : List Int :=
  t.table (c.1, (if c.1 = LEGACY then BW_20 else t.bandWidth), c.2.2, t.agg)

/-- The two conditions on a candidate in the words of the specification: it is not in the
visited set, and 100 times the maximum entry of its throughput table is strictly greater
than the current average throughput. -/
def eligibleColumn (t : State) (visited_columns : List ColKey) (c : ColKey) : Prop :=
  c ∉ visited_columns ∧
    ∃ m, (candidateTable t c).max? = some m ∧ 100 * m > (t.history t.index).average_tpt

/-- The local variable `throughputThreshold` of `getNextIndex`. -/
def throughputThreshold (t : State) : Int :=
  if (t.history t.index).success_ratio ≥ RS_PERCENT IWL_MVM_RS_SR_NO_DECREASE then
    (t.history t.index).get_max_throughput * 100
  else (t.history t.index).average_tpt

/-- Whether every state of a run of reports, the first and the last included, is defined
and outside the phase StayInColumn. -/
def neverStays : State → List (Int × Int × Int × Bool) → Bool
  | t, [] => decide (t.s ≠ RS_STATE_STAY_IN_COLUMN)
  | t, r :: rest =>
    decide (t.s ≠ RS_STATE_STAY_IN_COLUMN) &&
      match tx r.1 t r.2.1 r.2.2.1 r.2.2.2 with
      | Option.none => false
      | some u => neverStays u rest

/-! ## The rate class and the mode -/

/-- The invariant behind the test `type != LEGACY_G` of `getAdjacentRatesIndexes`: the rate
class is Legacy-G exactly when the mode is Legacy. -/
def ClassInv (t : State) : Prop := t.type = LEGACY_G ↔ t.mode = LEGACY

/-! ## Recording on one history -/

/-- The two recording loops of `State::tx`, on the history they act on: `success`
successes, then the failures, one failure for an aggregate without success. -/
def recordReport (h : History) (success failed : Int) (ampdu : Bool) : History :=
  (h.txLoop success true).txLoop (if ampdu = true ∧ success = 0 then 1 else failed) false

/-- The recording loops of a run of reports `(now, success, failed, ampdu)`, all acting on
the same history. -/
def recordReports (h : History) (l : List (Int × Int × Int × Bool)) : History :=
  l.foldl (fun g r => recordReport g r.2.1 r.2.2.1 r.2.2.2) h

end State

/-! ## class Quaternion (quaternion.cc), over real arithmetic -/

/-- The class `Vector` as `quaternion.cc` uses it: the three coordinates. -/
structure Vector where
  x : ℝ
  y : ℝ
  z : ℝ

/-- Modelled from the spec: the function `Dot` of `ns3/vector.h`, which is not among the
sources; the scalar product that the claim writes `v.u`. -/
def Dot (a b : Vector) : ℝ := a.x * b.x + a.y * b.y + a.z * b.z

/-- Modelled from the spec: the function `Cross` of `ns3/vector.h`, which is not among the
sources; the vector product that the claim writes `v x u`. -/
def Cross (a b : Vector) : Vector :=
  ⟨a.y * b.z - a.z * b.y, a.z * b.x - a.x * b.z, a.x * b.y - a.y * b.x⟩

namespace Vector

/-- Modelled from the spec: `operator*(double, const Vector &)` of `ns3/vector.h`, which
is not among the sources; the product of a vector by a scalar. -/
def scale (k : ℝ) (v : Vector) : Vector := ⟨k * v.x, k * v.y, k * v.z⟩

/-- Modelled from the spec: `operator+(const Vector &, const Vector &)` of
`ns3/vector.h`, which is not among the sources; the sum of two vectors. -/
def add (a b : Vector) : Vector := ⟨a.x + b.x, a.y + b.y, a.z + b.z⟩

end Vector

/-- The class `Quaternion`: its four coordinates, as real numbers. -/
structure Quaternion where
  x : ℝ
  y : ℝ
  z : ℝ
  w : ℝ

namespace Quaternion

/-- The constructor `Quaternion(const double &angle, const Vector &v)`. -/
noncomputable def ofAngleAxis (angle : ℝ) (v : Vector) : Quaternion :=
  let s := Real.sin (angle * 0.5)
  ⟨v.x * s, v.y * s, v.z * s, Real.cos (angle * 0.5)⟩

noncomputable def GetLength (q : Quaternion) : ℝ :=
  Real.sqrt (q.x * q.x + q.y * q.y + q.z * q.z + q.w * q.w)

/-- The method `angle`.  The argument `1/2` of `std::cos` is a division of two `int`
literals, hence 0. -/
noncomputable def angle (q : Quaternion) : ℝ :=
  if |q.w| > Real.cos ((Int.tdiv 1 2 : Int) : ℝ) then
    2 * Real.arcsin (Real.sqrt (q.x * q.x + q.y * q.y + q.z * q.z))
  else 2 * Real.arccos q.w

noncomputable def normalize (q : Quaternion) : Quaternion :=
  let length := q.GetLength
  ⟨q.x / length, q.y / length, q.z / length, q.w / length⟩

/-- The method `rotate`:
`2.0 * Dot(u, v) * u + (w*w - Dot(u, u)) * v + 2.0 * w * Cross(u, v)`. -/
noncomputable def rotate (q : Quaternion) (v : Vector) : Vector :=
  let u : Vector := ⟨q.x, q.y, q.z⟩
  Vector.add
    (Vector.add (Vector.scale (2.0 * Dot u v) u) (Vector.scale (q.w * q.w - Dot u u) v))
    (Vector.scale (2.0 * q.w) (Cross u v))

end Quaternion

/-! # Theorems -/

namespace History

/-! ## Lemmas on History -/

theorem tx_data (h : History) (b : Bool) : (h.tx b).data = (b :: h.data).take 62 := by
  unfold tx
  by_cases hlen : (b :: h.data).length > 62
  · simp only [hlen, if_true]
  · simp only [hlen, if_false]
    exact (List.take_of_length_le (by omega)).symm

theorem tx_max (h : History) (b : Bool) : (h.tx b).max_throughput = h.max_throughput := rfl

theorem iterate_tx_max (b : Bool) (n : Nat) (h : History) :
    (Nat.iterate (fun g : History => g.tx b) n h).max_throughput = h.max_throughput := by
  induction n generalizing h with
  | zero => rfl
  | succ n ih => rw [Function.iterate_succ_apply, ih, tx_max]

theorem take_append_take (k : Nat) (a l : List Bool) :
    (a ++ l.take k).take k = (a ++ l).take k := by
  rw [List.take_append_eq_append_take, List.take_append_eq_append_take, List.take_take]
  congr 2
  omega

theorem iterate_tx_data (b : Bool) (n : Nat) (h : History) :
    (Nat.iterate (fun g : History => g.tx b) (n + 1) h).data
      = (List.replicate (n + 1) b ++ h.data).take 62 := by
  induction n generalizing h with
  | zero => simp [tx_data]
  | succ n ih =>
    rw [Function.iterate_succ_apply, ih, tx_data, take_append_take,
      List.replicate_succ' (n + 1), List.append_assoc]
    rfl

theorem txLoop_zero (h : History) (n : Int) (b : Bool) (hn : n ≤ 0) : h.txLoop n b = h := by
  unfold txLoop
  rw [Int.toNat_eq_zero.mpr hn]
  rfl

theorem txLoop_data (h : History) (n : Int) (b : Bool) (hn : 0 < n) :
    (h.txLoop n b).data = (List.replicate n.toNat b ++ h.data).take 62 := by
  unfold txLoop
  obtain ⟨k, hk⟩ : ∃ k, n.toNat = k + 1 := ⟨n.toNat - 1, by omega⟩
  rw [hk, iterate_tx_data]

theorem txLoop_max (h : History) (n : Int) (b : Bool) :
    (h.txLoop n b).max_throughput = h.max_throughput := iterate_tx_max b _ h


theorem count_true_add_count_false (l : List Bool) :
    l.count true + l.count false = l.length := by
  induction l with
  | nil => rfl
  | cons b l ih => cases b <;> simp [List.count_cons] <;> omega

theorem filter_length_true (l : List Bool) :
    (l.filter (fun b => b = true)).length = l.count true := by
  rw [List.count, List.countP_eq_length_filter]
  congr 2

theorem filter_length_false (l : List Bool) :
    (l.filter (fun b => b = false)).length = l.count false := by
  rw [List.count, List.countP_eq_length_filter]
  congr 2

/-- Claim C1: after `History::tx` the number of stored outcomes is
`min (previous count + 1) 62`, hence never more than 62, for every history and
every outcome. -/
theorem tx_counter_le (h : History) (b : Bool) :
    (h.tx b).counter = min (h.counter + 1) 62 ∧ (h.tx b).counter ≤ 62 := by
  have hlen : (h.tx b).data.length = min (h.data.length + 1) 62 := by
    rw [tx_data, List.length_take, List.length_cons, Nat.min_comm]
  unfold counter
  rw [hlen]
  constructor
  · omega
  · omega

/-- Claim C2: `History::tx` stores the new outcome first and drops the oldest:
the outcome list after `tx(b)` is the first 62 elements of `b :: d`, and the
ceiling of the slot is untouched. -/
theorem tx_newest_first (h : History) (b : Bool) :
    (h.tx b).data = (b :: h.data).take 62 ∧ (h.tx b).max_throughput = h.max_throughput :=
  ⟨tx_data h b, rfl⟩

/-- Claim C3: on a non-empty history `success_counter` is the number of true
entries, `fail_counter` the number of false entries, and they sum to `counter`;
on the empty history both return the sentinel -1. -/
theorem counters_spec (h : History) :
    (h.data ≠ [] →
      h.success_counter = ((h.data.filter (fun b => b = true)).length : Int) ∧
      h.fail_counter = ((h.data.filter (fun b => b = false)).length : Int) ∧
      h.success_counter + h.fail_counter = h.counter) ∧
    (h.data = [] → h.success_counter = -1 ∧ h.fail_counter = -1) := by
  constructor
  · intro hne
    have he : h.data.isEmpty = false := by
      cases hd : h.data with
      | nil => exact absurd hd hne
      | cons a l => rfl
    unfold success_counter fail_counter counter
    simp only [he, Bool.false_eq_true, if_false, filter_length_true, filter_length_false]
    refine ⟨trivial, trivial, ?_⟩
    exact_mod_cast count_true_add_count_false h.data
  · intro he
    unfold success_counter fail_counter
    simp [he]

theorem counters_spec_witness :
    (History.mk [true, false, true] 7).success_counter = 2 ∧
    (History.mk [true, false, true] 7).fail_counter = 1 ∧
    (History.mk [] 7).success_counter = -1 := by
  have h1 := (counters_spec (History.mk [true, false, true] 7)).1 (by decide)
  have h2 := (counters_spec (History.mk [] 7)).2 rfl
  exact ⟨h1.1, h1.2.1, h2.1⟩


theorem isEmpty_false_of_ne (h : History) (hne : h.data ≠ []) : h.data.isEmpty = false := by
  cases hd : h.data with
  | nil => exact absurd hd hne
  | cons a l => rfl

theorem success_counter_of_ne (h : History) (hne : h.data ≠ []) :
    h.success_counter = (h.data.count true : Int) := by
  unfold success_counter
  simp [isEmpty_false_of_ne h hne]

theorem fail_counter_of_ne (h : History) (hne : h.data ≠ []) :
    h.fail_counter = (h.data.count false : Int) := by
  unfold fail_counter
  simp [isEmpty_false_of_ne h hne]

theorem success_ratio_of_ne (h : History) (hne : h.data ≠ []) :
    h.success_ratio = (128 * 100 * (h.data.count true : Int)) / (h.data.length : Int) := by
  have hpos : 0 < h.data.length := List.length_pos.mpr hne
  unfold success_ratio counter
  rw [if_pos (by exact_mod_cast hpos), success_counter_of_ne h hne]
  exact Int.tdiv_eq_ediv (by positivity) (by positivity)

theorem success_ratio_of_nil (h : History) (he : h.data = []) : h.success_ratio = -1 := by
  unfold success_ratio counter
  simp [he]

theorem success_ratio_nonneg (h : History) (hne : h.data ≠ []) : 0 ≤ h.success_ratio := by
  rw [success_ratio_of_ne h hne]
  positivity

/-- Claim C4: on a non-empty history `success_ratio` is the integer quotient
of `128 * 100 * successes` by the number of stored outcomes; on the empty
history it is -1. -/
theorem success_ratio_spec (h : History) :
    (h.data ≠ [] →
      h.success_ratio =
        (128 * 100 * ((h.data.filter (fun b => b = true)).length : Int)) / (h.data.length : Int)) ∧
    (h.data = [] → h.success_ratio = -1) := by
  refine ⟨fun hne => ?_, success_ratio_of_nil h⟩
  rw [filter_length_true]
  exact success_ratio_of_ne h hne

theorem success_ratio_spec_witness :
    (History.mk [true, false, true] 7).success_ratio = 8533 ∧
    (History.mk [] 7).success_ratio = -1 := by
  refine ⟨?_, (success_ratio_spec (History.mk [] 7)).2 rfl⟩
  have h1 := (success_ratio_spec (History.mk [true, false, true] 7)).1 (by decide)
  rw [h1]
  decide

/-- Claim C5: with a non-negative ceiling, `average_tpt` is the sentinel -1
exactly when the history holds fewer than 3 failures and fewer than 8
successes; otherwise it is `(success_ratio * ceiling + 64) / 128`, a value
different from the sentinel. -/
theorem average_tpt_spec (h : History) (hm : 0 ≤ h.max_throughput) :
    (h.average_tpt = -1 ↔
      ((h.data.filter (fun b => b = false)).length < 3 ∧
        (h.data.filter (fun b => b = true)).length < 8)) ∧
    (¬ ((h.data.filter (fun b => b = false)).length < 3 ∧
        (h.data.filter (fun b => b = true)).length < 8) →
      h.average_tpt = (h.success_ratio * h.max_throughput + 64) / 128 ∧ h.average_tpt ≠ -1) := by
  rw [filter_length_true, filter_length_false]
  by_cases he : h.data = []
  · have havg : h.average_tpt = -1 := by
      unfold average_tpt success_counter fail_counter IWL_MVM_RS_RATE_MIN_FAILURE_TH
        IWL_MVM_RS_RATE_MIN_SUCCESS_TH INVALID_THROUGHPUT
      simp [he]
    simp [havg, he]
  · have hsr := success_ratio_nonneg h he
    have hnum : 0 ≤ h.success_ratio * h.max_throughput + 64 := by positivity
    by_cases hc : (h.data.count false < 3 ∧ h.data.count true < 8)
    · have havg : h.average_tpt = -1 := by
        unfold average_tpt IWL_MVM_RS_RATE_MIN_FAILURE_TH IWL_MVM_RS_RATE_MIN_SUCCESS_TH
        rw [success_counter_of_ne h he, fail_counter_of_ne h he, if_neg]
        omega
      simp [havg, hc]
    · have havg : h.average_tpt = (h.success_ratio * h.max_throughput + 64) / 128 := by
        unfold average_tpt get_max_throughput IWL_MVM_RS_RATE_MIN_FAILURE_TH
          IWL_MVM_RS_RATE_MIN_SUCCESS_TH
        rw [success_counter_of_ne h he, fail_counter_of_ne h he, if_pos]
        · exact Int.tdiv_eq_ediv hnum (by decide)
        · omega
      have hge : 0 ≤ h.average_tpt := by
        rw [havg]
        exact Int.ediv_nonneg hnum (by decide)
      refine ⟨⟨fun h1 => by omega, fun h1 => absurd h1 hc⟩, fun _ => ⟨havg, by omega⟩⟩

theorem average_tpt_spec_witness :
    (History.mk [false, false, false, true] 7).average_tpt = 175 ∧
    (History.mk [true, false, true] 7).average_tpt = -1 := by
  have h1 := average_tpt_spec (History.mk [false, false, false, true] 7) (by decide)
  have h2 := average_tpt_spec (History.mk [true, false, true] 7) (by decide)
  refine ⟨?_, h2.1.mpr (by decide)⟩
  rw [(h1.2 (by decide)).1]
  decide

/-- Claim C6: for two histories of the same non-zero length, the one with at
least as many true outcomes has at least as large a `success_ratio`. -/
theorem success_ratio_mono (h1 h2 : History) (hlen : h1.data.length = h2.data.length)
    (hpos : 0 < h1.data.length)
    (hc : (h2.data.filter (fun b => b = true)).length ≤
      (h1.data.filter (fun b => b = true)).length) :
    h2.success_ratio ≤ h1.success_ratio := by
  rw [filter_length_true, filter_length_true] at hc
  have hne1 : h1.data ≠ [] := List.length_pos.mp hpos
  have hne2 : h2.data ≠ [] := List.length_pos.mp (hlen ▸ hpos)
  rw [success_ratio_of_ne h1 hne1, success_ratio_of_ne h2 hne2, hlen]
  apply Int.ediv_le_ediv
  · exact_mod_cast (hlen ▸ hpos)
  · have : (h2.data.count true : Int) ≤ (h1.data.count true : Int) := by exact_mod_cast hc
    omega

theorem success_ratio_mono_witness :
    (History.mk [true, false, false] 7).success_ratio ≤
      (History.mk [true, false, true] 7).success_ratio :=
  success_ratio_mono (History.mk [true, false, true] 7) (History.mk [true, false, false] 7)
    (by decide) (by decide) (by decide)


theorem count_true_le_length (l : List Bool) : l.count true ≤ l.length := List.count_le_length _ _

theorem success_ratio_le (h : History) : h.success_ratio ≤ 12800 := by
  by_cases he : h.data = []
  · rw [success_ratio_of_nil h he]
    decide
  · rw [success_ratio_of_ne h he]
    have hpos : 0 < h.data.length := List.length_pos.mpr he
    apply Int.ediv_le_of_le_mul (by exact_mod_cast hpos)
    have : (h.data.count true : Int) ≤ (h.data.length : Int) := by
      exact_mod_cast count_true_le_length h.data
    omega

theorem success_ratio_ge (h : History) : -1 ≤ h.success_ratio := by
  by_cases he : h.data = []
  · rw [success_ratio_of_nil h he]
  · have := success_ratio_nonneg h he
    omega

/-- The intermediate values of `success_ratio` and `average_tpt` fit a 32-bit
`int` for every window of at most 62 outcomes and every ceiling that is `-1`
(the member initialiser) or at most 11640 (the largest table entry). -/
theorem average_tpt_fits_int32 (h : History) (hlen : h.data.length ≤ 62)
    (hm0 : -1 ≤ h.max_throughput) (hm : h.max_throughput ≤ 11640) :
    -2147483648 ≤ 128 * 100 * h.success_counter ∧ 128 * 100 * h.success_counter ≤ 2147483647 ∧
    -2147483648 ≤ h.success_ratio * h.max_throughput + 64 ∧
    h.success_ratio * h.max_throughput + 64 ≤ 2147483647 := by
  have h1 : -1 ≤ h.success_counter ∧ h.success_counter ≤ 62 := by
    unfold success_counter INVALID_THROUGHPUT
    split_ifs
    · exact ⟨le_refl _, by decide⟩
    · have : (h.data.count true : Int) ≤ (h.data.length : Int) := by
        exact_mod_cast count_true_le_length h.data
      have : (h.data.length : Int) ≤ 62 := by exact_mod_cast hlen
      omega
  have h2 := success_ratio_le h
  have h3 := success_ratio_ge h
  refine ⟨by omega, by omega, ?_, ?_⟩
  · nlinarith
  · nlinarith


theorem count_take_two (k s f : Nat) (b x y : Bool) (d : List Bool) :
    ((List.replicate f x ++ (List.replicate s y ++ d)).take k).count b
      = (if x = b then min k f else 0) + (if y = b then min (k - f) s else 0)
        + (d.take (k - f - s)).count b := by
  rw [List.take_append_eq_append_take, List.take_append_eq_append_take]
  simp only [List.take_replicate, List.count_append, List.count_replicate, List.length_replicate,
    beq_iff_eq]
  omega

theorem length_take_two (k s f : Nat) (x y : Bool) (d : List Bool) :
    ((List.replicate f x ++ (List.replicate s y ++ d)).take k).length
      = min k (f + (s + d.length)) := by
  simp [List.length_take]

theorem txLoop_two_data (h : History) (s f : Int) (x y : Bool) (hs : 0 < s) (hf : 0 < f) :
    ((h.txLoop s y).txLoop f x).data
      = (List.replicate f.toNat x ++ (List.replicate s.toNat y ++ h.data)).take 62 := by
  rw [txLoop_data _ f x hf, txLoop_data h s y hs, take_append_take]

/-- The three statistics of a non-empty history are determined by the number of
true entries and the length. -/
theorem stats_of_ne (h : History) (hne : h.data ≠ []) :
    h.success_counter = (h.data.count true : Int) ∧
    h.fail_counter = (h.data.length : Int) - (h.data.count true : Int) ∧
    h.success_ratio = (128 * 100 * (h.data.count true : Int)) / (h.data.length : Int) := by
  refine ⟨success_counter_of_ne h hne, ?_, success_ratio_of_ne h hne⟩
  rw [fail_counter_of_ne h hne]
  have := count_true_add_count_false h.data
  omega

/-- Claim C9, amended: for every history and all counts `s, f ≥ 0`, recording
`s` successes and then `f` failures yields the same success count, failure
count and success ratio as recording the failures first exactly when
`s + f ≤ 62` or one of the counts is 0 (the window keeps 62 outcomes, so a
longer report pushes part of itself out). -/
theorem record_order_iff (h : History) (s f : Int) (hs : 0 ≤ s) (hf : 0 ≤ f) :
    (((h.txLoop s true).txLoop f false).success_counter
        = ((h.txLoop f false).txLoop s true).success_counter ∧
      ((h.txLoop s true).txLoop f false).fail_counter
        = ((h.txLoop f false).txLoop s true).fail_counter ∧
      ((h.txLoop s true).txLoop f false).success_ratio
        = ((h.txLoop f false).txLoop s true).success_ratio)
    ↔ (s + f ≤ 62 ∨ s = 0 ∨ f = 0) := by
  by_cases hs0 : s = 0
  · subst hs0
    simp [txLoop_zero]
  by_cases hf0 : f = 0
  · subst hf0
    simp [txLoop_zero]
  have hs1 : 0 < s := by omega
  have hf1 : 0 < f := by omega
  have hA := txLoop_two_data h s f false true hs1 hf1
  have hB := txLoop_two_data h f s true false hf1 hs1
  have hlenA := congrArg List.length hA
  have hlenB := congrArg List.length hB
  rw [length_take_two] at hlenA hlenB
  have hcA := congrArg (List.count true) hA
  have hcB := congrArg (List.count true) hB
  rw [count_take_two] at hcA hcB
  simp only [Bool.false_eq_true, if_false, if_true, Nat.zero_add, Nat.add_zero] at hcA hcB
  have hneA : ((h.txLoop s true).txLoop f false).data ≠ [] := by
    intro h0
    rw [h0] at hlenA
    simp at hlenA
    omega
  have hneB : ((h.txLoop f false).txLoop s true).data ≠ [] := by
    intro h0
    rw [h0] at hlenB
    simp at hlenB
    omega
  obtain ⟨a1, a2, a3⟩ := stats_of_ne _ hneA
  obtain ⟨b1, b2, b3⟩ := stats_of_ne _ hneB
  rw [a1, a2, a3, b1, b2, b3, hlenA, hlenB, hcA, hcB]
  have hsub : 62 - s.toNat - f.toNat = 62 - f.toNat - s.toNat := by omega
  have hadd : f.toNat + (s.toNat + h.data.length) = s.toNat + (f.toNat + h.data.length) := by
    omega
  rw [hsub, hadd]
  constructor
  · rintro ⟨e1, -, -⟩
    left
    have e2 : min (62 - f.toNat) s.toNat + (h.data.take (62 - f.toNat - s.toNat)).count true
        = min 62 s.toNat + (h.data.take (62 - f.toNat - s.toNat)).count true := by
      exact_mod_cast e1
    omega
  · intro hc
    have hle : s + f ≤ 62 := by omega
    have e2 : min (62 - f.toNat) s.toNat = min 62 s.toNat := by omega
    rw [e2]
    exact ⟨rfl, rfl, rfl⟩

theorem record_order_iff_witness :
    (((History.ofMax 7).txLoop 2 true).txLoop 1 false).success_ratio
      = (((History.ofMax 7).txLoop 1 false).txLoop 2 true).success_ratio :=
  ((record_order_iff (History.ofMax 7) 2 1 (by decide) (by decide)).mpr
    (Or.inl (by decide))).2.2

set_option maxRecDepth 100000 in
/-- Claim C9 as stated fails: on an empty history, 40 successes followed by 24
failures leave 38 successes in the window, while 24 failures followed by 40
successes leave 40. -/
theorem record_order_counterexample :
    (((History.ofMax 7).txLoop 40 true).txLoop 24 false).success_counter = 38 ∧
    (((History.ofMax 7).txLoop 24 false).txLoop 40 true).success_counter = 40 ∧
    ¬ ((((History.ofMax 7).txLoop 40 true).txLoop 24 false).success_counter
        = (((History.ofMax 7).txLoop 24 false).txLoop 40 true).success_counter ∧
      (((History.ofMax 7).txLoop 40 true).txLoop 24 false).fail_counter
        = (((History.ofMax 7).txLoop 24 false).txLoop 40 true).fail_counter ∧
      (((History.ofMax 7).txLoop 40 true).txLoop 24 false).success_ratio
        = (((History.ofMax 7).txLoop 24 false).txLoop 40 true).success_ratio) := by
  decide

end History

section AssocMapLemmas

variable {κ : Type} {ν : Type} [DecidableEq κ]

theorem amFind_amSet_self (k : κ) (v : ν) (m : List (κ × ν)) :
    amFind k (amSet k v m) = some v := by
  induction m with
  | nil => simp [amSet, amFind]
  | cons p m ih =>
    obtain ⟨k1, v1⟩ := p
    by_cases hk : k1 = k
    · simp [amSet, amFind, hk]
    · simp [amSet, amFind, hk, ih]

theorem amFind_amSet_other (k k2 : κ) (v : ν) (m : List (κ × ν)) (hne : k2 ≠ k) :
    amFind k2 (amSet k v m) = amFind k2 m := by
  have hne1 : ¬ k = k2 := fun e => hne e.symm
  induction m with
  | nil => simp [amSet, amFind, hne1]
  | cons p m ih =>
    obtain ⟨k1, v1⟩ := p
    by_cases hk : k1 = k
    · subst hk
      simp [amSet, amFind, hne1]
    · by_cases hk2 : k1 = k2
      · subst hk2
        simp [amSet, amFind, hk]
      · simp [amSet, amFind, hk, hk2, ih]

theorem amAt_amSet_self (d : ν) (k : κ) (v : ν) (m : List (κ × ν)) :
    amAt d k (amSet k v m) = v := by
  simp [amAt, amFind_amSet_self]

theorem amAt_amSet_other (d : ν) (k k2 : κ) (v : ν) (m : List (κ × ν)) (hne : k2 ≠ k) :
    amAt d k2 (amSet k v m) = amAt d k2 m := by
  simp [amAt, amFind_amSet_other k k2 v m hne]

theorem amFind_append_single (k k2 : κ) (d : ν) (m : List (κ × ν)) :
    amFind k2 (m ++ [(k, d)]) = (amFind k2 m).orElse (fun _ => if k = k2 then some d else none) := by
  induction m with
  | nil => simp [amFind]
  | cons p m ih =>
    obtain ⟨k1, v1⟩ := p
    by_cases hk : k1 = k2
    · simp [amFind, hk]
    · simp [amFind, hk, ih]

/-- Reading after the lookup that may have created the default binding gives
the value that the lookup itself gives. -/
theorem amAt_amTouch (d : ν) (k k2 : κ) (m : List (κ × ν)) :
    amAt d k2 (amTouch d k m) = amAt d k2 m := by
  unfold amTouch
  by_cases hs : (amFind k m).isSome
  · simp [hs]
  · simp only [hs, Bool.false_eq_true, if_false]
    unfold amAt
    rw [amFind_append_single]
    cases h2 : amFind k2 m with
    | some v => simp
    | none =>
      by_cases hk : k = k2
      · simp [hk]
      · simp [hk]

theorem amTouch_of_isSome (d : ν) (k : κ) (m : List (κ × ν)) (hs : (amFind k m).isSome = true) :
    amTouch d k m = m := by
  simp [amTouch, hs]

end AssocMapLemmas

namespace State

theorem history_touchHistory (t : State) (i j : Int) :
    (t.touchHistory i).history j = t.history j := by
  unfold history touchHistory histKey
  exact amAt_amTouch _ _ _ _

theorem touchHistory_of_isSome (t : State) (i : Int)
    (hs : (amFind (t.histKey i) t.Histories).isSome = true) : t.touchHistory i = t := by
  unfold touchHistory
  rw [amTouch_of_isSome _ _ _ hs]

theorem history_setHistory_self (t : State) (i : Int) (h : History) :
    (t.setHistory i h).history i = h := by
  unfold history setHistory histKey
  exact amAt_amSet_self _ _ _ _

theorem foldl_setHistory_frame (g : State → Nat → History) (l : List Nat) (t : State) :
    l.foldl (fun u i => u.setHistory (Int.ofNat i) (g u i)) t
      = { t with Histories :=
            (l.foldl (fun u i => u.setHistory (Int.ofNat i) (g u i)) t).Histories } := by
  induction l generalizing t with
  | nil => rfl
  | cons i l ih =>
    rw [List.foldl_cons, ih]
    rfl

theorem clearHistories_frame (t : State) :
    clearHistories t = { t with Histories := (clearHistories t).Histories } :=
  foldl_setHistory_frame (fun u i => (u.history (Int.ofNat i)).reset) (List.range 15) t

theorem clearHistories_fields (t : State) :
    (clearHistories t).mode = t.mode ∧
    (clearHistories t).antennas = t.antennas ∧
    (clearHistories t).guardInterval = t.guardInterval ∧
    (clearHistories t).bandWidth = t.bandWidth ∧
    (clearHistories t).index = t.index ∧
    (clearHistories t).columnScaling = t.columnScaling ∧
    (clearHistories t).last_tpt = t.last_tpt ∧
    (clearHistories t).oldColumnParameters = t.oldColumnParameters := by
  rw [clearHistories_frame]
  exact ⟨rfl, rfl, rfl, rfl, rfl, rfl, rfl, rfl⟩

/-- The expiry check changes nothing of the column, the rate, the trial or the
rollback data. -/
theorem stay_in_table_frame (now : Int) (t : State) :
    (stay_in_table now t).mode = t.mode ∧
    (stay_in_table now t).antennas = t.antennas ∧
    (stay_in_table now t).guardInterval = t.guardInterval ∧
    (stay_in_table now t).bandWidth = t.bandWidth ∧
    (stay_in_table now t).index = t.index ∧
    (stay_in_table now t).columnScaling = t.columnScaling ∧
    (stay_in_table now t).last_tpt = t.last_tpt ∧
    (stay_in_table now t).oldColumnParameters = t.oldColumnParameters := by
  unfold stay_in_table
  dsimp only
  split_ifs
  · exact ⟨rfl, rfl, rfl, rfl, rfl, rfl, rfl, rfl⟩
  · exact clearHistories_fields _
  · exact ⟨rfl, rfl, rfl, rfl, rfl, rfl, rfl, rfl⟩
  · exact ⟨rfl, rfl, rfl, rfl, rfl, rfl, rfl, rfl⟩

/-- Claim C10: when the average throughput of the current slot is unknown,
`RateScaling` is the history lookup followed by the expiry check
`stay_in_table`; it is exactly `stay_in_table` when the slot has a history,
and it changes neither mode, antennas, guard interval, bandwidth, rate index,
trial flag, baseline throughput nor rollback snapshot. -/
theorem RateScaling_unknown (now : Int) (t : State)
    (h : (t.history t.index).average_tpt = INVALID_THROUGHPUT) :
    RateScaling now t = some (stay_in_table now (t.touchHistory t.index)) ∧
    ((amFind (t.histKey t.index) t.Histories).isSome = true →
      RateScaling now t = some (stay_in_table now t)) ∧
    (∀ u, RateScaling now t = some u →
      u.mode = t.mode ∧ u.antennas = t.antennas ∧ u.guardInterval = t.guardInterval ∧
      u.bandWidth = t.bandWidth ∧ u.index = t.index ∧ u.columnScaling = t.columnScaling ∧
      u.last_tpt = t.last_tpt ∧ u.oldColumnParameters = t.oldColumnParameters) := by
  have h1 : RateScaling now t = some (stay_in_table now (t.touchHistory t.index)) := by
    unfold RateScaling
    have h2 : ((t.touchHistory t.index).history (t.touchHistory t.index).index).average_tpt
        = INVALID_THROUGHPUT := by
      rw [show (t.touchHistory t.index).index = t.index from rfl, history_touchHistory]
      exact h
    simp only [h2, if_true]
  refine ⟨h1, fun hs => ?_, fun u hu => ?_⟩
  · rw [h1, touchHistory_of_isSome t t.index hs]
  · rw [h1] at hu
    cases hu
    exact stay_in_table_frame now (t.touchHistory t.index)


set_option maxRecDepth 100000 in
theorem RateScaling_unknown_witness :
    RateScaling 0 (ofMaxWidth 20) = some (stay_in_table 0 (ofMaxWidth 20)) :=
  (RateScaling_unknown 0 (ofMaxWidth 20) (by decide)).2.1 (by decide)

/-- Claim C7: the state built by `State(maxWidth)` has mode Legacy (class
Legacy-G), antenna set {A}, long guard interval, rate index 0, bandwidth 20,
aggregation off, phase SearchCycleStarted, no trial active and visited set
exactly its own column (Legacy, {A}, long GI); its bandwidth cap is 20, 40 or
80 for those inputs and 160 for every other input. -/
theorem ofMaxWidth_initial (maxWidth : Int) :
    (ofMaxWidth maxWidth).mode = LEGACY ∧
    (ofMaxWidth maxWidth).type = LEGACY_G ∧
    (ofMaxWidth maxWidth).antennas = AntennaSet.mk true false false ∧
    (ofMaxWidth maxWidth).guardInterval = LGI ∧
    (ofMaxWidth maxWidth).index = 0 ∧
    (ofMaxWidth maxWidth).bandWidth = 20 ∧
    (ofMaxWidth maxWidth).agg = NO_AGG ∧
    (ofMaxWidth maxWidth).s = RS_STATE_SEARCH_CYCLE_STARTED ∧
    (ofMaxWidth maxWidth).columnScaling = false ∧
    (ofMaxWidth maxWidth).visited_columns = [(LEGACY, AntennaSet.mk true false false, LGI)] ∧
    (ofMaxWidth maxWidth).visited_columns = [(ofMaxWidth maxWidth).colKey] ∧
    (maxWidth = 20 → (ofMaxWidth maxWidth).maxWidth = 20) ∧
    (maxWidth = 40 → (ofMaxWidth maxWidth).maxWidth = 40) ∧
    (maxWidth = 80 → (ofMaxWidth maxWidth).maxWidth = 80) ∧
    (maxWidth ≠ 20 → maxWidth ≠ 40 → maxWidth ≠ 80 → (ofMaxWidth maxWidth).maxWidth = 160) := by
  refine ⟨rfl, rfl, rfl, rfl, rfl, rfl, rfl, rfl, rfl, rfl, rfl, ?_, ?_, ?_, ?_⟩
  · intro h
    subst h
    rfl
  · intro h
    subst h
    rfl
  · intro h
    subst h
    rfl
  · intro h1 h2 h3
    show (if maxWidth = 20 then BW_20 else if maxWidth = 40 then BW_40
      else if maxWidth = 80 then BW_80 else BW_160) = 160
    rw [if_neg h1, if_neg h2, if_neg h3]

theorem ofMaxWidth_initial_witness :
    (ofMaxWidth 40).maxWidth = 40 ∧ (ofMaxWidth 30).maxWidth = 160 :=
  ⟨(ofMaxWidth_initial 40).2.2.2.2.2.2.2.2.2.2.2.2.1 rfl,
    (ofMaxWidth_initial 30).2.2.2.2.2.2.2.2.2.2.2.2.2.2 (by decide) (by decide) (by decide)⟩


theorem txRecord_missed (t : State) (f : Int) :
    txRecord t 0 f true =
      if t.s = RS_STATE_STAY_IN_COLUMN then
        { t.setHistory t.index ((t.history t.index).tx false) with
          total_success := t.total_success + 0
          total_failed := t.total_failed + 1 }
      else t.setHistory t.index ((t.history t.index).tx false) := rfl

/-- Claim C8: an aggregated report without successes, `tx(0, f, true)`, is
the rate-scaling step run on a state in which, whatever `f` is, exactly one
false outcome was recorded in the current slot (every other slot reads as
before) and in which, in phase StayInColumn, the resident failure counter is
one higher and the resident success counter unchanged (outside that phase both
are unchanged). -/
theorem tx_missed_block_ack (now : Int) (t : State) (f : Int) :
    tx now t 0 f true = RateScaling now (txRecord t 0 f true) ∧
    (txRecord t 0 f true).history t.index = (t.history t.index).tx false ∧
    ((txRecord t 0 f true).history t.index).data = (false :: (t.history t.index).data).take 62 ∧
    (∀ k : HistKey, k ≠ t.histKey t.index →
      amAt History.empty k (txRecord t 0 f true).Histories = amAt History.empty k t.Histories) ∧
    (t.s = RS_STATE_STAY_IN_COLUMN →
      (txRecord t 0 f true).total_failed = t.total_failed + 1 ∧
      (txRecord t 0 f true).total_success = t.total_success) ∧
    (t.s ≠ RS_STATE_STAY_IN_COLUMN →
      (txRecord t 0 f true).total_failed = t.total_failed ∧
      (txRecord t 0 f true).total_success = t.total_success) ∧
    (txRecord t 0 f true).s = t.s ∧ (txRecord t 0 f true).index = t.index ∧
    (txRecord t 0 f true).mode = t.mode ∧ (txRecord t 0 f true).bandWidth = t.bandWidth ∧
    (txRecord t 0 f true).guardInterval = t.guardInterval ∧
    (txRecord t 0 f true).antennas = t.antennas := by
  have hH : (txRecord t 0 f true).Histories
      = amSet (t.histKey t.index) ((t.history t.index).tx false) t.Histories := by
    rw [txRecord_missed]
    split_ifs <;> rfl
  have hhist : (txRecord t 0 f true).history t.index = (t.history t.index).tx false := by
    have hk : (txRecord t 0 f true).histKey t.index = t.histKey t.index := by
      rw [txRecord_missed]
      split_ifs <;> rfl
    unfold history
    rw [hk, hH]
    exact amAt_amSet_self _ _ _ _
  refine ⟨rfl, hhist, ?_, ?_, ?_, ?_, ?_⟩
  · rw [hhist, History.tx_data]
  · intro k hk
    rw [hH]
    exact amAt_amSet_other _ _ _ _ _ hk
  · intro hs
    rw [txRecord_missed, if_pos hs]
    exact ⟨rfl, Int.add_zero _⟩
  · intro hs
    rw [txRecord_missed, if_neg hs]
    exact ⟨rfl, rfl⟩
  · rw [txRecord_missed]
    split_ifs with hs
    · exact ⟨hs.symm ▸ rfl, rfl, rfl, rfl, rfl, rfl⟩
    · exact ⟨rfl, rfl, rfl, rfl, rfl, rfl⟩

/-- Witness for C8 on the initial state moved to phase StayInColumn, with the
reported failure count 5. -/
theorem tx_missed_block_ack_witness :
    (txRecord { ofMaxWidth 20 with s := RS_STATE_STAY_IN_COLUMN } 0 5 true).total_failed = 0 + 1 ∧
    (txRecord { ofMaxWidth 20 with s := RS_STATE_STAY_IN_COLUMN } 0 5 true).total_success = 0 :=
  (tx_missed_block_ack 0 { ofMaxWidth 20 with s := RS_STATE_STAY_IN_COLUMN } 5).2.2.2.2.1 rfl


theorem iterate_record_history (b : Bool) (n : Nat) (t : State) :
    (Nat.iterate (fun u : State => u.setHistory u.index ((u.history u.index).tx b)) n t).histKey
        t.index = t.histKey t.index ∧
    (Nat.iterate (fun u : State => u.setHistory u.index ((u.history u.index).tx b)) n t).index
        = t.index ∧
    (Nat.iterate (fun u : State => u.setHistory u.index ((u.history u.index).tx b)) n t).history
        t.index = Nat.iterate (fun g : History => g.tx b) n (t.history t.index) := by
  induction n generalizing t with
  | zero => exact ⟨rfl, rfl, rfl⟩
  | succ n ih =>
    rw [Function.iterate_succ_apply, Function.iterate_succ_apply]
    obtain ⟨h1, h2, h3⟩ := ih (t.setHistory t.index ((t.history t.index).tx b))
    have hi : (t.setHistory t.index ((t.history t.index).tx b)).index = t.index := rfl
    rw [hi] at h1 h2 h3
    rw [history_setHistory_self] at h3
    exact ⟨h1, h2, h3⟩

/-- Each recording loop of `State::tx` acts on the history of the current slot
as `History.txLoop`. -/
theorem history_recordLoop (t : State) (n : Int) (b : Bool) :
    (recordLoop t n b).history t.index = (t.history t.index).txLoop n b :=
  (iterate_record_history b n.toNat t).2.2

/-! ## States that differ in their maps only -/

theorem touchHistory_index (t : State) (i : Int) : (t.touchHistory i).index = t.index := rfl

theorem percent_force_decrease : RS_PERCENT IWL_MVM_RS_SR_FORCE_DECREASE = 1920 := by decide

theorem percent_no_decrease : RS_PERCENT IWL_MVM_RS_SR_NO_DECREASE = 10880 := by decide

theorem invalid_throughput_eq : INVALID_THROUGHPUT = -1 := rfl

theorem invalid_index_eq : INVALID_INDEX = -1 := rfl


theorem control_histories (t : State) (H : List (HistKey × History)) :
    ({ t with Histories := H } : State).control = t.control := rfl

theorem control_tables (t : State) (T : List (TableKey × List Int)) :
    ({ t with TheoreticalThroughputTables := T } : State).control = t.control := rfl

theorem control_columns (t : State) (C : List (ColKey × Column)) :
    ({ t with columns := C } : State).control = t.control := rfl

theorem control_touchHistory (t : State) (i : Int) : (t.touchHistory i).control = t.control :=
  control_histories t _

theorem control_setHistory (t : State) (i : Int) (h : History) :
    (t.setHistory i h).control = t.control :=
  control_histories t _

theorem control_touchTable (t : State) (k : TableKey) : (t.touchTable k).control = t.control :=
  control_tables t _

theorem control_touchColumn (t : State) (k : ColKey) : (t.touchColumn k).control = t.control :=
  control_columns t _

theorem control_clearHistories (t : State) : (clearHistories t).control = t.control := by
  rw [clearHistories_frame]
  exact control_histories t _

theorem s_of_control {a b : State} (h : a.control = b.control) : a.s = b.s := by
  have h2 := congrArg State.s h
  exact h2

theorem index_of_control {a b : State} (h : a.control = b.control) : a.index = b.index := by
  have h2 := congrArg State.index h
  exact h2

theorem mode_of_control {a b : State} (h : a.control = b.control) : a.mode = b.mode := by
  have h2 := congrArg State.mode h
  exact h2

theorem type_of_control {a b : State} (h : a.control = b.control) : a.type = b.type := by
  have h2 := congrArg State.type h
  exact h2

theorem bandWidth_of_control {a b : State} (h : a.control = b.control) :
    a.bandWidth = b.bandWidth := by
  have h2 := congrArg State.bandWidth h
  exact h2

theorem maxWidth_of_control {a b : State} (h : a.control = b.control) :
    a.maxWidth = b.maxWidth := by
  have h2 := congrArg State.maxWidth h
  exact h2

theorem guardInterval_of_control {a b : State} (h : a.control = b.control) :
    a.guardInterval = b.guardInterval := by
  have h2 := congrArg State.guardInterval h
  exact h2

theorem agg_of_control {a b : State} (h : a.control = b.control) : a.agg = b.agg := by
  have h2 := congrArg State.agg h
  exact h2

theorem antennas_of_control {a b : State} (h : a.control = b.control) :
    a.antennas = b.antennas := by
  have h2 := congrArg State.antennas h
  exact h2

theorem columnScaling_of_control {a b : State} (h : a.control = b.control) :
    a.columnScaling = b.columnScaling := by
  have h2 := congrArg State.columnScaling h
  exact h2

theorem last_tpt_of_control {a b : State} (h : a.control = b.control) :
    a.last_tpt = b.last_tpt := by
  have h2 := congrArg State.last_tpt h
  exact h2

theorem oldColumnParameters_of_control {a b : State} (h : a.control = b.control) :
    a.oldColumnParameters = b.oldColumnParameters := by
  have h2 := congrArg State.oldColumnParameters h
  exact h2

theorem total_failed_of_control {a b : State} (h : a.control = b.control) :
    a.total_failed = b.total_failed := by
  have h2 := congrArg State.total_failed h
  exact h2

theorem total_success_of_control {a b : State} (h : a.control = b.control) :
    a.total_success = b.total_success := by
  have h2 := congrArg State.total_success h
  exact h2

theorem table_count_of_control {a b : State} (h : a.control = b.control) :
    a.table_count = b.table_count := by
  have h2 := congrArg State.table_count h
  exact h2

theorem flush_timer_of_control {a b : State} (h : a.control = b.control) :
    a.flush_timer = b.flush_timer := by
  have h2 := congrArg State.flush_timer h
  exact h2

theorem visited_columns_of_control {a b : State} (h : a.control = b.control) :
    a.visited_columns = b.visited_columns := by
  have h2 := congrArg State.visited_columns h
  exact h2

theorem histKey_of_control {a b : State} (h : a.control = b.control) (i : Int) :
    a.histKey i = b.histKey i := by
  have h2 := congrArg (fun c : State => c.histKey i) h
  exact h2

theorem colKey_of_control {a b : State} (h : a.control = b.control) : a.colKey = b.colKey := by
  have h2 := congrArg State.colKey h
  exact h2

theorem control_scanRates (l : List Int) (t : State) : (scanRates t l).2.control = t.control := by
  induction l generalizing t with
  | nil => rfl
  | cons i l ih =>
    unfold scanRates
    dsimp only
    split_ifs
    · exact control_touchHistory t i
    · rw [ih]
      exact control_touchHistory t i

theorem control_getAdjacentRatesIndexes (t u : State) (adj : Int × Int)
    (h : getAdjacentRatesIndexes t = some (adj, u)) : u.control = t.control := by
  unfold getAdjacentRatesIndexes at h
  dsimp only at h
  by_cases h1 : t.type ≠ LEGACY_G
  · rw [if_pos h1] at h
    cases h
    rw [control_scanRates, control_scanRates]
  · rw [if_neg h1] at h
    by_cases h2 : 0 ≤ t.index
    · rw [if_pos h2] at h
      cases hm : legacy_g_mapping[t.index.toNat]? with
      | none =>
        rw [hm] at h
        cases h
      | some p =>
        rw [hm] at h
        cases h
        rfl
    · rw [if_neg h2] at h
      cases h

theorem control_adjacentRates (t : State) (adj : Int × Int) :
    (adjacentRates t adj).2.control = t.control := by
  unfold adjacentRates
  simp only [apply_ite State.control, control_touchHistory, ite_self]

theorem control_MCSScaling (t : State) (i r : Int × Int) :
    (MCSScaling t i r).2.control = t.control := by
  unfold MCSScaling
  simp only [apply_ite Prod.snd, apply_ite State.control, control_touchHistory, ite_self]

/-- The action returned by `MCSScaling`, as one decision list over the success
ratio and average throughput of the current slot, the neighbour indices, the
neighbour throughputs and the ceiling of the lower neighbour. -/
theorem MCSScaling_action (t : State) (i r : Int × Int) :
    (MCSScaling t i r).1 =
      if (t.history t.index).success_ratio ≤ 1920 ∨ (t.history t.index).average_tpt = 0 then
        RS_ACTION_DOWNSCALE
      else if r.1 = -1 ∧ r.2 = -1 ∧ i.2 ≠ -1 then RS_ACTION_UPSCALE
      else if r.2 = -1 ∧ i.2 ≠ -1 ∧ r.1 ≠ -1 ∧ r.1 < (t.history t.index).average_tpt then
        RS_ACTION_UPSCALE
      else if r.2 ≠ -1 ∧ r.2 > (t.history t.index).average_tpt then RS_ACTION_UPSCALE
      else if r.1 ≠ -1 ∧ r.2 ≠ -1 ∧ r.1 < (t.history t.index).average_tpt ∧
          r.2 < (t.history t.index).average_tpt then RS_ACTION_STAY
      else if (r.1 ≠ -1 ∧ r.1 > (t.history t.index).average_tpt) ∨ (r.1 = -1 ∧ i.1 ≠ -1) then
        if i.1 ≠ -1 ∧ ((t.history t.index).success_ratio ≥ 10880 ∨
            (t.history t.index).average_tpt > 100 * (t.history i.1).get_max_throughput) then
          RS_ACTION_STAY
        else RS_ACTION_DOWNSCALE
      else RS_ACTION_STAY := by
  unfold MCSScaling
  simp only [touchHistory_index, history_touchHistory, percent_force_decrease,
    percent_no_decrease, invalid_throughput_eq, invalid_index_eq]
  generalize (t.history t.index).success_ratio = sr
  generalize (t.history t.index).average_tpt = a
  generalize (t.history i.1).get_max_throughput = c
  generalize (t.touchHistory t.index).touchHistory i.1 = s2
  generalize t.touchHistory t.index = s1
  obtain ⟨i0, i1⟩ := i
  obtain ⟨r0, r1⟩ := r
  dsimp only
  by_cases h1 : sr ≤ 1920 ∨ a = 0
  · rw [if_pos h1, if_pos h1]
  rw [if_neg h1, if_neg h1]
  by_cases h2 : r0 = -1 ∧ r1 = -1 ∧ i1 ≠ -1
  · rw [if_pos h2, if_pos h2]
  rw [if_neg h2, if_neg h2]
  by_cases h3 : r1 = -1 ∧ i1 ≠ -1 ∧ r0 ≠ -1 ∧ r0 < a
  · rw [if_pos h3, if_pos h3]
  rw [if_neg h3, if_neg h3]
  by_cases h4 : r1 ≠ -1 ∧ r1 > a
  · rw [if_pos h4, if_pos h4]
  rw [if_neg h4, if_neg h4]
  by_cases h5 : r0 ≠ -1 ∧ r1 ≠ -1 ∧ r0 < a ∧ r1 < a
  · rw [if_pos h5, if_pos h5]
  rw [if_neg h5, if_neg h5]
  by_cases h6 : r0 ≠ -1 ∧ r0 > a
  · simp only [if_pos h6, true_and, if_pos (Or.inl h6 : r0 ≠ -1 ∧ r0 > a ∨ r0 = -1 ∧ i0 ≠ -1)]
    by_cases h8 : i0 ≠ -1
    · rw [if_pos h8]
      by_cases h9 : sr ≥ 10880
      · rw [if_pos h9, if_pos ⟨h8, Or.inl h9⟩]
      · rw [if_neg h9]
        by_cases h10 : a > 100 * c
        · rw [if_pos h10, if_pos ⟨h8, Or.inr h10⟩]
        · rw [if_neg h10, if_neg (by tauto)]
    · rw [if_neg h8, if_neg (by tauto)]
  simp only [if_neg h6]
  by_cases h7 : r0 = -1 ∧ i0 ≠ -1
  · simp only [if_pos h7, true_and, if_pos (Or.inr h7 : r0 ≠ -1 ∧ r0 > a ∨ r0 = -1 ∧ i0 ≠ -1)]
    rw [if_pos h7.2]
    by_cases h9 : sr ≥ 10880
    · rw [if_pos h9, if_pos ⟨h7.2, Or.inl h9⟩]
    · rw [if_neg h9]
      by_cases h10 : a > 100 * c
      · rw [if_pos h10, if_pos ⟨h7.2, Or.inr h10⟩]
      · rw [if_neg h10, if_neg (by tauto)]
  · simp only [if_neg h7, if_neg (by tauto : ¬ (r0 ≠ -1 ∧ r0 > a ∨ r0 = -1 ∧ i0 ≠ -1))]
    rw [if_neg (by simp)]


/-- Claim C12: `MCSScaling` returns DOWNSCALE, whatever the neighbour indices
and neighbour throughputs are, whenever the success ratio of the current slot
is at most 1920 or its average throughput is 0. -/
theorem MCSScaling_force_decrease (t : State) (adjacentIndexes adjacentRates : Int × Int)
    (h : (t.history t.index).success_ratio ≤ 1920 ∨ (t.history t.index).average_tpt = 0) :
    (MCSScaling t adjacentIndexes adjacentRates).1 = RS_ACTION_DOWNSCALE := by
  rw [MCSScaling_action, if_pos h]

set_option maxRecDepth 100000 in
/-- Witness for C12: three failures on the initial slot give success ratio 0. -/
theorem MCSScaling_force_decrease_witness :
    (MCSScaling ((ofMaxWidth 20).setHistory 0 ⟨[false, false, false], 7⟩) (-1, 1) (-1, -1)).1
      = RS_ACTION_DOWNSCALE :=
  MCSScaling_force_decrease _ _ _ (Or.inl (by decide))

/-- Claim C13: when the success ratio is above 1920 and the average throughput
`a` is not 0, `MCSScaling` returns UPSCALE when both neighbour throughputs are
unknown and a higher index exists; when the higher throughput is unknown, a
higher index exists and the lower throughput is known and below `a`; and when
the higher throughput is known and above `a`. -/
theorem MCSScaling_upscale (t : State) (adjacentIndexes adjacentRates : Int × Int)
    (hsr : (t.history t.index).success_ratio > 1920)
    (ha : (t.history t.index).average_tpt ≠ 0) :
    (adjacentRates.1 = -1 ∧ adjacentRates.2 = -1 ∧ adjacentIndexes.2 ≠ -1 →
      (MCSScaling t adjacentIndexes adjacentRates).1 = RS_ACTION_UPSCALE) ∧
    (adjacentRates.2 = -1 ∧ adjacentIndexes.2 ≠ -1 ∧ adjacentRates.1 ≠ -1 ∧
        adjacentRates.1 < (t.history t.index).average_tpt →
      (MCSScaling t adjacentIndexes adjacentRates).1 = RS_ACTION_UPSCALE) ∧
    (adjacentRates.2 ≠ -1 ∧ adjacentRates.2 > (t.history t.index).average_tpt →
      (MCSScaling t adjacentIndexes adjacentRates).1 = RS_ACTION_UPSCALE) := by
  have hna : ¬ ((t.history t.index).success_ratio ≤ 1920 ∨
      (t.history t.index).average_tpt = 0) := by
    rintro (h | h)
    · omega
    · exact ha h
  rw [MCSScaling_action, if_neg hna]
  refine ⟨fun hb => ?_, fun hc => ?_, fun hd => ?_⟩
  · rw [if_pos hb]
  · rw [if_neg (by tauto), if_pos hc]
  · rw [if_neg (by tauto), if_neg (by tauto), if_pos hd]

set_option maxRecDepth 100000 in
/-- Witness for C13: eight successes on the initial slot, no neighbour data,
higher neighbour index 1. -/
theorem MCSScaling_upscale_witness :
    (MCSScaling ((ofMaxWidth 20).setHistory 0
        ⟨[true, true, true, true, true, true, true, true], 7⟩) (-1, 1) (-1, -1)).1
      = RS_ACTION_UPSCALE :=
  (MCSScaling_upscale _ (-1, 1) (-1, -1) (by decide) (by decide)).1 (by decide)

/-- Claim C14: when rules (a) to (d) do not apply, `MCSScaling` returns STAY if
both neighbour throughputs are known and below the current average `a`;
otherwise, if the lower throughput is known and above `a`, or unknown while a
lower index exists, it returns DOWNSCALE, unless a lower index exists and the
success ratio is at least 10880 or `a` exceeds 100 times the ceiling of the
lower neighbour, in which case it returns STAY; in every remaining case it
returns STAY. -/
theorem MCSScaling_stay_or_downscale (t : State) (adjacentIndexes adjacentRates : Int × Int)
    (hsr : (t.history t.index).success_ratio > 1920)
    (ha : (t.history t.index).average_tpt ≠ 0)
    (hnb : ¬ (adjacentRates.1 = -1 ∧ adjacentRates.2 = -1 ∧ adjacentIndexes.2 ≠ -1))
    (hnc : ¬ (adjacentRates.2 = -1 ∧ adjacentIndexes.2 ≠ -1 ∧ adjacentRates.1 ≠ -1 ∧
        adjacentRates.1 < (t.history t.index).average_tpt))
    (hnd : ¬ (adjacentRates.2 ≠ -1 ∧ adjacentRates.2 > (t.history t.index).average_tpt)) :
    (adjacentRates.1 ≠ -1 ∧ adjacentRates.2 ≠ -1 ∧
        adjacentRates.1 < (t.history t.index).average_tpt ∧
        adjacentRates.2 < (t.history t.index).average_tpt →
      (MCSScaling t adjacentIndexes adjacentRates).1 = RS_ACTION_STAY) ∧
    (¬ (adjacentRates.1 ≠ -1 ∧ adjacentRates.2 ≠ -1 ∧
        adjacentRates.1 < (t.history t.index).average_tpt ∧
        adjacentRates.2 < (t.history t.index).average_tpt) →
      ((adjacentRates.1 ≠ -1 ∧ adjacentRates.1 > (t.history t.index).average_tpt) ∨
        (adjacentRates.1 = -1 ∧ adjacentIndexes.1 ≠ -1)) →
      (adjacentIndexes.1 ≠ -1 ∧ ((t.history t.index).success_ratio ≥ 10880 ∨
          (t.history t.index).average_tpt >
            100 * (t.history adjacentIndexes.1).get_max_throughput) →
        (MCSScaling t adjacentIndexes adjacentRates).1 = RS_ACTION_STAY) ∧
      (¬ (adjacentIndexes.1 ≠ -1 ∧ ((t.history t.index).success_ratio ≥ 10880 ∨
          (t.history t.index).average_tpt >
            100 * (t.history adjacentIndexes.1).get_max_throughput)) →
        (MCSScaling t adjacentIndexes adjacentRates).1 = RS_ACTION_DOWNSCALE)) ∧
    (¬ (adjacentRates.1 ≠ -1 ∧ adjacentRates.2 ≠ -1 ∧
        adjacentRates.1 < (t.history t.index).average_tpt ∧
        adjacentRates.2 < (t.history t.index).average_tpt) →
      ¬ ((adjacentRates.1 ≠ -1 ∧ adjacentRates.1 > (t.history t.index).average_tpt) ∨
        (adjacentRates.1 = -1 ∧ adjacentIndexes.1 ≠ -1)) →
      (MCSScaling t adjacentIndexes adjacentRates).1 = RS_ACTION_STAY) := by
  have hna : ¬ ((t.history t.index).success_ratio ≤ 1920 ∨
      (t.history t.index).average_tpt = 0) := by
    rintro (h | h)
    · omega
    · exact ha h
  rw [MCSScaling_action, if_neg hna, if_neg hnb, if_neg hnc, if_neg hnd]
  refine ⟨fun he => ?_, fun hne hf => ⟨fun hg => ?_, fun hng => ?_⟩, fun hne hnf => ?_⟩
  · rw [if_pos he]
  · rw [if_neg hne, if_pos hf, if_pos hg]
  · rw [if_neg hne, if_pos hf, if_neg hng]
  · rw [if_neg hne, if_neg hnf]

set_option maxRecDepth 100000 in
/-- Witness for C14 on Legacy slot 1 (ceiling 13) with lower index 0 without
data and higher index 2 with average 500: three successes and three failures
(ratio 6400, average 650) give DOWNSCALE. -/
theorem MCSScaling_stay_or_downscale_witness :
    (MCSScaling { (ofMaxWidth 20).setHistory 1 ⟨[true, true, true, false, false, false], 13⟩
        with index := 1 } (0, 2) (-1, 500)).1 = RS_ACTION_DOWNSCALE :=
  ((MCSScaling_stay_or_downscale
    { (ofMaxWidth 20).setHistory 1 ⟨[true, true, true, false, false, false], 13⟩
        with index := 1 } (0, 2) (-1, 500)
    (by decide) (by decide) (by decide) (by decide) (by decide)).2.1
      (by decide) (by decide)).2 (by decide)

theorem control_getNextColumnLoop (v : List ColKey) (l : List ColKey) (t : State)
    (res : (Bool × ColKey) × State) (h : getNextColumnLoop v t l = some res) :
    res.2.control = t.control := by
  induction l generalizing t with
  | nil =>
    unfold getNextColumnLoop at h
    cases h
    rfl
  | cons key rest ih =>
    unfold getNextColumnLoop at h
    dsimp only at h
    by_cases hv : key ∉ v
    · rw [if_pos hv] at h
      generalize (key.1, (if key.1 = LEGACY then BW_20 else t.bandWidth), key.2.2, t.agg) = k
        at h
      cases hm : ((t.touchTable k).table k).max? with
      | none =>
        rw [hm] at h
        cases h
      | some m =>
        rw [hm] at h
        dsimp only at h
        by_cases hc : 100 * m ≤ (((t.touchTable k).touchHistory (t.touchTable k).index).history
            ((t.touchTable k).touchHistory (t.touchTable k).index).index).average_tpt
        · rw [if_pos hc] at h
          rw [ih _ h, control_touchHistory, control_touchTable]
        · rw [if_neg hc] at h
          cases h
          dsimp only
          rw [control_touchHistory, control_touchTable]
    · rw [if_neg hv] at h
      exact ih _ h

theorem control_getNextColumn (t : State) (v : List ColKey) (res : (Bool × ColKey) × State)
    (h : getNextColumn t v = some res) : res.2.control = t.control := by
  unfold getNextColumn at h
  rw [control_getNextColumnLoop _ _ _ _ h, control_touchColumn]

theorem control_getNextIndex (t : State) (c : ColKey) :
    (getNextIndex t c).2.control = t.control := by
  unfold getNextIndex
  dsimp only
  rw [control_touchTable, control_touchHistory]

/-- The MCS-scaling branch, in terms of its four steps. -/
theorem mcsScalingStep_eq (t t1 : State) (index : Int) (adj : Int × Int)
    (h : getAdjacentRatesIndexes t = some (adj, t1)) :
    mcsScalingStep t index =
      some ((MCSScaling (adjacentRates t1 adj).2 adj (adjacentRates t1 adj).1).2,
        (scaleSwitch (MCSScaling (adjacentRates t1 adj).2 adj (adjacentRates t1 adj).1).1
          adj index).1,
        false,
        (scaleSwitch (MCSScaling (adjacentRates t1 adj).2 adj (adjacentRates t1 adj).1).1
          adj index).2) := by
  unfold mcsScalingStep
  rw [h]
  dsimp only
  change (match (MCSScaling (adjacentRates t1 adj).2 adj (adjacentRates t1 adj).1).1 with
    | RS_ACTION_DOWNSCALE =>
      if adj.1 ≠ INVALID_INDEX then
        some ((MCSScaling (adjacentRates t1 adj).2 adj (adjacentRates t1 adj).1).2, true, false,
          adj.1)
      else some ((MCSScaling (adjacentRates t1 adj).2 adj (adjacentRates t1 adj).1).2, false,
        false, index)
    | RS_ACTION_UPSCALE =>
      if adj.2 ≠ INVALID_INDEX then
        some ((MCSScaling (adjacentRates t1 adj).2 adj (adjacentRates t1 adj).1).2, true, false,
          adj.2)
      else some ((MCSScaling (adjacentRates t1 adj).2 adj (adjacentRates t1 adj).1).2, false,
        false, index)
    | RS_ACTION_STAY =>
      some ((MCSScaling (adjacentRates t1 adj).2 adj (adjacentRates t1 adj).1).2, false, false,
        index)) = _
  generalize MCSScaling (adjacentRates t1 adj).2 adj (adjacentRates t1 adj).1 = r
  obtain ⟨a, u⟩ := r
  cases a <;> dsimp only [scaleSwitch] <;> split_ifs <;> rfl

theorem mcsScalingStep_none (t : State) (index : Int)
    (h : getAdjacentRatesIndexes t = Option.none) : mcsScalingStep t index = Option.none := by
  unfold mcsScalingStep
  rw [h]

/-- The condition under which `stay_in_table` expires the phase. -/
theorem stay_in_table_expired (now : Int) (t : State) (hs : t.s = RS_STATE_STAY_IN_COLUMN)
    (hx : t.total_failed > t.getMaxFailureLimit ∨ t.total_success > t.getMaxSuccessLimit ∨
      (t.columnScaling = false ∧ flush_interval_passed now t = true)) :
    stay_in_table now t =
      { t with
        s := RS_STATE_SEARCH_CYCLE_STARTED
        total_failed := 0
        total_success := 0
        table_count := 0
        flush_timer := 0
        visited_columns := [t.colKey] } := by
  unfold stay_in_table
  rw [if_pos hs, if_pos hx]

theorem stay_in_table_not_expired (now : Int) (t : State) (hs : t.s = RS_STATE_STAY_IN_COLUMN)
    (hx : ¬ (t.total_failed > t.getMaxFailureLimit ∨ t.total_success > t.getMaxSuccessLimit ∨
      (t.columnScaling = false ∧ flush_interval_passed now t = true))) :
    stay_in_table now t =
      if t.table_count + 1 > t.getTableCountLimit then
        clearHistories { t with table_count := 0 }
      else { t with table_count := t.table_count + 1 } := by
  unfold stay_in_table
  rw [if_pos hs, if_neg hx]
  rfl

theorem stay_in_table_other_phase (now : Int) (t : State) (hs : t.s ≠ RS_STATE_STAY_IN_COLUMN) :
    stay_in_table now t = t := by
  unfold stay_in_table
  rw [if_neg hs]

theorem getMaxFailureLimit_eq (t : State) :
    t.getMaxFailureLimit = if t.mode = LEGACY then 160 else 400 := rfl

theorem getMaxSuccessLimit_eq (t : State) :
    t.getMaxSuccessLimit = if t.mode = LEGACY then 480 else 4500 := rfl

theorem getTableCountLimit_eq (t : State) :
    t.getTableCountLimit = if t.mode = LEGACY then 160 else 1500 := rfl

theorem clearHistories_s (t : State) : (clearHistories t).s = t.s := by
  rw [clearHistories_frame]

/-- The phase after `stay_in_table` from phase StayInColumn is SearchCycleStarted
exactly when the expiry condition holds. -/
theorem stay_in_table_s_iff (now : Int) (t : State) (hs : t.s = RS_STATE_STAY_IN_COLUMN) :
    (stay_in_table now t).s = RS_STATE_SEARCH_CYCLE_STARTED ↔
      (t.total_failed > t.getMaxFailureLimit ∨ t.total_success > t.getMaxSuccessLimit ∨
        (t.columnScaling = false ∧ flush_interval_passed now t = true)) := by
  constructor
  · intro h
    by_contra hx
    rw [stay_in_table_not_expired now t hs hx] at h
    split_ifs at h
    · rw [clearHistories_s] at h
      have h2 : t.s = RS_STATE_SEARCH_CYCLE_STARTED := h
      rw [hs] at h2
      exact absurd h2 (by decide)
    · have h2 : t.s = RS_STATE_SEARCH_CYCLE_STARTED := h
      rw [hs] at h2
      exact absurd h2 (by decide)
  · intro hx
    rw [stay_in_table_expired now t hs hx]

/-- Claim C16: in phase StayInColumn `stay_in_table` expires the phase whenever
the failure counter exceeds the limit of the mode (Legacy 160, otherwise 400)
or the success counter exceeds its limit (Legacy 480, otherwise 4500); on every
expiry the phase is SearchCycleStarted, both counters, the table-use counter
and the flush timestamp are 0, the visited set is exactly the current column
and nothing else changes; in any other phase `stay_in_table` changes nothing. -/
theorem stay_in_table_counter_expiry (now : Int) (t : State) :
    (t.s = RS_STATE_STAY_IN_COLUMN →
      (t.total_failed > (if t.mode = LEGACY then 160 else 400) ∨
        t.total_success > (if t.mode = LEGACY then 480 else 4500)) →
      (stay_in_table now t).s = RS_STATE_SEARCH_CYCLE_STARTED) ∧
    (t.s = RS_STATE_STAY_IN_COLUMN →
      (stay_in_table now t).s = RS_STATE_SEARCH_CYCLE_STARTED →
      stay_in_table now t =
        { t with
          s := RS_STATE_SEARCH_CYCLE_STARTED
          total_failed := 0
          total_success := 0
          table_count := 0
          flush_timer := 0
          visited_columns := [(t.mode, t.antennas, t.guardInterval)] }) ∧
    (t.s ≠ RS_STATE_STAY_IN_COLUMN → stay_in_table now t = t) := by
  refine ⟨fun hs hx => ?_, fun hs he => ?_, stay_in_table_other_phase now t⟩
  · rw [stay_in_table_s_iff now t hs, getMaxFailureLimit_eq, getMaxSuccessLimit_eq]
    rcases hx with hx | hx
    · exact Or.inl hx
    · exact Or.inr (Or.inl hx)
  · exact stay_in_table_expired now t hs ((stay_in_table_s_iff now t hs).mp he)

set_option maxRecDepth 100000 in
/-- Witness for C16: 161 failures in Legacy mode expire the phase and zero the
counter; outside StayInColumn the check changes nothing. -/
theorem stay_in_table_counter_expiry_witness :
    (stay_in_table 7 { ofMaxWidth 20 with s := RS_STATE_STAY_IN_COLUMN, total_failed := 161 }).s
      = RS_STATE_SEARCH_CYCLE_STARTED ∧
    (stay_in_table 7 { ofMaxWidth 20 with s := RS_STATE_STAY_IN_COLUMN, total_failed := 161 }).total_failed
      = 0 ∧
    stay_in_table 7 (ofMaxWidth 20) = ofMaxWidth 20 := by
  have h := stay_in_table_counter_expiry 7
    { ofMaxWidth 20 with s := RS_STATE_STAY_IN_COLUMN, total_failed := 161 }
  have h1 := h.1 rfl (Or.inl (by decide))
  have h2 := h.2.1 rfl h1
  refine ⟨h1, ?_, (stay_in_table_counter_expiry 7 (ofMaxWidth 20)).2.2 (by decide)⟩
  rw [h2]

theorem flush_interval_passed_iff (now : Int) (t : State) :
    flush_interval_passed now t = true ↔
      (t.flush_timer ≠ 0 ∧ now - t.flush_timer ≥ 25000000000) := by
  unfold flush_interval_passed IWL_MVM_RS_STAY_IN_COLUMN_TIMEOUT
  by_cases h0 : t.flush_timer ≠ 0
  · rw [if_pos h0, decide_eq_true_iff]
    constructor
    · intro h
      exact ⟨h0, by omega⟩
    · intro h
      omega
  · rw [if_neg h0]
    constructor
    · intro h
      exact absurd h (by decide)
    · intro h
      exact absurd h.1 h0

/-- The timed expiry as the code has it: with no trial active and the counters
within their limits, the phase expires exactly when the flush timestamp is not 0
and at least `5000000000 * 5` clock units have elapsed since it. -/
theorem stay_in_table_timed_iff (now : Int) (t : State) (hs : t.s = RS_STATE_STAY_IN_COLUMN)
    (hcs : t.columnScaling = false) (hf : t.total_failed ≤ t.getMaxFailureLimit)
    (hsu : t.total_success ≤ t.getMaxSuccessLimit) :
    (stay_in_table now t).s = RS_STATE_SEARCH_CYCLE_STARTED ↔
      (t.flush_timer ≠ 0 ∧ now - t.flush_timer ≥ 25000000000) := by
  rw [stay_in_table_s_iff now t hs, ← flush_interval_passed_iff]
  constructor
  · rintro (h | h | h)
    · omega
    · omega
    · exact h.2
  · intro h
    exact Or.inr (Or.inr ⟨hcs, h⟩)

/-- Claim C17, amended: in phase StayInColumn with no column trial active and
both resident counters within their limits, `stay_in_table` expires the phase
exactly when the recorded flush timestamp is not 0 and at least 25000000000
clock units, the value of `5000000000 * IWL_MVM_RS_STAY_IN_COLUMN_TIMEOUT`,
have elapsed since it.  On expiry the phase is SearchCycleStarted, both
counters, the table-use counter and the flush timestamp are 0 and the visited
set is exactly the current column; otherwise the phase stays StayInColumn and
the check is the table-use refresh. -/
theorem stay_in_table_timed_expiry (now : Int) (t : State)
    (hs : t.s = RS_STATE_STAY_IN_COLUMN) (hcs : t.columnScaling = false)
    (hf : t.total_failed ≤ (if t.mode = LEGACY then 160 else 400))
    (hsu : t.total_success ≤ (if t.mode = LEGACY then 480 else 4500)) :
    5000000000 * IWL_MVM_RS_STAY_IN_COLUMN_TIMEOUT = 25000000000 ∧
    ((stay_in_table now t).s = RS_STATE_SEARCH_CYCLE_STARTED ↔
      (t.flush_timer ≠ 0 ∧ now - t.flush_timer ≥ 25000000000)) ∧
    ((t.flush_timer ≠ 0 ∧ now - t.flush_timer ≥ 25000000000) →
      stay_in_table now t =
        { t with
          s := RS_STATE_SEARCH_CYCLE_STARTED
          total_failed := 0
          total_success := 0
          table_count := 0
          flush_timer := 0
          visited_columns := [t.colKey] }) ∧
    (¬ (t.flush_timer ≠ 0 ∧ now - t.flush_timer ≥ 25000000000) →
      (stay_in_table now t).s = RS_STATE_STAY_IN_COLUMN ∧
      stay_in_table now t =
        if t.table_count + 1 > t.getTableCountLimit then
          clearHistories { t with table_count := 0 }
        else { t with table_count := t.table_count + 1 }) := by
  have hiff := stay_in_table_timed_iff now t hs hcs hf hsu
  have hsi := stay_in_table_s_iff now t hs
  refine ⟨by decide, hiff, fun hx => ?_, fun hx => ?_⟩
  · exact stay_in_table_expired now t hs (hsi.mp (hiff.mpr hx))
  · have hne : ¬ (t.total_failed > t.getMaxFailureLimit ∨
        t.total_success > t.getMaxSuccessLimit ∨
        (t.columnScaling = false ∧ flush_interval_passed now t = true)) :=
      fun h => hx (hiff.mp (hsi.mpr h))
    refine ⟨?_, stay_in_table_not_expired now t hs hne⟩
    rw [stay_in_table_not_expired now t hs hne]
    by_cases hc : t.table_count + 1 > t.getTableCountLimit
    · rw [if_pos hc, clearHistories_s]
      exact hs
    · rw [if_neg hc]
      exact hs

set_option maxRecDepth 100000 in
/-- Witness for C17: with the flush timestamp 1 the check made at clock value
25000000001 expires the phase, and the check made at clock value 25000000000
does not. -/
theorem stay_in_table_timed_expiry_witness :
    (stay_in_table 25000000001
      { ofMaxWidth 20 with s := RS_STATE_STAY_IN_COLUMN, flush_timer := 1 }).s
      = RS_STATE_SEARCH_CYCLE_STARTED ∧
    (stay_in_table 25000000000
      { ofMaxWidth 20 with s := RS_STATE_STAY_IN_COLUMN, flush_timer := 1 }).s
      = RS_STATE_STAY_IN_COLUMN :=
  ⟨(stay_in_table_timed_expiry 25000000001
      { ofMaxWidth 20 with s := RS_STATE_STAY_IN_COLUMN, flush_timer := 1 }
      rfl rfl (by decide) (by decide)).2.1.mpr ⟨by decide, by decide⟩,
    ((stay_in_table_timed_expiry 25000000000
      { ofMaxWidth 20 with s := RS_STATE_STAY_IN_COLUMN, flush_timer := 1 }
      rfl rfl (by decide) (by decide)).2.2.2 (fun h => absurd h.2 (by decide))).1⟩

set_option maxRecDepth 100000 in
/-- Claim C17 as stated fails: with no trial active and both counters at 0, a
check made 6000000000 clock units after the flush timestamp 1, and a check made
at clock value 6000000000 with the flush timestamp 0, both leave the phase at
StayInColumn. -/
theorem stay_in_table_timed_counterexample :
    ({ ofMaxWidth 20 with s := RS_STATE_STAY_IN_COLUMN, flush_timer := 1 } : State).columnScaling
      = false ∧
    (6000000001 : Int) -
      ({ ofMaxWidth 20 with s := RS_STATE_STAY_IN_COLUMN, flush_timer := 1 } : State).flush_timer
      > 5000000000 ∧
    (stay_in_table 6000000001
      { ofMaxWidth 20 with s := RS_STATE_STAY_IN_COLUMN, flush_timer := 1 }).s
      = RS_STATE_STAY_IN_COLUMN ∧
    (6000000000 : Int) -
      ({ ofMaxWidth 20 with s := RS_STATE_STAY_IN_COLUMN, flush_timer := 0 } : State).flush_timer
      > 5000000000 ∧
    (stay_in_table 6000000000
      { ofMaxWidth 20 with s := RS_STATE_STAY_IN_COLUMN, flush_timer := 0 }).s
      = RS_STATE_STAY_IN_COLUMN := by
  decide

/-- Claim C18, amended: for a state in phase StayInColumn in a non-Legacy
mode, with failure counter 0 and the flush interval not elapsed, the expiry
check resets the phase to SearchCycleStarted with the counters zeroed exactly
when the success counter exceeds 4500; at 480 successes phase and counters are
left as they are. -/
theorem stay_in_table_non_legacy_success (now : Int) (t : State)
    (hs : t.s = RS_STATE_STAY_IN_COLUMN) (hm : t.mode ≠ LEGACY) (hf : t.total_failed = 0)
    (hfl : flush_interval_passed now t = false) :
    ((stay_in_table now t).s = RS_STATE_SEARCH_CYCLE_STARTED ↔ t.total_success > 4500) ∧
    (t.total_success > 4500 →
      stay_in_table now t =
        { t with
          s := RS_STATE_SEARCH_CYCLE_STARTED
          total_failed := 0
          total_success := 0
          table_count := 0
          flush_timer := 0
          visited_columns := [(t.mode, t.antennas, t.guardInterval)] }) ∧
    (t.total_success = 480 →
      (stay_in_table now t).s = RS_STATE_STAY_IN_COLUMN ∧
      (stay_in_table now t).total_success = 480 ∧
      (stay_in_table now t).total_failed = 0) := by
  have hlimF : t.getMaxFailureLimit = 400 := by rw [getMaxFailureLimit_eq, if_neg hm]
  have hlimS : t.getMaxSuccessLimit = 4500 := by rw [getMaxSuccessLimit_eq, if_neg hm]
  have hiff : (t.total_failed > t.getMaxFailureLimit ∨ t.total_success > t.getMaxSuccessLimit ∨
      (t.columnScaling = false ∧ flush_interval_passed now t = true)) ↔ t.total_success > 4500 := by
    rw [hlimF, hlimS, hf, hfl]
    constructor
    · rintro (h | h | h)
      · exact absurd h (by decide)
      · exact h
      · exact absurd h.2 (by decide)
    · intro h
      exact Or.inr (Or.inl h)
  refine ⟨(stay_in_table_s_iff now t hs).trans hiff, fun h => ?_, fun h => ?_⟩
  · exact stay_in_table_expired now t hs (hiff.mpr h)
  · have hx : ¬ (t.total_failed > t.getMaxFailureLimit ∨
        t.total_success > t.getMaxSuccessLimit ∨
        (t.columnScaling = false ∧ flush_interval_passed now t = true)) := by
      rw [hiff, h]
      decide
    rw [stay_in_table_not_expired now t hs hx]
    split_ifs
    · rw [clearHistories_frame]
      exact ⟨hs, h, hf⟩
    · exact ⟨hs, h, hf⟩

set_option maxRecDepth 100000 in
/-- Witness for C18: in SISO mode 4501 successes expire the phase. -/
theorem stay_in_table_non_legacy_success_witness :
    (stay_in_table 0 { ofMaxWidth 20 with
      mode := SISO, type := NONE, index := 4, s := RS_STATE_STAY_IN_COLUMN,
      total_success := 4501 }).s = RS_STATE_SEARCH_CYCLE_STARTED :=
  (stay_in_table_non_legacy_success 0 { ofMaxWidth 20 with
      mode := SISO, type := NONE, index := 4, s := RS_STATE_STAY_IN_COLUMN,
      total_success := 4501 } rfl (by decide) rfl (by decide)).1.mpr (by decide)

set_option maxRecDepth 100000 in
/-- Claim C18 as stated fails: in SISO mode with 480 successes, no failure and
no flush timestamp, the expiry check leaves the phase at StayInColumn and the
success counter at 480. -/
theorem stay_in_table_non_legacy_success_counterexample :
    (stay_in_table 0 { ofMaxWidth 20 with
      mode := SISO, type := NONE, index := 4, s := RS_STATE_STAY_IN_COLUMN,
      total_success := 480 }).s = RS_STATE_STAY_IN_COLUMN ∧
    (stay_in_table 0 { ofMaxWidth 20 with
      mode := SISO, type := NONE, index := 4, s := RS_STATE_STAY_IN_COLUMN,
      total_success := 480 }).total_success = 480 := by
  decide

theorem reset_reset (h : History) : h.reset.reset = h.reset := rfl

theorem amAt_setHistory (t : State) (i : Int) (h : History) (k : HistKey) :
    amAt History.empty k (t.setHistory i h).Histories
      = if k = t.histKey i then h else amAt History.empty k t.Histories := by
  unfold setHistory
  by_cases hk : k = t.histKey i
  · rw [if_pos hk, hk]
    exact amAt_amSet_self _ _ _ _
  · rw [if_neg hk]
    exact amAt_amSet_other _ _ _ _ _ hk

/-- What a run of `getHistory(i)->reset()` over the indices of `l` leaves in the
history map: the slots of the current group with an index of `l` are reset, every
other key reads as before. -/
theorem foldl_reset_spec (l : List Nat) (t : State) (k : HistKey) :
    ((∃ i ∈ l, k = t.histKey (Int.ofNat i)) →
      amAt History.empty k
        (l.foldl (fun u (i : Nat) =>
          u.setHistory (Int.ofNat i) (u.history (Int.ofNat i)).reset) t).Histories
        = (amAt History.empty k t.Histories).reset) ∧
    ((∀ i ∈ l, k ≠ t.histKey (Int.ofNat i)) →
      amAt History.empty k
        (l.foldl (fun u (i : Nat) =>
          u.setHistory (Int.ofNat i) (u.history (Int.ofNat i)).reset) t).Histories
        = amAt History.empty k t.Histories) := by
  induction l generalizing t with
  | nil =>
    constructor
    · rintro ⟨i, hi, -⟩
      exact absurd hi (List.not_mem_nil i)
    · intro _
      rfl
  | cons i l ih =>
    rw [List.foldl_cons]
    obtain ⟨ih1, ih2⟩ := ih (t.setHistory (Int.ofNat i) (t.history (Int.ofNat i)).reset)
    have hkey : ∀ j : Int,
        (t.setHistory (Int.ofNat i) (t.history (Int.ofNat i)).reset).histKey j = t.histKey j :=
      fun _ => rfl
    simp only [hkey] at ih1 ih2
    rw [amAt_setHistory] at ih1 ih2
    by_cases hk : k = t.histKey (Int.ofNat i)
    · rw [if_pos hk] at ih1 ih2
      have hval : (t.history (Int.ofNat i)).reset = (amAt History.empty k t.Histories).reset := by
        rw [hk]
        rfl
      constructor
      · intro _
        by_cases hex : ∃ j ∈ l, k = t.histKey (Int.ofNat j)
        · rw [ih1 hex, hval, reset_reset]
        · rw [ih2 (fun j hj hkj => hex ⟨j, hj, hkj⟩), hval]
      · intro hall
        exact absurd hk (hall i (List.mem_cons_self i l))
    · rw [if_neg hk] at ih1 ih2
      constructor
      · rintro ⟨j, hj, hkj⟩
        rcases List.mem_cons.mp hj with hji | hjl
        · exact absurd (hji ▸ hkj) hk
        · exact ih1 ⟨j, hjl, hkj⟩
      · intro hall
        exact ih2 (fun j hj => hall j (List.mem_cons_of_mem i hj))

theorem clearHistories_histKey (t : State) (i : Int) :
    (clearHistories t).histKey i = t.histKey i :=
  histKey_of_control (control_clearHistories t) i

/-- After `clearHistories` each of the 15 slots of the current group is the
slot it was, emptied. -/
theorem clearHistories_history (t : State) (i : Int) (h0 : 0 ≤ i) (h14 : i ≤ 14) :
    (clearHistories t).history i = (t.history i).reset := by
  unfold history
  rw [clearHistories_histKey]
  refine (foldl_reset_spec (List.range 15) t (t.histKey i)).1 ⟨i.toNat, ?_, ?_⟩
  · rw [List.mem_range]
    omega
  · congr 1
    exact (Int.toNat_of_nonneg h0).symm

/-- Every key that `clearHistories` does not address reads as before. -/
theorem clearHistories_other (t : State) (k : HistKey)
    (hk : ∀ i : Int, 0 ≤ i → i ≤ 14 → k ≠ t.histKey i) :
    amAt History.empty k (clearHistories t).Histories = amAt History.empty k t.Histories := by
  refine (foldl_reset_spec (List.range 15) t k).2 (fun i hi => ?_)
  rw [List.mem_range] at hi
  exact hk (Int.ofNat i) (Int.ofNat_nonneg i) (by
    have : (Int.ofNat i) = (i : Int) := rfl
    omega)

/-- Consecutive expiry checks, at the clock values of `nows`, that do not expire
and do not reach the table-count limit only count. -/
theorem foldl_stay_in_table_count (nows : List Int) (t : State) (c : Nat)
    (hs : t.s = RS_STATE_STAY_IN_COLUMN) (hc : t.table_count = (c : Int))
    (hx : ∀ n ∈ nows, ¬ (t.total_failed > t.getMaxFailureLimit ∨
      t.total_success > t.getMaxSuccessLimit ∨
      (t.columnScaling = false ∧ flush_interval_passed n t = true)))
    (hlen : ((c + nows.length : Nat) : Int) ≤ t.getTableCountLimit) :
    nows.foldl (fun u n => stay_in_table n u) t
      = { t with table_count := ((c + nows.length : Nat) : Int) } := by
  induction nows generalizing t c with
  | nil =>
    rw [List.foldl_nil, List.length_nil, Nat.add_zero, ← hc]
  | cons n rest ih =>
    rw [List.foldl_cons, stay_in_table_not_expired n t hs (hx n (List.mem_cons_self n rest))]
    have hlim : ¬ (t.table_count + 1 > t.getTableCountLimit) := by
      rw [List.length_cons] at hlen
      rw [hc]
      push_cast at hlen ⊢
      omega
    rw [if_neg hlim]
    rw [ih { t with table_count := t.table_count + 1 } (c + 1) hs (by rw [hc]; push_cast; rfl)
      (fun m hm => hx m (List.mem_cons_of_mem n hm))
      (by rw [List.length_cons] at hlen; rw [show c + 1 + rest.length = c + (rest.length + 1) by omega]; exact hlen)]
    rw [List.length_cons, show c + 1 + rest.length = c + (rest.length + 1) by omega]

/-- Claim C19: a `stay_in_table` call in phase StayInColumn that does not
expire raises the table-use counter by 1 and changes nothing else while the
raised counter is within the limit of the mode (Legacy 160, otherwise 1500);
when it exceeds the limit the counter is 0 afterwards, each of the 15 slots of
the current group is empty (its ceiling kept) and every other history reads as
before.  From counter 0 in Legacy mode, up to 160 consecutive checks that do
not expire only count, and the 161st clears the histories. -/
theorem stay_in_table_refresh (now : Int) (t : State) (hs : t.s = RS_STATE_STAY_IN_COLUMN)
    (hx : ¬ (t.total_failed > t.getMaxFailureLimit ∨ t.total_success > t.getMaxSuccessLimit ∨
      (t.columnScaling = false ∧ flush_interval_passed now t = true))) :
    (t.table_count + 1 ≤ (if t.mode = LEGACY then 160 else 1500) →
      stay_in_table now t = { t with table_count := t.table_count + 1 }) ∧
    (t.table_count + 1 > (if t.mode = LEGACY then 160 else 1500) →
      (stay_in_table now t).table_count = 0 ∧
      (∀ i : Int, 0 ≤ i → i ≤ 14 →
        ((stay_in_table now t).history i).data = [] ∧
        ((stay_in_table now t).history i).max_throughput = (t.history i).max_throughput) ∧
      (∀ k : HistKey, (∀ i : Int, 0 ≤ i → i ≤ 14 → k ≠ t.histKey i) →
        amAt History.empty k (stay_in_table now t).Histories
          = amAt History.empty k t.Histories)) ∧
    (t.mode = LEGACY → t.table_count = 0 →
      ∀ nows : List Int,
        (∀ n ∈ nows, ¬ (t.total_failed > t.getMaxFailureLimit ∨
          t.total_success > t.getMaxSuccessLimit ∨
          (t.columnScaling = false ∧ flush_interval_passed n t = true))) →
        (nows.length ≤ 160 →
          nows.foldl (fun u n => stay_in_table n u) t
            = { t with table_count := (nows.length : Int) }) ∧
        (nows.length = 161 →
          nows.foldl (fun u n => stay_in_table n u) t
            = clearHistories { t with table_count := 0 } ∧
          ∀ i : Int, 0 ≤ i → i ≤ 14 →
            ((nows.foldl (fun u n => stay_in_table n u) t).history i).data = [])) := by
  have hstep := stay_in_table_not_expired now t hs hx
  rw [getTableCountLimit_eq] at hstep
  refine ⟨fun hle => ?_, fun hgt => ?_, fun hm hc nows hxs => ⟨fun hlen => ?_, fun hlen => ?_⟩⟩
  · rw [hstep, if_neg (by omega)]
  · rw [hstep, if_pos hgt]
    refine ⟨(table_count_of_control (control_clearHistories _)).trans rfl, fun i h0 h14 => ?_,
      fun k hk => ?_⟩
    · rw [clearHistories_history _ i h0 h14]
      exact ⟨rfl, rfl⟩
    · exact clearHistories_other { t with table_count := 0 } k hk
  · have h := foldl_stay_in_table_count nows t 0 hs (by rw [hc]; rfl) hxs (by
      rw [getTableCountLimit_eq, if_pos hm, Nat.zero_add]
      exact_mod_cast hlen)
    rw [h, Nat.zero_add]
  · rcases List.eq_nil_or_concat nows with hnil | ⟨init, last, hcat⟩
    · rw [hnil] at hlen
      exact absurd hlen (by decide)
    · rw [List.concat_eq_append] at hcat
      subst hcat
      have hl : init.length = 160 := by
        rw [List.length_append, List.length_singleton] at hlen
        omega
      have h := foldl_stay_in_table_count init t 0 hs (by rw [hc]; rfl)
        (fun n hn => hxs n (List.mem_append_left _ hn)) (by
          rw [getTableCountLimit_eq, if_pos hm, Nat.zero_add, hl]
          decide)
      have hlast := hxs last (List.mem_append_right _ (List.mem_singleton_self last))
      have hres : (init ++ [last]).foldl (fun u n => stay_in_table n u) t
          = clearHistories { t with table_count := 0 } := by
        rw [List.foldl_append, h, Nat.zero_add, hl, List.foldl_cons, List.foldl_nil,
          stay_in_table_not_expired last { t with table_count := ((160 : Nat) : Int) } hs hlast]
        have hgt : ({ t with table_count := ((160 : Nat) : Int) } : State).table_count + 1
            > ({ t with table_count := ((160 : Nat) : Int) } : State).getTableCountLimit := by
          rw [getTableCountLimit_eq]
          show ((160 : Nat) : Int) + 1 > (if t.mode = LEGACY then 160 else 1500)
          rw [if_pos hm]
          decide
        rw [if_pos hgt]
      refine ⟨hres, fun i h0 h14 => ?_⟩
      rw [hres, clearHistories_history _ i h0 h14]
      rfl

set_option maxRecDepth 100000 in
/-- Witness for C19: in Legacy mode with the table-use counter at 160, the next
check that does not expire resets the counter and empties slot 0, which held one
outcome. -/
theorem stay_in_table_refresh_witness :
    (stay_in_table 0 { (ofMaxWidth 20).setHistory 0 ⟨[true], 7⟩ with
      s := RS_STATE_STAY_IN_COLUMN, table_count := 160 }).table_count = 0 ∧
    ((stay_in_table 0 { (ofMaxWidth 20).setHistory 0 ⟨[true], 7⟩ with
      s := RS_STATE_STAY_IN_COLUMN, table_count := 160 }).history 0).data = [] := by
  have h := (stay_in_table_refresh 0 { (ofMaxWidth 20).setHistory 0 ⟨[true], 7⟩ with
    s := RS_STATE_STAY_IN_COLUMN, table_count := 160 } rfl (by decide)).2.1 (by decide)
  exact ⟨h.1, (h.2.1 0 (by decide) (by decide)).1⟩

/-! ## The tail of RateScaling -/

theorem stay_in_table_type (now : Int) (t : State) : (stay_in_table now t).type = t.type := by
  unfold stay_in_table
  dsimp only
  split_ifs
  · rfl
  · exact (type_of_control (control_clearHistories _)).trans rfl
  · rfl
  · rfl

theorem stay_in_table_s_cases (now : Int) (t : State) :
    (stay_in_table now t).s = RS_STATE_SEARCH_CYCLE_STARTED ∨ (stay_in_table now t).s = t.s := by
  unfold stay_in_table
  dsimp only
  split_ifs
  · exact Or.inl rfl
  · exact Or.inr ((s_of_control (control_clearHistories _)).trans rfl)
  · exact Or.inr rfl
  · exact Or.inr rfl

theorem stay_in_table_ne_ended (now : Int) (t : State)
    (h : t.s ≠ RS_STATE_SEARCH_CYCLE_ENDED) :
    (stay_in_table now t).s ≠ RS_STATE_SEARCH_CYCLE_ENDED := by
  rcases stay_in_table_s_cases now t with h1 | h1
  · rw [h1]
    decide
  · rw [h1]
    exact h

/-- The tail of `RateScaling`, with the state after `if (update_lq)` written
as `applyIndex`. -/
theorem rateScalingTail_eq (now : Int) (r : State × Bool × Bool × Int) :
    rateScalingTail now r =
      match (if r.2.1 = false ∧ r.2.2.1 = false ∧
          (stay_in_table now (applyIndex r)).s = RS_STATE_SEARCH_CYCLE_STARTED then
        if (((stay_in_table now (applyIndex r)).touchHistory
            (stay_in_table now (applyIndex r)).index).history
            ((stay_in_table now (applyIndex r)).touchHistory
              (stay_in_table now (applyIndex r)).index).index).counter ≠ 0 then
          columnSearchStep ((stay_in_table now (applyIndex r)).touchHistory
            (stay_in_table now (applyIndex r)).index)
        else some ((stay_in_table now (applyIndex r)).touchHistory
          (stay_in_table now (applyIndex r)).index, r.2.2.1)
      else some (stay_in_table now (applyIndex r), r.2.2.1)) with
      | Option.none => Option.none
      | some (t4, done_search1) =>
        if done_search1 = true ∧ t4.s = RS_STATE_SEARCH_CYCLE_ENDED then
          some (set_stay_in_table now t4)
        else some t4 := rfl

/-- When the search condition of `RateScaling` fails on its first three
conjuncts, the tail is the expiry check, followed by the transition to
StayInColumn if the search is done and the phase is SearchCycleEnded. -/
theorem rateScalingTail_no_search (now : Int) (r : State × Bool × Bool × Int)
    (h : ¬ (r.2.1 = false ∧ r.2.2.1 = false ∧
      (stay_in_table now (applyIndex r)).s = RS_STATE_SEARCH_CYCLE_STARTED)) :
    rateScalingTail now r =
      some (if r.2.2.1 = true ∧
          (stay_in_table now (applyIndex r)).s = RS_STATE_SEARCH_CYCLE_ENDED then
        set_stay_in_table now (stay_in_table now (applyIndex r))
      else stay_in_table now (applyIndex r)) := by
  rw [rateScalingTail_eq, if_neg h]
  dsimp only
  split_ifs <;> rfl

/-- When the search condition holds up to the sample count but the current slot
has no sample, the tail is the expiry check and the lookup of the slot. -/
theorem rateScalingTail_no_sample (now : Int) (r : State × Bool × Bool × Int)
    (h : r.2.1 = false ∧ r.2.2.1 = false ∧
      (stay_in_table now (applyIndex r)).s = RS_STATE_SEARCH_CYCLE_STARTED)
    (hc : ((stay_in_table now (applyIndex r)).history
      (stay_in_table now (applyIndex r)).index).counter = 0) :
    rateScalingTail now r =
      some ((stay_in_table now (applyIndex r)).touchHistory
        (stay_in_table now (applyIndex r)).index) := by
  rw [rateScalingTail_eq, if_pos h, touchHistory_index, history_touchHistory,
    if_neg (not_not.mpr hc)]
  dsimp only
  rw [if_neg]
  rw [h.2.1]
  simp

/-- When the search condition holds, the tail is the column search, followed by
the transition to StayInColumn if the search ended the cycle. -/
theorem rateScalingTail_search (now : Int) (r : State × Bool × Bool × Int)
    (h : r.2.1 = false ∧ r.2.2.1 = false ∧
      (stay_in_table now (applyIndex r)).s = RS_STATE_SEARCH_CYCLE_STARTED)
    (hc : ((stay_in_table now (applyIndex r)).history
      (stay_in_table now (applyIndex r)).index).counter ≠ 0) :
    rateScalingTail now r =
      match columnSearchStep ((stay_in_table now (applyIndex r)).touchHistory
          (stay_in_table now (applyIndex r)).index) with
      | Option.none => Option.none
      | some (t4, done_search1) =>
        if done_search1 = true ∧ t4.s = RS_STATE_SEARCH_CYCLE_ENDED then
          some (set_stay_in_table now t4)
        else some t4 := by
  rw [rateScalingTail_eq, if_pos h, touchHistory_index, history_touchHistory, if_pos hc]

/-- `RateScaling` on a slot whose average throughput is known: the first half,
then the tail. -/
theorem RateScaling_known (now : Int) (t : State)
    (hav : (t.history t.index).average_tpt ≠ -1) :
    RateScaling now t =
      match (if t.columnScaling = true then
          some (columnTrialStep (t.touchHistory t.index) t.index)
        else mcsScalingStep (t.touchHistory t.index) t.index) with
      | Option.none => Option.none
      | some r => rateScalingTail now r := by
  unfold RateScaling
  dsimp only
  rw [touchHistory_index, history_touchHistory, if_neg hav]
  rfl

/-- The fields that neither the expiry check nor the transition to StayInColumn
touches. -/
theorem finish_fields (now : Int) (c : Prop) [Decidable c] (a : State) :
    (if c then set_stay_in_table now (stay_in_table now a) else stay_in_table now a).mode
      = a.mode ∧
    (if c then set_stay_in_table now (stay_in_table now a) else stay_in_table now a).antennas
      = a.antennas ∧
    (if c then set_stay_in_table now (stay_in_table now a)
      else stay_in_table now a).guardInterval = a.guardInterval ∧
    (if c then set_stay_in_table now (stay_in_table now a) else stay_in_table now a).bandWidth
      = a.bandWidth ∧
    (if c then set_stay_in_table now (stay_in_table now a) else stay_in_table now a).index
      = a.index ∧
    (if c then set_stay_in_table now (stay_in_table now a)
      else stay_in_table now a).columnScaling = a.columnScaling ∧
    (if c then set_stay_in_table now (stay_in_table now a) else stay_in_table now a).last_tpt
      = a.last_tpt ∧
    (if c then set_stay_in_table now (stay_in_table now a)
      else stay_in_table now a).oldColumnParameters = a.oldColumnParameters ∧
    (if c then set_stay_in_table now (stay_in_table now a) else stay_in_table now a).type
      = a.type := by
  obtain ⟨h1, h2, h3, h4, h5, h6, h7, h8⟩ := stay_in_table_frame now a
  have h9 := stay_in_table_type now a
  split_ifs
  · exact ⟨h1, h2, h3, h4, h5, h6, h7, h8, h9⟩
  · exact ⟨h1, h2, h3, h4, h5, h6, h7, h8, h9⟩

theorem applyIndex_columnTrialStep_keep (t : State) (index : Int)
    (h : (t.history t.index).average_tpt > t.last_tpt) :
    applyIndex (columnTrialStep t index) = { t with columnScaling := false } := by
  unfold columnTrialStep applyIndex
  rw [if_pos h]
  rfl

theorem applyIndex_columnTrialStep_back (t : State) (index : Int)
    (h : ¬ (t.history t.index).average_tpt > t.last_tpt) :
    applyIndex (columnTrialStep t index) =
      { t with
        mode := t.oldColumnParameters.1
        antennas := t.oldColumnParameters.2.1
        guardInterval := t.oldColumnParameters.2.2.1
        bandWidth := t.oldColumnParameters.2.2.2.2
        type := if t.oldColumnParameters.1 = LEGACY then LEGACY_G else NONE
        columnScaling := false
        index := t.oldColumnParameters.2.2.2.1 } := by
  unfold columnTrialStep applyIndex
  rw [if_neg h]
  rfl

/-- Claim C11: when `RateScaling` runs with a column trial active and the
average throughput `a` of the current slot known, it returns; the result is
the expiry check (and the transition out of SearchCycleEnded) applied to the
trial step, so no column search runs; the trial flag is false afterwards and
baseline and snapshot are untouched; if `a` is not greater than the baseline,
mode, antennas, guard interval, bandwidth and rate index are those of the
snapshot and the class is Legacy-G exactly when the restored mode is Legacy; if
`a` is greater, those five fields are as before. -/
theorem RateScaling_column_trial (now : Int) (t : State) (hcs : t.columnScaling = true)
    (hav : (t.history t.index).average_tpt ≠ -1) :
    RateScaling now t =
      some (if (stay_in_table now
            (applyIndex (columnTrialStep (t.touchHistory t.index) t.index))).s
          = RS_STATE_SEARCH_CYCLE_ENDED then
        set_stay_in_table now (stay_in_table now
          (applyIndex (columnTrialStep (t.touchHistory t.index) t.index)))
      else stay_in_table now
        (applyIndex (columnTrialStep (t.touchHistory t.index) t.index))) ∧
    (∀ u, RateScaling now t = some u →
      u.columnScaling = false ∧ u.last_tpt = t.last_tpt ∧
      u.oldColumnParameters = t.oldColumnParameters ∧
      ((t.history t.index).average_tpt ≤ t.last_tpt →
        u.mode = t.oldColumnParameters.1 ∧ u.antennas = t.oldColumnParameters.2.1 ∧
        u.guardInterval = t.oldColumnParameters.2.2.1 ∧
        u.bandWidth = t.oldColumnParameters.2.2.2.2 ∧
        u.index = t.oldColumnParameters.2.2.2.1 ∧
        (u.type = LEGACY_G ↔ u.mode = LEGACY)) ∧
      ((t.history t.index).average_tpt > t.last_tpt →
        u.mode = t.mode ∧ u.antennas = t.antennas ∧ u.guardInterval = t.guardInterval ∧
        u.bandWidth = t.bandWidth ∧ u.index = t.index)) := by
  have hdone : (columnTrialStep (t.touchHistory t.index) t.index).2.2.1 = true := by
    unfold columnTrialStep
    split_ifs <;> rfl
  have hR : RateScaling now t =
      some (if (stay_in_table now
            (applyIndex (columnTrialStep (t.touchHistory t.index) t.index))).s
          = RS_STATE_SEARCH_CYCLE_ENDED then
        set_stay_in_table now (stay_in_table now
          (applyIndex (columnTrialStep (t.touchHistory t.index) t.index)))
      else stay_in_table now
        (applyIndex (columnTrialStep (t.touchHistory t.index) t.index))) := by
    rw [RateScaling_known now t hav, if_pos hcs]
    dsimp only
    rw [rateScalingTail_no_search]
    · simp only [hdone, true_and]
    · rw [hdone]
      simp
  refine ⟨hR, fun u hu => ?_⟩
  rw [hR] at hu
  cases hu
  obtain ⟨f1, f2, f3, f4, f5, f6, f7, f8, f9⟩ := finish_fields now
    ((stay_in_table now
      (applyIndex (columnTrialStep (t.touchHistory t.index) t.index))).s
        = RS_STATE_SEARCH_CYCLE_ENDED)
    (applyIndex (columnTrialStep (t.touchHistory t.index) t.index))
  rw [f1, f2, f3, f4, f5, f6, f7, f8, f9]
  by_cases hgt : (t.history t.index).average_tpt > t.last_tpt
  · have hgt1 : ((t.touchHistory t.index).history (t.touchHistory t.index).index).average_tpt
        > (t.touchHistory t.index).last_tpt := by
      rw [touchHistory_index, history_touchHistory]
      exact hgt
    rw [applyIndex_columnTrialStep_keep _ _ hgt1]
    exact ⟨rfl, rfl, rfl, fun hle => absurd hgt (by omega), fun _ => ⟨rfl, rfl, rfl, rfl, rfl⟩⟩
  · have hgt1 : ¬ ((t.touchHistory t.index).history (t.touchHistory t.index).index).average_tpt
        > (t.touchHistory t.index).last_tpt := by
      rw [touchHistory_index, history_touchHistory]
      exact hgt
    rw [applyIndex_columnTrialStep_back _ _ hgt1]
    refine ⟨rfl, rfl, rfl, fun _ => ⟨rfl, rfl, rfl, rfl, rfl, ?_⟩, fun h => absurd h hgt⟩
    show (if (t.touchHistory t.index).oldColumnParameters.1 = LEGACY then LEGACY_G else NONE)
      = LEGACY_G ↔ (t.touchHistory t.index).oldColumnParameters.1 = LEGACY
    by_cases hm : (t.touchHistory t.index).oldColumnParameters.1 = LEGACY
    · rw [if_pos hm]
      exact ⟨fun _ => hm, fun _ => rfl⟩
    · rw [if_neg hm]
      exact ⟨fun h => absurd h (by decide), fun h => absurd h hm⟩

set_option maxRecDepth 100000 in
/-- Witness for C11: eight successes on the initial slot (average 700) during a
trial whose baseline is 700 roll the state back to the snapshot (SISO, index 6). -/
theorem RateScaling_column_trial_witness :
    (RateScaling 0 { (ofMaxWidth 20).setHistory 0
        ⟨[true, true, true, true, true, true, true, true], 7⟩ with
        columnScaling := true, last_tpt := 700,
        oldColumnParameters := (SISO, AntennaSet.ofList [A], LGI, 6, 20) }).map
      (fun u => (u.mode, u.index, u.columnScaling)) = some (SISO, 6, false) := by
  obtain ⟨h1, h2⟩ := RateScaling_column_trial 0 { (ofMaxWidth 20).setHistory 0
        ⟨[true, true, true, true, true, true, true, true], 7⟩ with
        columnScaling := true, last_tpt := 700,
        oldColumnParameters := (SISO, AntennaSet.ofList [A], LGI, 6, 20) } rfl (by decide)
  obtain ⟨a, -, -, d, -⟩ := h2 _ h1
  obtain ⟨m, -, -, -, i, -⟩ := d (by decide)
  rw [h1, Option.map_some', m, i, a]

/-- The rate index after `if (update_lq) this->index = index`, for a first half
that ends in state `u` (which has the index `index` of the call) with the
locals set by the `switch`. -/
theorem applyIndex_scaleSwitch (u : State) (a : rs_action) (adj : Int × Int) (index : Int)
    (hu : u.index = index) :
    (applyIndex (u, (scaleSwitch a adj index).1, false, (scaleSwitch a adj index).2)).index =
      match a with
      | RS_ACTION_DOWNSCALE => if adj.1 ≠ -1 then adj.1 else index
      | RS_ACTION_UPSCALE => if adj.2 ≠ -1 then adj.2 else index
      | RS_ACTION_STAY => index := by
  unfold applyIndex scaleSwitch
  cases a <;> dsimp only
  · rw [if_neg Bool.false_ne_true]
    exact hu
  · by_cases h : adj.1 ≠ INVALID_INDEX
    · rw [if_pos h, if_pos h, if_pos rfl]
    · rw [if_neg h, if_neg h, if_neg Bool.false_ne_true]
      exact hu
  · by_cases h : adj.2 ≠ INVALID_INDEX
    · rw [if_pos h, if_pos h, if_pos rfl]
    · rw [if_neg h, if_neg h, if_neg Bool.false_ne_true]
      exact hu

theorem scaleSwitch_update (a : rs_action) (adj : Int × Int) (index : Int) :
    (scaleSwitch a adj index).1 = true ↔
      ((a = RS_ACTION_DOWNSCALE ∧ adj.1 ≠ -1) ∨ (a = RS_ACTION_UPSCALE ∧ adj.2 ≠ -1)) := by
  unfold scaleSwitch
  cases a <;> dsimp only
  · simp
  · by_cases h : adj.1 ≠ INVALID_INDEX
    · rw [if_pos h]
      simp
      exact h
    · rw [if_neg h]
      simp
      exact not_not.mp h
  · by_cases h : adj.2 ≠ INVALID_INDEX
    · rw [if_pos h]
      simp
      exact h
    · rw [if_neg h]
      simp
      exact not_not.mp h

/-- When the first half of `RateScaling` has set `update_lq`, the call returns
with the rate index chosen by the first half. -/
theorem rateScalingTail_update_index (now : Int) (r : State × Bool × Bool × Int) (u : State)
    (hul : r.2.1 = true) (h : rateScalingTail now r = some u) :
    u.index = (applyIndex r).index := by
  rw [rateScalingTail_no_search now r (by rw [hul]; simp)] at h
  cases h
  exact (finish_fields now _ (applyIndex r)).2.2.2.2.1

/-- Claim C15: in the MCS-scaling branch of `RateScaling`, with neighbour
indices `adj`, the rate index after `if (update_lq) this->index = index` is
unchanged for a DOWNSCALE without lower neighbour, for an UPSCALE without
higher neighbour and for STAY, and is exactly the neighbour index when the
target neighbour exists; in the latter case it is also the rate index with
which the whole call returns. -/
theorem RateScaling_mcs_boundary (t t1 : State) (adj : Int × Int)
    (hadj : getAdjacentRatesIndexes (t.touchHistory t.index) = some (adj, t1)) :
    (mcsScalingStep (t.touchHistory t.index) t.index).isSome = true ∧
    (∀ r, mcsScalingStep (t.touchHistory t.index) t.index = some r →
      ((MCSScaling (adjacentRates t1 adj).2 adj (adjacentRates t1 adj).1).1
          = RS_ACTION_DOWNSCALE → adj.1 = -1 → (applyIndex r).index = t.index) ∧
      ((MCSScaling (adjacentRates t1 adj).2 adj (adjacentRates t1 adj).1).1
          = RS_ACTION_UPSCALE → adj.2 = -1 → (applyIndex r).index = t.index) ∧
      ((MCSScaling (adjacentRates t1 adj).2 adj (adjacentRates t1 adj).1).1
          = RS_ACTION_DOWNSCALE → adj.1 ≠ -1 → (applyIndex r).index = adj.1) ∧
      ((MCSScaling (adjacentRates t1 adj).2 adj (adjacentRates t1 adj).1).1
          = RS_ACTION_UPSCALE → adj.2 ≠ -1 → (applyIndex r).index = adj.2) ∧
      ((MCSScaling (adjacentRates t1 adj).2 adj (adjacentRates t1 adj).1).1
          = RS_ACTION_STAY → (applyIndex r).index = t.index)) ∧
    (∀ now u, t.columnScaling = false → (t.history t.index).average_tpt ≠ -1 →
      RateScaling now t = some u →
      ((MCSScaling (adjacentRates t1 adj).2 adj (adjacentRates t1 adj).1).1
          = RS_ACTION_DOWNSCALE → adj.1 ≠ -1 → u.index = adj.1) ∧
      ((MCSScaling (adjacentRates t1 adj).2 adj (adjacentRates t1 adj).1).1
          = RS_ACTION_UPSCALE → adj.2 ≠ -1 → u.index = adj.2)) := by
  have hstep := mcsScalingStep_eq (t.touchHistory t.index) t1 t.index adj hadj
  have hidx : (MCSScaling (adjacentRates t1 adj).2 adj (adjacentRates t1 adj).1).2.index
      = t.index := by
    have hc : (MCSScaling (adjacentRates t1 adj).2 adj (adjacentRates t1 adj).1).2.control
        = t.control := by
      rw [control_MCSScaling, control_adjacentRates,
        control_getAdjacentRatesIndexes _ _ _ hadj, control_touchHistory]
    exact index_of_control hc
  have hai := applyIndex_scaleSwitch _
    (MCSScaling (adjacentRates t1 adj).2 adj (adjacentRates t1 adj).1).1 adj t.index hidx
  refine ⟨by rw [hstep]; rfl, fun r hr => ?_, fun now u hcs hav hu => ?_⟩
  · rw [hstep] at hr
    cases hr
    rw [hai]
    refine ⟨fun ha h => ?_, fun ha h => ?_, fun ha h => ?_, fun ha h => ?_, fun ha => ?_⟩
    · rw [ha]
      dsimp only
      rw [if_neg (not_not.mpr h)]
    · rw [ha]
      dsimp only
      rw [if_neg (not_not.mpr h)]
    · rw [ha]
      dsimp only
      rw [if_pos h]
    · rw [ha]
      dsimp only
      rw [if_pos h]
    · rw [ha]
  · rw [RateScaling_known now t hav, if_neg (by rw [hcs]; decide), hstep] at hu
    dsimp only at hu
    refine ⟨fun ha h => ?_, fun ha h => ?_⟩
    · rw [rateScalingTail_update_index now _ u
        ((scaleSwitch_update _ _ _).mpr (Or.inl ⟨ha, h⟩)) hu, hai, ha]
      dsimp only
      rw [if_pos h]
    · rw [rateScalingTail_update_index now _ u
        ((scaleSwitch_update _ _ _).mpr (Or.inr ⟨ha, h⟩)) hu, hai, ha]
      dsimp only
      rw [if_pos h]

set_option maxRecDepth 100000 in
/-- Witness for C15: three failures on Legacy slot 0 give DOWNSCALE, slot 0 has
no lower neighbour (the neighbours are (-1, 1)), and the index stays 0. -/
theorem RateScaling_mcs_boundary_witness :
    (mcsScalingStep (((ofMaxWidth 20).setHistory 0 ⟨[false, false, false], 7⟩).touchHistory 0)
      0).map (fun r => (applyIndex r).index) = some 0 := by
  obtain ⟨h1, h2, -⟩ := RateScaling_mcs_boundary
    ((ofMaxWidth 20).setHistory 0 ⟨[false, false, false], 7⟩)
    (((ofMaxWidth 20).setHistory 0 ⟨[false, false, false], 7⟩).touchHistory 0) (-1, 1) rfl
  cases hr : mcsScalingStep
      (((ofMaxWidth 20).setHistory 0 ⟨[false, false, false], 7⟩).touchHistory 0) 0 with
  | none =>
    have h3 : (mcsScalingStep
      (((ofMaxWidth 20).setHistory 0 ⟨[false, false, false], 7⟩).touchHistory 0) 0).isSome
        = true := h1
    rw [hr] at h3
    exact absurd h3 (by decide)
  | some r =>
    rw [Option.map_some']
    exact congrArg some ((h2 r hr).1 (by decide) rfl)

/-! ## The column search and the phase -/

theorem RateScaling_of_unknown (now : Int) (t : State)
    (h : (t.history t.index).average_tpt = -1) :
    RateScaling now t = some (stay_in_table now (t.touchHistory t.index)) := by
  unfold RateScaling
  dsimp only
  rw [touchHistory_index, history_touchHistory, if_pos h]

theorem applyIndex_s (r : State × Bool × Bool × Int) : (applyIndex r).s = r.1.s := by
  unfold applyIndex
  split_ifs <;> rfl

theorem columnTrialStep_s (t : State) (index : Int) : (columnTrialStep t index).1.s = t.s := by
  unfold columnTrialStep
  split_ifs <;> rfl

theorem mcsScalingStep_control (t : State) (index : Int) (r : State × Bool × Bool × Int)
    (h : mcsScalingStep t index = some r) : r.1.control = t.control := by
  cases hadj : getAdjacentRatesIndexes t with
  | none =>
    rw [mcsScalingStep_none t index hadj] at h
    cases h
  | some p =>
    obtain ⟨adj, t1⟩ := p
    rw [mcsScalingStep_eq t t1 index adj hadj] at h
    cases h
    dsimp only
    rw [control_MCSScaling, control_adjacentRates, control_getAdjacentRatesIndexes _ _ _ hadj]

/-- The column search when `getNextColumn` reports no candidate: the phase
becomes SearchCycleEnded and `done_search` is set. -/
theorem columnSearchStep_not_found (t : State) (res : (Bool × ColKey) × State)
    (h : getNextColumn { t with last_tpt := (t.history t.index).average_tpt }
      t.visited_columns = some res)
    (hf : res.1.1 = false) :
    columnSearchStep t = some ({ res.2 with s := RS_STATE_SEARCH_CYCLE_ENDED }, true) := by
  unfold columnSearchStep
  dsimp only
  rw [h]
  dsimp only
  rw [if_neg (by rw [hf]; exact Bool.false_ne_true)]

/-- The column search either ends the cycle (`done_search` set) or leaves the
phase as it was. -/
theorem columnSearchStep_cases (t t4 : State) (d : Bool)
    (h : columnSearchStep t = some (t4, d)) : d = true ∨ t4.s = t.s := by
  unfold columnSearchStep at h
  dsimp only at h
  cases hn : getNextColumn { t with last_tpt := (t.history t.index).average_tpt }
      t.visited_columns with
  | none =>
    rw [hn] at h
    cases h
  | some res =>
    rw [hn] at h
    dsimp only at h
    have hc := control_getNextColumn _ _ _ hn
    by_cases hf : res.1.1 = true
    · rw [if_pos hf] at h
      cases h
      right
      refine (s_of_control (control_clearHistories _)).trans ?_
      have h1 := s_of_control (control_getNextIndex
        { res.2 with oldColumnParameters :=
          (res.2.mode, res.2.antennas, res.2.guardInterval, res.2.index, res.2.bandWidth) }
        res.1.2)
      have h2 := s_of_control hc
      exact h1.trans h2
    · rw [if_neg hf] at h
      cases h
      exact Or.inl rfl

/-- The tail of `RateScaling` never leaves the phase at SearchCycleEnded. -/
theorem rateScalingTail_ne_ended (now : Int) (r : State × Bool × Bool × Int) (u : State)
    (hr : r.1.s ≠ RS_STATE_SEARCH_CYCLE_ENDED) (h : rateScalingTail now r = some u) :
    u.s ≠ RS_STATE_SEARCH_CYCLE_ENDED := by
  have hx : (stay_in_table now (applyIndex r)).s ≠ RS_STATE_SEARCH_CYCLE_ENDED :=
    stay_in_table_ne_ended now _ (by rw [applyIndex_s]; exact hr)
  by_cases hc : r.2.1 = false ∧ r.2.2.1 = false ∧
      (stay_in_table now (applyIndex r)).s = RS_STATE_SEARCH_CYCLE_STARTED
  · by_cases hn : ((stay_in_table now (applyIndex r)).history
        (stay_in_table now (applyIndex r)).index).counter = 0
    · rw [rateScalingTail_no_sample now r hc hn] at h
      cases h
      exact hx
    · rw [rateScalingTail_search now r hc hn] at h
      cases hs : columnSearchStep ((stay_in_table now (applyIndex r)).touchHistory
          (stay_in_table now (applyIndex r)).index) with
      | none =>
        rw [hs] at h
        cases h
      | some p =>
        obtain ⟨t4, d⟩ := p
        rw [hs] at h
        dsimp only at h
        by_cases he : d = true ∧ t4.s = RS_STATE_SEARCH_CYCLE_ENDED
        · rw [if_pos he] at h
          cases h
          show RS_STATE_STAY_IN_COLUMN ≠ RS_STATE_SEARCH_CYCLE_ENDED
          decide
        · rw [if_neg he] at h
          cases h
          intro h4
          rcases columnSearchStep_cases _ _ _ hs with hd | hs4
          · exact he ⟨hd, h4⟩
          · rw [h4] at hs4
            exact hx hs4.symm
  · rw [rateScalingTail_no_search now r hc] at h
    cases h
    rw [if_neg (fun he => hx he.2)]
    exact hx

/-- `RateScaling` never leaves the phase at SearchCycleEnded. -/
theorem RateScaling_ne_ended (now : Int) (t u : State)
    (ht : t.s ≠ RS_STATE_SEARCH_CYCLE_ENDED) (h : RateScaling now t = some u) :
    u.s ≠ RS_STATE_SEARCH_CYCLE_ENDED := by
  by_cases hav : (t.history t.index).average_tpt = -1
  · rw [RateScaling_of_unknown now t hav] at h
    cases h
    exact stay_in_table_ne_ended now _ ht
  · rw [RateScaling_known now t hav] at h
    by_cases hcs : t.columnScaling = true
    · rw [if_pos hcs] at h
      dsimp only at h
      exact rateScalingTail_ne_ended now _ u (by rw [columnTrialStep_s]; exact ht) h
    · rw [if_neg hcs] at h
      cases hm : mcsScalingStep (t.touchHistory t.index) t.index with
      | none =>
        rw [hm] at h
        cases h
      | some r =>
        rw [hm] at h
        dsimp only at h
        refine rateScalingTail_ne_ended now r u ?_ h
        rw [s_of_control (mcsScalingStep_control _ _ _ hm)]
        exact ht

theorem control_recordLoop (t : State) (n : Int) (b : Bool) :
    (recordLoop t n b).control = t.control := by
  unfold recordLoop
  generalize n.toNat = k
  induction k generalizing t with
  | zero => rfl
  | succ k ih =>
    rw [Function.iterate_succ_apply, ih, control_setHistory]

theorem txRecord_s (t : State) (success failed : Int) (ampdu : Bool) :
    (txRecord t success failed ampdu).s = t.s := by
  have h : (recordLoop (recordLoop t success true)
      (if ampdu = true ∧ success = 0 then 1 else failed) false).s = t.s :=
    (s_of_control (control_recordLoop _ _ _)).trans (s_of_control (control_recordLoop _ _ _))
  unfold txRecord
  dsimp only
  by_cases hs : (recordLoop (recordLoop t success true)
      (if ampdu = true ∧ success = 0 then 1 else failed) false).s = RS_STATE_STAY_IN_COLUMN
  · rw [if_pos hs]
    exact h
  · rw [if_neg hs]
    exact h

theorem tx_ne_ended (now : Int) (t u : State) (success failed : Int) (ampdu : Bool)
    (ht : t.s ≠ RS_STATE_SEARCH_CYCLE_ENDED) (h : tx now t success failed ampdu = some u) :
    u.s ≠ RS_STATE_SEARCH_CYCLE_ENDED := by
  unfold tx at h
  exact RateScaling_ne_ended now _ u (by rw [txRecord_s]; exact ht) h

theorem reachable_ne_ended (maxWidth : Int) (u : State) (h : Reachable maxWidth u) :
    u.s ≠ RS_STATE_SEARCH_CYCLE_ENDED := by
  induction h with
  | init =>
    show RS_STATE_SEARCH_CYCLE_STARTED ≠ RS_STATE_SEARCH_CYCLE_ENDED
    decide
  | report now t u success failed ampdu _ htx ih => exact tx_ne_ended now t u success failed ampdu ih htx

/-- The call of `RateScaling` whose column search finds no candidate. -/
theorem RateScaling_search_not_found (now : Int) (t : State) (r : State × Bool × Bool × Int)
    (res : (Bool × ColKey) × State)
    (hav : (t.history t.index).average_tpt ≠ -1) (hcs : t.columnScaling = false)
    (hr : mcsScalingStep (t.touchHistory t.index) t.index = some r)
    (hul : r.2.1 = false)
    (hs : (stay_in_table now (applyIndex r)).s = RS_STATE_SEARCH_CYCLE_STARTED)
    (hn : ((stay_in_table now (applyIndex r)).history
      (stay_in_table now (applyIndex r)).index).counter ≠ 0)
    (hfind : getNextColumn
      { (stay_in_table now (applyIndex r)).touchHistory (stay_in_table now (applyIndex r)).index
        with last_tpt := ((stay_in_table now (applyIndex r)).history
          (stay_in_table now (applyIndex r)).index).average_tpt }
      (stay_in_table now (applyIndex r)).visited_columns = some res)
    (hf : res.1.1 = false) :
    RateScaling now t
      = some (set_stay_in_table now { res.2 with s := RS_STATE_SEARCH_CYCLE_ENDED }) := by
  have hds : r.2.2.1 = false := by
    cases hadj : getAdjacentRatesIndexes (t.touchHistory t.index) with
    | none =>
      rw [mcsScalingStep_none _ _ hadj] at hr
      cases hr
    | some p =>
      obtain ⟨adj, t1⟩ := p
      rw [mcsScalingStep_eq _ t1 _ adj hadj] at hr
      cases hr
      rfl
  rw [RateScaling_known now t hav, if_neg (by rw [hcs]; exact Bool.false_ne_true), hr]
  dsimp only
  rw [rateScalingTail_search now r ⟨hul, hds, hs⟩ hn]
  have hstep := columnSearchStep_not_found
    ((stay_in_table now (applyIndex r)).touchHistory (stay_in_table now (applyIndex r)).index)
    res (by
      rw [touchHistory_index, history_touchHistory]
      exact hfind) hf
  rw [hstep]
  dsimp only
  rw [if_pos ⟨rfl, rfl⟩]

/-- Claim C20: when the column search of a `RateScaling` call finds no
candidate, the call returns in phase StayInColumn with both resident counters
and the table-use counter 0, the flush timestamp equal to the clock value and
the visited set exactly the current column; and no state reachable from
`State(maxWidth)` by reports is in phase SearchCycleEnded. -/
theorem search_cycle_never_ended :
    (∀ (now : Int) (t : State) (r : State × Bool × Bool × Int) (res : (Bool × ColKey) × State),
      (t.history t.index).average_tpt ≠ -1 → t.columnScaling = false →
      mcsScalingStep (t.touchHistory t.index) t.index = some r → r.2.1 = false →
      (stay_in_table now (applyIndex r)).s = RS_STATE_SEARCH_CYCLE_STARTED →
      ((stay_in_table now (applyIndex r)).history
        (stay_in_table now (applyIndex r)).index).counter ≠ 0 →
      getNextColumn
        { (stay_in_table now (applyIndex r)).touchHistory
            (stay_in_table now (applyIndex r)).index
          with last_tpt := ((stay_in_table now (applyIndex r)).history
            (stay_in_table now (applyIndex r)).index).average_tpt }
        (stay_in_table now (applyIndex r)).visited_columns = some res →
      res.1.1 = false →
      ∀ u, RateScaling now t = some u →
        u.s = RS_STATE_STAY_IN_COLUMN ∧ u.total_failed = 0 ∧ u.total_success = 0 ∧
        u.table_count = 0 ∧ u.flush_timer = now ∧
        u.visited_columns = [(u.mode, u.antennas, u.guardInterval)]) ∧
    (∀ (maxWidth : Int) (u : State), Reachable maxWidth u →
      u.s ≠ RS_STATE_SEARCH_CYCLE_ENDED) := by
  refine ⟨fun now t r res hav hcs hr hul hs hn hfind hf u hu => ?_, reachable_ne_ended⟩
  rw [RateScaling_search_not_found now t r res hav hcs hr hul hs hn hfind hf] at hu
  cases hu
  exact ⟨rfl, rfl, rfl, rfl, rfl, rfl⟩

theorem eq_some_getD {α : Type} (o : Option α) (d : α) (h : o.isSome = true) :
    o = some (o.getD d) := by
  cases o with
  | none => exact absurd h Bool.false_ne_true
  | some x => rfl

set_option maxRecDepth 1000000 in
set_option maxHeartbeats 4000000 in
/-- Witness for C20: Legacy slot 11 with eight successes (average 18600), its
lower neighbour known and worse, and every candidate column either visited or
unable to beat 18600: the report at clock value 5 ends in StayInColumn. -/
theorem search_cycle_never_ended_witness :
    (RateScaling 5 ({ ((ofMaxWidth 20).setHistory 11
          ⟨[true, true, true, true, true, true, true, true], 186⟩).setHistory 10
          ⟨[true, true, true, true, true, true, true, true], 177⟩ with
        index := 11
        visited_columns := [(LEGACY, AntennaSet.ofList [A], LGI),
          (SISO, AntennaSet.ofList [A], LGI), (MIMO, AntennaSet.ofList [A, B], LGI)] } : State)).map
      (fun u => (u.s, u.total_failed, u.total_success, u.table_count, u.flush_timer))
      = some (RS_STATE_STAY_IN_COLUMN, 0, 0, 0, 5) := by
  have hsome : (mcsScalingStep (({ ((ofMaxWidth 20).setHistory 11
          ⟨[true, true, true, true, true, true, true, true], 186⟩).setHistory 10
          ⟨[true, true, true, true, true, true, true, true], 177⟩ with
        index := 11
        visited_columns := [(LEGACY, AntennaSet.ofList [A], LGI),
          (SISO, AntennaSet.ofList [A], LGI), (MIMO, AntennaSet.ofList [A, B], LGI)] } : State).touchHistory 11) 11).isSome = true := by decide
  have hfound : (getNextColumn
      { (stay_in_table 5 (applyIndex ((mcsScalingStep (({ ((ofMaxWidth 20).setHistory 11
          ⟨[true, true, true, true, true, true, true, true], 186⟩).setHistory 10
          ⟨[true, true, true, true, true, true, true, true], 177⟩ with
        index := 11
        visited_columns := [(LEGACY, AntennaSet.ofList [A], LGI),
          (SISO, AntennaSet.ofList [A], LGI), (MIMO, AntennaSet.ofList [A, B], LGI)] } : State).touchHistory 11) 11).getD (State.default, false, false, 0)))).touchHistory
          (stay_in_table 5 (applyIndex ((mcsScalingStep (({ ((ofMaxWidth 20).setHistory 11
          ⟨[true, true, true, true, true, true, true, true], 186⟩).setHistory 10
          ⟨[true, true, true, true, true, true, true, true], 177⟩ with
        index := 11
        visited_columns := [(LEGACY, AntennaSet.ofList [A], LGI),
          (SISO, AntennaSet.ofList [A], LGI), (MIMO, AntennaSet.ofList [A, B], LGI)] } : State).touchHistory 11) 11).getD (State.default, false, false, 0)))).index
        with last_tpt := ((stay_in_table 5 (applyIndex ((mcsScalingStep (({ ((ofMaxWidth 20).setHistory 11
          ⟨[true, true, true, true, true, true, true, true], 186⟩).setHistory 10
          ⟨[true, true, true, true, true, true, true, true], 177⟩ with
        index := 11
        visited_columns := [(LEGACY, AntennaSet.ofList [A], LGI),
          (SISO, AntennaSet.ofList [A], LGI), (MIMO, AntennaSet.ofList [A, B], LGI)] } : State).touchHistory 11) 11).getD (State.default, false, false, 0)))).history
          (stay_in_table 5 (applyIndex ((mcsScalingStep (({ ((ofMaxWidth 20).setHistory 11
          ⟨[true, true, true, true, true, true, true, true], 186⟩).setHistory 10
          ⟨[true, true, true, true, true, true, true, true], 177⟩ with
        index := 11
        visited_columns := [(LEGACY, AntennaSet.ofList [A], LGI),
          (SISO, AntennaSet.ofList [A], LGI), (MIMO, AntennaSet.ofList [A, B], LGI)] } : State).touchHistory 11) 11).getD (State.default, false, false, 0)))).index).average_tpt }
      (stay_in_table 5 (applyIndex ((mcsScalingStep (({ ((ofMaxWidth 20).setHistory 11
          ⟨[true, true, true, true, true, true, true, true], 186⟩).setHistory 10
          ⟨[true, true, true, true, true, true, true, true], 177⟩ with
        index := 11
        visited_columns := [(LEGACY, AntennaSet.ofList [A], LGI),
          (SISO, AntennaSet.ofList [A], LGI), (MIMO, AntennaSet.ofList [A, B], LGI)] } : State).touchHistory 11) 11).getD (State.default, false, false, 0)))).visited_columns).isSome = true := by decide
  have key := search_cycle_never_ended.1 5 ({ ((ofMaxWidth 20).setHistory 11
          ⟨[true, true, true, true, true, true, true, true], 186⟩).setHistory 10
          ⟨[true, true, true, true, true, true, true, true], 177⟩ with
        index := 11
        visited_columns := [(LEGACY, AntennaSet.ofList [A], LGI),
          (SISO, AntennaSet.ofList [A], LGI), (MIMO, AntennaSet.ofList [A, B], LGI)] } : State) ((mcsScalingStep (({ ((ofMaxWidth 20).setHistory 11
          ⟨[true, true, true, true, true, true, true, true], 186⟩).setHistory 10
          ⟨[true, true, true, true, true, true, true, true], 177⟩ with
        index := 11
        visited_columns := [(LEGACY, AntennaSet.ofList [A], LGI),
          (SISO, AntennaSet.ofList [A], LGI), (MIMO, AntennaSet.ofList [A, B], LGI)] } : State).touchHistory 11) 11).getD (State.default, false, false, 0))
    ((getNextColumn
      { (stay_in_table 5 (applyIndex ((mcsScalingStep (({ ((ofMaxWidth 20).setHistory 11
          ⟨[true, true, true, true, true, true, true, true], 186⟩).setHistory 10
          ⟨[true, true, true, true, true, true, true, true], 177⟩ with
        index := 11
        visited_columns := [(LEGACY, AntennaSet.ofList [A], LGI),
          (SISO, AntennaSet.ofList [A], LGI), (MIMO, AntennaSet.ofList [A, B], LGI)] } : State).touchHistory 11) 11).getD (State.default, false, false, 0)))).touchHistory
          (stay_in_table 5 (applyIndex ((mcsScalingStep (({ ((ofMaxWidth 20).setHistory 11
          ⟨[true, true, true, true, true, true, true, true], 186⟩).setHistory 10
          ⟨[true, true, true, true, true, true, true, true], 177⟩ with
        index := 11
        visited_columns := [(LEGACY, AntennaSet.ofList [A], LGI),
          (SISO, AntennaSet.ofList [A], LGI), (MIMO, AntennaSet.ofList [A, B], LGI)] } : State).touchHistory 11) 11).getD (State.default, false, false, 0)))).index
        with last_tpt := ((stay_in_table 5 (applyIndex ((mcsScalingStep (({ ((ofMaxWidth 20).setHistory 11
          ⟨[true, true, true, true, true, true, true, true], 186⟩).setHistory 10
          ⟨[true, true, true, true, true, true, true, true], 177⟩ with
        index := 11
        visited_columns := [(LEGACY, AntennaSet.ofList [A], LGI),
          (SISO, AntennaSet.ofList [A], LGI), (MIMO, AntennaSet.ofList [A, B], LGI)] } : State).touchHistory 11) 11).getD (State.default, false, false, 0)))).history
          (stay_in_table 5 (applyIndex ((mcsScalingStep (({ ((ofMaxWidth 20).setHistory 11
          ⟨[true, true, true, true, true, true, true, true], 186⟩).setHistory 10
          ⟨[true, true, true, true, true, true, true, true], 177⟩ with
        index := 11
        visited_columns := [(LEGACY, AntennaSet.ofList [A], LGI),
          (SISO, AntennaSet.ofList [A], LGI), (MIMO, AntennaSet.ofList [A, B], LGI)] } : State).touchHistory 11) 11).getD (State.default, false, false, 0)))).index).average_tpt }
      (stay_in_table 5 (applyIndex ((mcsScalingStep (({ ((ofMaxWidth 20).setHistory 11
          ⟨[true, true, true, true, true, true, true, true], 186⟩).setHistory 10
          ⟨[true, true, true, true, true, true, true, true], 177⟩ with
        index := 11
        visited_columns := [(LEGACY, AntennaSet.ofList [A], LGI),
          (SISO, AntennaSet.ofList [A], LGI), (MIMO, AntennaSet.ofList [A, B], LGI)] } : State).touchHistory 11) 11).getD (State.default, false, false, 0)))).visited_columns).getD ((false, (LEGACY, AntennaSet.none, LGI)), State.default))
    (by decide) rfl (eq_some_getD _ _ hsome) (by decide) (by decide) (by decide)
    (eq_some_getD _ _ hfound) (by decide)
  cases hR : RateScaling 5 ({ ((ofMaxWidth 20).setHistory 11
          ⟨[true, true, true, true, true, true, true, true], 186⟩).setHistory 10
          ⟨[true, true, true, true, true, true, true, true], 177⟩ with
        index := 11
        visited_columns := [(LEGACY, AntennaSet.ofList [A], LGI),
          (SISO, AntennaSet.ofList [A], LGI), (MIMO, AntennaSet.ofList [A, B], LGI)] } : State) with
  | none => exact absurd hR (by decide)
  | some u =>
    obtain ⟨a, b, c, d, e, -⟩ := key u hR
    rw [Option.map_some', a, b, c, d, e]

/-! ## getNextIndex (C26) -/

theorem table_touchTable (t : State) (k j : TableKey) : (t.touchTable k).table j = t.table j := by
  unfold touchTable table
  exact amAt_amTouch _ _ _ _

theorem table_touchHistory (t : State) (i : Int) (j : TableKey) :
    (t.touchHistory i).table j = t.table j := rfl

theorem history_touchTable (t : State) (k : TableKey) (i : Int) :
    (t.touchTable k).history i = t.history i := rfl

/-- The index returned by `getNextIndex` is the result of its loop, run on the threshold
and on the table of the candidate at the current bandwidth. -/
theorem getNextIndex_fst (t : State) (c : ColKey) :
    (getNextIndex t c).1 =
      getNextIndexLoop (throughputThreshold t) (t.table (c.1, t.bandWidth, c.2.2, t.agg))
        0 INVALID_INDEX := by
  unfold getNextIndex throughputThreshold
  simp only [table_touchTable, table_touchHistory, history_touchHistory, touchHistory_index]
  rfl

/-- The loop stops at the first position whose ceiling passes the threshold. -/
theorem getNextIndexLoop_first (T : Int) (hT : 0 ≤ T) :
    ∀ (tab : List Int) (i ni : Int) (k : Nat), k < tab.length → 100 * tab.getD k 0 > T →
      (∀ j < k, 100 * tab.getD j 0 ≤ T) → getNextIndexLoop T tab i ni = i + k := by
  intro tab
  induction tab with
  | nil => intro i ni k hk; simp at hk
  | cons x rest ih =>
    intro i ni k hk hpass hbefore
    unfold getNextIndexLoop
    cases k with
    | zero =>
      simp only [List.getD_cons_zero] at hpass
      have hx : x ≠ 0 := by omega
      simp only [if_pos hx]
      rw [if_pos (by omega)]
      simp
    | succ k1 =>
      have h0 := hbefore 0 (Nat.succ_pos k1)
      simp only [List.getD_cons_zero] at h0
      simp only [List.getD_cons_succ] at hpass
      dsimp only
      rw [if_neg (by omega)]
      rw [ih (i + 1) _ k1 (by simpa using hk) hpass
        (fun j hj => by
          have := hbefore (j + 1) (Nat.succ_lt_succ hj)
          simpa only [List.getD_cons_succ] using this)]
      push_cast
      ring

/-- Without a passing position, the loop returns the value it started with when every
ceiling is zero, and the last position with a non-zero ceiling otherwise. -/
theorem getNextIndexLoop_fallback (T : Int) :
    ∀ (tab : List Int) (i ni : Int), (∀ j < tab.length, 100 * tab.getD j 0 ≤ T) →
      ((∀ j < tab.length, tab.getD j 0 = 0) → getNextIndexLoop T tab i ni = ni) ∧
      (∀ k : Nat, k < tab.length → tab.getD k 0 ≠ 0 →
        (∀ j, k < j → j < tab.length → tab.getD j 0 = 0) →
        getNextIndexLoop T tab i ni = i + k) := by
  intro tab
  induction tab with
  | nil =>
    intro i ni _
    exact ⟨fun _ => rfl, fun k hk => by simp at hk⟩
  | cons x rest ih =>
    intro i ni hno
    have h0 := hno 0 (by simp)
    simp only [List.getD_cons_zero] at h0
    have hrest : ∀ j < rest.length, 100 * rest.getD j 0 ≤ T := fun j hj => by
      have := hno (j + 1) (by simpa using hj)
      simpa only [List.getD_cons_succ] using this
    have hstep : ∀ n1 : Int, getNextIndexLoop T (x :: rest) i ni =
        getNextIndexLoop T rest (i + 1) (if x ≠ 0 then i else ni) := by
      intro n1
      rw [getNextIndexLoop]
      rw [if_neg (by omega)]
    constructor
    · intro hz
      have hx : x = 0 := by simpa using hz 0 (by simp)
      rw [hstep 0, (ih (i + 1) _ hrest).1 (fun j hj => by
        have := hz (j + 1) (by simpa using hj)
        simpa only [List.getD_cons_succ] using this)]
      simp [hx]
    · intro k hk hnz hafter
      rw [hstep 0]
      cases k with
      | zero =>
        simp only [List.getD_cons_zero] at hnz
        rw [(ih (i + 1) _ hrest).1 (fun j hj => by
          have := hafter (j + 1) (Nat.succ_pos j) (by simpa using hj)
          simpa only [List.getD_cons_succ] using this)]
        simp [hnz]
      | succ k1 =>
        simp only [List.getD_cons_succ] at hnz
        rw [(ih (i + 1) _ hrest).2 k1 (by simpa using hk) hnz (fun j hkj hj => by
          have := hafter (j + 1) (Nat.succ_lt_succ hkj) (by simpa using hj)
          simpa only [List.getD_cons_succ] using this)]
        push_cast
        ring

/-- With a non-negative threshold the loop returns either a position with a non-zero
ceiling, or, when every ceiling is zero, the value it started with. -/
theorem getNextIndexLoop_nonzero (T : Int) (hT : 0 ≤ T) :
    ∀ (tab : List Int) (i ni : Int),
      (∃ k : Nat, k < tab.length ∧ getNextIndexLoop T tab i ni = i + k ∧ tab.getD k 0 ≠ 0) ∨
      (getNextIndexLoop T tab i ni = ni ∧ ∀ j < tab.length, tab.getD j 0 = 0) := by
  intro tab
  induction tab with
  | nil => intro i ni; exact Or.inr ⟨rfl, fun j hj => by simp at hj⟩
  | cons x rest ih =>
    intro i ni
    by_cases hp : x * 100 > T
    · left
      refine ⟨0, by simp, ?_, ?_⟩
      · rw [getNextIndexLoop]
        rw [if_pos hp, if_pos (by omega)]
        simp
      · simp only [List.getD_cons_zero]; omega
    · have hstep : getNextIndexLoop T (x :: rest) i ni =
          getNextIndexLoop T rest (i + 1) (if x ≠ 0 then i else ni) := by
        rw [getNextIndexLoop]
        rw [if_neg hp]
      rw [hstep]
      rcases ih (i + 1) (if x ≠ 0 then i else ni) with ⟨k, hk, hr, hnz⟩ | ⟨hr, hz⟩
      · left
        refine ⟨k + 1, by simpa using hk, ?_, by simpa only [List.getD_cons_succ] using hnz⟩
        rw [hr]; push_cast; ring
      · by_cases hx : x ≠ 0
        · left
          refine ⟨0, by simp, ?_, by simpa only [List.getD_cons_zero] using hx⟩
          rw [hr, if_pos hx]; simp
        · right
          refine ⟨by rw [hr, if_neg hx], ?_⟩
          intro j hj
          cases j with
          | zero => simpa using hx
          | succ j1 =>
            simp only [List.getD_cons_succ]
            exact hz j1 (by simpa using hj)

/-- C26: with the threshold `T` of `getNextIndex` (100 times the current slot's ceiling when
the current success ratio is at least 10880, the current average throughput otherwise)
non-negative, and `tab` the candidate's table at the current bandwidth: the result is the
smallest position whose ceiling times 100 exceeds `T` when there is one; otherwise it is
the largest position with a non-zero ceiling; whenever the table has a non-zero ceiling
the returned position has one; and every table built at construction has 15 entries, one
of them non-zero. -/
theorem getNextIndex_spec (t : State) (c : ColKey) (hT : 0 ≤ throughputThreshold t) :
    (throughputThreshold t =
      if (t.history t.index).success_ratio ≥ 10880 then
        100 * (t.history t.index).max_throughput
      else (t.history t.index).average_tpt) ∧
    (∀ k : Nat, k < (t.table (c.1, t.bandWidth, c.2.2, t.agg)).length →
      100 * (t.table (c.1, t.bandWidth, c.2.2, t.agg)).getD k 0 > throughputThreshold t →
      (∀ j < k, 100 * (t.table (c.1, t.bandWidth, c.2.2, t.agg)).getD j 0 ≤
        throughputThreshold t) →
      (getNextIndex t c).1 = k) ∧
    ((∀ j < (t.table (c.1, t.bandWidth, c.2.2, t.agg)).length,
        100 * (t.table (c.1, t.bandWidth, c.2.2, t.agg)).getD j 0 ≤ throughputThreshold t) →
      ∀ k : Nat, k < (t.table (c.1, t.bandWidth, c.2.2, t.agg)).length →
        (t.table (c.1, t.bandWidth, c.2.2, t.agg)).getD k 0 ≠ 0 →
        (∀ j, k < j → j < (t.table (c.1, t.bandWidth, c.2.2, t.agg)).length →
          (t.table (c.1, t.bandWidth, c.2.2, t.agg)).getD j 0 = 0) →
        (getNextIndex t c).1 = k) ∧
    ((∃ k, k < (t.table (c.1, t.bandWidth, c.2.2, t.agg)).length ∧
        (t.table (c.1, t.bandWidth, c.2.2, t.agg)).getD k 0 ≠ 0) →
      ∃ k : Nat, (getNextIndex t c).1 = k ∧
        k < (t.table (c.1, t.bandWidth, c.2.2, t.agg)).length ∧
        (t.table (c.1, t.bandWidth, c.2.2, t.agg)).getD k 0 ≠ 0) ∧
    (∀ p ∈ buildTheoreticalThroughputTables,
      p.2.length = 15 ∧ ∃ k, k < 15 ∧ p.2.getD k 0 ≠ 0) := by
  refine ⟨?_, ?_, ?_, ?_, by decide⟩
  · unfold throughputThreshold History.get_max_throughput
    rw [percent_no_decrease, mul_comm]
  · intro k hk hpass hbefore
    rw [getNextIndex_fst, getNextIndexLoop_first _ hT _ 0 _ k hk hpass hbefore]
    simp
  · intro hno k hk hnz hafter
    rw [getNextIndex_fst, (getNextIndexLoop_fallback _ _ 0 _ hno).2 k hk hnz hafter]
    simp
  · rintro ⟨k0, hk0, hnz0⟩
    rw [getNextIndex_fst]
    rcases getNextIndexLoop_nonzero _ hT (t.table (c.1, t.bandWidth, c.2.2, t.agg)) 0
      INVALID_INDEX with ⟨k, hk, hr, hnz⟩ | ⟨_, hz⟩
    · exact ⟨k, by rw [hr]; simp, hk, hnz⟩
    · exact absurd (hz k0 hk0) hnz0

set_option maxRecDepth 100000 in
/-- Witness of C26: the search from the constructed Legacy column towards SISO antenna A
after three failures (threshold 0) starts at position 4, the first non-zero ceiling. -/
theorem getNextIndex_spec_witness :
    0 ≤ throughputThreshold (recordLoop (ofMaxWidth 20) 3 false) ∧
    (getNextIndex (recordLoop (ofMaxWidth 20) 3 false) (SISO, AntennaSet.ofList [A], LGI)).1 =
      ((4 : Nat) : Int) :=
  ⟨by decide,
    (getNextIndex_spec (recordLoop (ofMaxWidth 20) 3 false) (SISO, AntennaSet.ofList [A], LGI)
      (by decide)).2.1 4 (by decide) (by decide) (by decide)⟩

/-! ## getNextColumn (C24) -/

theorem column_touchColumn (t : State) (k j : ColKey) :
    (t.touchColumn k).column j = t.column j := by
  unfold touchColumn column
  exact amAt_amTouch _ _ _ _

/-- The loop of `getNextColumn`, run from any state that reads like `t`: it returns, the
column it reports is the first eligible candidate, and it reports none exactly when there
is none. -/
theorem getNextColumnLoop_spec (t : State) (v : List ColKey) :
    ∀ (cands : List ColKey) (u : State), u.control = t.control →
      (∀ k, u.table k = t.table k) → (∀ i, u.history i = t.history i) →
      (∀ c ∈ cands, c ∉ v → candidateTable t c ≠ []) →
      ∃ found key w, getNextColumnLoop v u cands = some ((found, key), w) ∧
        (found = true → ∃ pre post, cands = pre ++ key :: post ∧ eligibleColumn t v key ∧
          ∀ c ∈ pre, ¬ eligibleColumn t v c) ∧
        (found = false → ∀ c ∈ cands, ¬ eligibleColumn t v c) := by
  intro cands
  induction cands with
  | nil =>
    intro u _ _ _ _
    exact ⟨false, (LEGACY, AntennaSet.ofList [A], LGI), u, rfl,
      fun h => absurd h Bool.false_ne_true, fun _ c hc => by simp at hc⟩
  | cons key rest ih =>
    intro u hc ht hh htab
    have hbw : u.bandWidth = t.bandWidth := bandWidth_of_control hc
    have hagg : u.agg = t.agg := agg_of_control hc
    have hidx : u.index = t.index := index_of_control hc
    have hrest : ∀ c ∈ rest, c ∉ v → candidateTable t c ≠ [] :=
      fun c hcm => htab c (List.mem_cons_of_mem _ hcm)
    rw [getNextColumnLoop]
    by_cases hv : key ∉ v
    · rw [if_pos hv]
      have htk : ((u.touchTable (key.1, (if key.1 = LEGACY then BW_20 else u.bandWidth),
          key.2.2, u.agg)).table (key.1, (if key.1 = LEGACY then BW_20 else u.bandWidth),
          key.2.2, u.agg)) = candidateTable t key := by
        rw [table_touchTable, ht, hbw, hagg]
        rfl
      have hne := htab key (List.mem_cons_self _ _) hv
      obtain ⟨m, hm⟩ : ∃ m, (candidateTable t key).max? = some m := by
        cases hmx : (candidateTable t key).max? with
        | none => exact absurd (List.max?_eq_none_iff.mp hmx) hne
        | some m => exact ⟨m, rfl⟩
      simp only [htk, hm]
      have hav : ((((u.touchTable (key.1, (if key.1 = LEGACY then BW_20 else u.bandWidth),
          key.2.2, u.agg)).touchHistory (u.touchTable (key.1,
            (if key.1 = LEGACY then BW_20 else u.bandWidth), key.2.2, u.agg)).index).history
          ((u.touchTable (key.1, (if key.1 = LEGACY then BW_20 else u.bandWidth),
            key.2.2, u.agg)).touchHistory (u.touchTable (key.1,
              (if key.1 = LEGACY then BW_20 else u.bandWidth), key.2.2,
              u.agg)).index).index).average_tpt) = (t.history t.index).average_tpt := by
        rw [history_touchHistory, touchHistory_index, history_touchTable]
        show (u.history u.index).average_tpt = _
        rw [hh, hidx]
      rw [hav]
      by_cases hle : 100 * m ≤ (t.history t.index).average_tpt
      · rw [if_pos hle]
        obtain ⟨found, k2, w, hres, hfound, hnone⟩ :=
          ih ((u.touchTable (key.1, (if key.1 = LEGACY then BW_20 else u.bandWidth),
            key.2.2, u.agg)).touchHistory (u.touchTable (key.1,
              (if key.1 = LEGACY then BW_20 else u.bandWidth), key.2.2, u.agg)).index)
            (by rw [control_touchHistory, control_touchTable, hc])
            (fun k => by rw [table_touchHistory, table_touchTable, ht])
            (fun i => by rw [history_touchHistory, history_touchTable, hh]) hrest
        have hkey : ¬ eligibleColumn t v key := by
          rintro ⟨_, m2, hm2, hgt⟩
          rw [hm] at hm2
          cases hm2
          omega
        refine ⟨found, k2, w, hres, ?_, ?_⟩
        · intro hf
          obtain ⟨pre, post, hsplit, hel, hpre⟩ := hfound hf
          refine ⟨key :: pre, post, by rw [hsplit]; rfl, hel, ?_⟩
          intro c hcm
          rcases List.mem_cons.mp hcm with h | h
          · rw [h]; exact hkey
          · exact hpre c h
        · intro hf c hcm
          rcases List.mem_cons.mp hcm with h | h
          · rw [h]; exact hkey
          · exact hnone hf c h
      · rw [if_neg hle]
        refine ⟨true, key, _, rfl, ?_, fun h => absurd h.symm Bool.false_ne_true⟩
        intro _
        exact ⟨[], rest, rfl, ⟨hv, m, hm, by omega⟩, fun c hcm => by simp at hcm⟩
    · rw [if_neg hv]
      obtain ⟨found, k2, w, hres, hfound, hnone⟩ := ih u hc ht hh hrest
      have hkey : ¬ eligibleColumn t v key := fun h => hv h.1
      refine ⟨found, k2, w, hres, ?_, ?_⟩
      · intro hf
        obtain ⟨pre, post, hsplit, hel, hpre⟩ := hfound hf
        refine ⟨key :: pre, post, by rw [hsplit]; rfl, hel, ?_⟩
        intro c hcm
        rcases List.mem_cons.mp hcm with h | h
        · rw [h]; exact hkey
        · exact hpre c h
      · intro hf c hcm
        rcases List.mem_cons.mp hcm with h | h
        · rw [h]; exact hkey
        · exact hnone hf c h

/-- C24: when the table of every unvisited candidate is populated, `getNextColumn` returns;
if it reports a column, that column is the first one in the current column's candidate
list that is not visited and whose table maximum (at 20 MHz for a Legacy candidate, at the
current bandwidth otherwise, with the current aggregation flag) times 100 is strictly
greater than the current average throughput; and it reports none exactly when no candidate
satisfies both conditions. -/
theorem getNextColumn_spec (t : State) (v : List ColKey)
    (htab : ∀ c ∈ (t.column t.colKey).next_columns, c ∉ v → candidateTable t c ≠ []) :
    ∃ found key u, getNextColumn t v = some ((found, key), u) ∧
      (found = true → ∃ pre post, (t.column t.colKey).next_columns = pre ++ key :: post ∧
        eligibleColumn t v key ∧ ∀ c ∈ pre, ¬ eligibleColumn t v c) ∧
      (found = false ↔ ∀ c ∈ (t.column t.colKey).next_columns, ¬ eligibleColumn t v c) := by
  have hcol : ((t.touchColumn t.colKey).column (t.touchColumn t.colKey).colKey).next_columns =
      (t.column t.colKey).next_columns := by
    rw [column_touchColumn]; rfl
  obtain ⟨found, key, w, hres, hfound, hnone⟩ :=
    getNextColumnLoop_spec t v (t.column t.colKey).next_columns (t.touchColumn t.colKey)
      (control_touchColumn _ _) (fun _ => rfl) (fun _ => rfl) htab
  refine ⟨found, key, w, ?_, hfound, hnone, ?_⟩
  · unfold getNextColumn
    simp only [hcol]
    exact hres
  · intro hall
    cases hf : found with
    | false => rfl
    | true =>
      obtain ⟨pre, post, hsplit, hel, _⟩ := hfound hf
      exact absurd hel (hall key (by rw [hsplit]; simp))

set_option maxRecDepth 100000 in
/-- Witness of C24: in the constructed state the search from Legacy antenna A, with only
that column visited, reports Legacy antenna B, the first candidate. -/
theorem getNextColumn_spec_witness :
    ∃ found key u, getNextColumn (ofMaxWidth 20) (ofMaxWidth 20).visited_columns =
        some ((found, key), u) ∧
      (found = true → ∃ pre post,
        ((ofMaxWidth 20).column (ofMaxWidth 20).colKey).next_columns = pre ++ key :: post ∧
        eligibleColumn (ofMaxWidth 20) (ofMaxWidth 20).visited_columns key ∧
        ∀ c ∈ pre, ¬ eligibleColumn (ofMaxWidth 20) (ofMaxWidth 20).visited_columns c) ∧
      (found = false ↔ ∀ c ∈ ((ofMaxWidth 20).column (ofMaxWidth 20).colKey).next_columns,
        ¬ eligibleColumn (ofMaxWidth 20) (ofMaxWidth 20).visited_columns c) :=
  getNextColumn_spec (ofMaxWidth 20) (ofMaxWidth 20).visited_columns (by decide)

/-! ## Start of a column trial (C25) -/

/-- The loop of `getNextColumn` only creates map entries: the state it returns reads like
the state it started from. -/
theorem reads_getNextColumnLoop (v : List ColKey) (l : List ColKey) (t : State)
    (res : (Bool × ColKey) × State) (h : getNextColumnLoop v t l = some res) :
    (∀ k, res.2.table k = t.table k) ∧ (∀ i, res.2.history i = t.history i) := by
  induction l generalizing t with
  | nil =>
    unfold getNextColumnLoop at h
    cases h
    exact ⟨fun _ => rfl, fun _ => rfl⟩
  | cons key rest ih =>
    unfold getNextColumnLoop at h
    dsimp only at h
    by_cases hv : key ∉ v
    · rw [if_pos hv] at h
      generalize (key.1, (if key.1 = LEGACY then BW_20 else t.bandWidth), key.2.2, t.agg) = k
        at h
      cases hm : ((t.touchTable k).table k).max? with
      | none =>
        rw [hm] at h
        cases h
      | some m =>
        rw [hm] at h
        dsimp only at h
        by_cases hc : 100 * m ≤ (((t.touchTable k).touchHistory (t.touchTable k).index).history
            ((t.touchTable k).touchHistory (t.touchTable k).index).index).average_tpt
        · rw [if_pos hc] at h
          obtain ⟨h1, h2⟩ := ih _ h
          exact ⟨fun j => by rw [h1, table_touchHistory, table_touchTable],
            fun i => by rw [h2, history_touchHistory, history_touchTable]⟩
        · rw [if_neg hc] at h
          cases h
          exact ⟨fun j => by
              show ((t.touchTable k).touchHistory _).table j = _
              rw [table_touchHistory, table_touchTable],
            fun i => by
              show ((t.touchTable k).touchHistory _).history i = _
              rw [history_touchHistory, history_touchTable]⟩
    · rw [if_neg hv] at h
      exact ih _ h

theorem reads_getNextColumn (t : State) (v : List ColKey) (res : (Bool × ColKey) × State)
    (h : getNextColumn t v = some res) :
    (∀ k, res.2.table k = t.table k) ∧ (∀ i, res.2.history i = t.history i) := by
  unfold getNextColumn at h
  obtain ⟨h1, h2⟩ := reads_getNextColumnLoop _ _ _ _ h
  exact ⟨fun k => by rw [h1]; rfl, fun i => by rw [h2]; rfl⟩

theorem setInsert_mem (k : ColKey) (v : List ColKey) :
    k ∈ setInsert k v ∧ (∀ j ∈ v, j ∈ setInsert k v) ∧ (∀ j ∈ setInsert k v, j = k ∨ j ∈ v) := by
  unfold setInsert
  by_cases h : k ∈ v
  · rw [if_pos h]
    exact ⟨h, fun _ hj => hj, fun _ hj => Or.inr hj⟩
  · rw [if_neg h]
    refine ⟨by simp, fun j hj => by simp [hj], fun j hj => ?_⟩
    rcases List.mem_append.mp hj with h1 | h1
    · exact Or.inr h1
    · exact Or.inl (by simpa using h1)

/-- The column search that finds the candidate `c`: the scalar fields of the state it
returns, and the emptied histories of the new group. -/
theorem columnSearchStep_found (t : State) (c : ColKey) (t2 : State)
    (h : getNextColumn { t with last_tpt := (t.history t.index).average_tpt }
      t.visited_columns = some ((true, c), t2)) :
    ∃ u, columnSearchStep t = some (u, false) ∧
      u.control =
        { t.control with
          last_tpt := (t.history t.index).average_tpt
          oldColumnParameters := (t.mode, t.antennas, t.guardInterval, t.index, t.bandWidth)
          columnScaling := true
          mode := c.1
          type := if c.1 = LEGACY then LEGACY_G else NONE
          bandWidth := if c.1 = LEGACY then t.bandWidth else t.maxWidth
          antennas := c.2.1
          guardInterval := c.2.2
          index := (getNextIndex t c).1
          visited_columns := setInsert c t.visited_columns } ∧
      (∀ i, 0 ≤ i → i ≤ 14 → (u.history i).data = []) := by
  have hc := control_getNextColumn _ _ _ h
  obtain ⟨hrt, hrh⟩ := reads_getNextColumn _ _ _ h
  dsimp only at hc hrt hrh
  have hidx : (getNextIndex { t2 with oldColumnParameters :=
      (t2.mode, t2.antennas, t2.guardInterval, t2.index, t2.bandWidth) } c).1 =
      (getNextIndex t c).1 := by
    rw [getNextIndex_fst, getNextIndex_fst]
    have e1 : throughputThreshold { t2 with oldColumnParameters :=
        (t2.mode, t2.antennas, t2.guardInterval, t2.index, t2.bandWidth) } =
        throughputThreshold t := by
      unfold throughputThreshold
      have e2 : ({ t2 with oldColumnParameters :=
          (t2.mode, t2.antennas, t2.guardInterval, t2.index, t2.bandWidth) } : State).history
          ({ t2 with oldColumnParameters :=
            (t2.mode, t2.antennas, t2.guardInterval, t2.index, t2.bandWidth) } : State).index =
          t.history t.index := by
        show t2.history t2.index = _
        rw [hrh, index_of_control hc]
        rfl
      rw [e2]
    have e3 : ({ t2 with oldColumnParameters :=
        (t2.mode, t2.antennas, t2.guardInterval, t2.index, t2.bandWidth) } : State).table
        (c.1, ({ t2 with oldColumnParameters :=
          (t2.mode, t2.antennas, t2.guardInterval, t2.index, t2.bandWidth) } : State).bandWidth,
          c.2.2, ({ t2 with oldColumnParameters :=
          (t2.mode, t2.antennas, t2.guardInterval, t2.index, t2.bandWidth) } : State).agg) =
        t.table (c.1, t.bandWidth, c.2.2, t.agg) := by
      show t2.table (c.1, t2.bandWidth, c.2.2, t2.agg) = _
      rw [hrt, bandWidth_of_control hc, agg_of_control hc]
      rfl
    rw [e1, e3]
  unfold columnSearchStep
  dsimp only
  rw [h]
  dsimp only
  rw [if_pos rfl]
  refine ⟨_, rfl, ?_, ?_⟩
  · rw [control_clearHistories]
    have hc4 := control_getNextIndex { t2 with oldColumnParameters :=
      (t2.mode, t2.antennas, t2.guardInterval, t2.index, t2.bandWidth) } c
    generalize (getNextIndex { t2 with oldColumnParameters :=
      (t2.mode, t2.antennas, t2.guardInterval, t2.index, t2.bandWidth) } c).2 = t4 at hc4
    rw [hidx]
    generalize (getNextIndex t c).1 = idx
    have h4 : t4.control = { t.control with
        last_tpt := (t.history t.index).average_tpt
        oldColumnParameters :=
          (t.mode, t.antennas, t.guardInterval, t.index, t.bandWidth) } := by
      rw [hc4]
      show ({ t2.control with oldColumnParameters :=
        (t2.mode, t2.antennas, t2.guardInterval, t2.index, t2.bandWidth) } : State) = _
      rw [mode_of_control hc, antennas_of_control hc, guardInterval_of_control hc,
        index_of_control hc, bandWidth_of_control hc, hc]
      rfl
    show ({ t4.control with
        columnScaling := true
        mode := c.1
        type := if c.1 = LEGACY then LEGACY_G else NONE
        bandWidth := if c.1 = LEGACY then t4.bandWidth else t4.maxWidth
        antennas := c.2.1
        guardInterval := c.2.2
        index := idx
        visited_columns := setInsert (c.1, c.2.1, c.2.2) t4.visited_columns } : State) = _
    have hbw : t4.bandWidth = t.bandWidth := by
      have h5 := congrArg State.bandWidth h4
      exact h5
    have hmw : t4.maxWidth = t.maxWidth := by
      have h5 := congrArg State.maxWidth h4
      exact h5
    have hvis : t4.visited_columns = t.visited_columns := by
      have h5 := congrArg State.visited_columns h4
      exact h5
    rw [hbw, hmw, hvis, h4]
  · intro i h0 h14
    rw [clearHistories_history _ i h0 h14]
    rfl

/-- C25: the column search that finds the candidate `c` in the state `P` returns a state `u`
which is also the result of the `RateScaling` tail that runs this search; in `u` the
rollback snapshot is the (mode, antennas, guard interval, rate index, bandwidth) of `P`,
the baseline throughput is the average throughput of the current slot of `P`, mode,
antennas and guard interval are those of `c`, the bandwidth is the device maximum when `c`
is not Legacy and unchanged when it is, the trial flag is set, `c` is in the visited set
and the set has otherwise the members it had, the 15 histories of the new (mode,
bandwidth, guard interval, aggregation) group are empty, the rate index is the one chosen
by `getNextIndex`, and phase and aggregation flag are unchanged. -/
theorem column_trial_start (P : State) (c : ColKey) (t2 : State)
    (hfind : getNextColumn { P with last_tpt := (P.history P.index).average_tpt }
      P.visited_columns = some ((true, c), t2)) :
    ∃ u, columnSearchStep P = some (u, false) ∧
      (∀ (now : Int) (r : State × Bool × Bool × Int), r.2.1 = false → r.2.2.1 = false →
        (stay_in_table now (applyIndex r)).s = RS_STATE_SEARCH_CYCLE_STARTED →
        ((stay_in_table now (applyIndex r)).history
          (stay_in_table now (applyIndex r)).index).counter ≠ 0 →
        (stay_in_table now (applyIndex r)).touchHistory
          (stay_in_table now (applyIndex r)).index = P →
        rateScalingTail now r = some u) ∧
      u.oldColumnParameters = (P.mode, P.antennas, P.guardInterval, P.index, P.bandWidth) ∧
      u.last_tpt = (P.history P.index).average_tpt ∧
      u.mode = c.1 ∧ u.antennas = c.2.1 ∧ u.guardInterval = c.2.2 ∧
      u.bandWidth = (if c.1 = LEGACY then P.bandWidth else P.maxWidth) ∧
      u.columnScaling = true ∧
      c ∈ u.visited_columns ∧ (∀ k ∈ P.visited_columns, k ∈ u.visited_columns) ∧
      (∀ k ∈ u.visited_columns, k = c ∨ k ∈ P.visited_columns) ∧
      (∀ i, 0 ≤ i → i ≤ 14 → (u.history i).data = []) ∧
      u.index = (getNextIndex P c).1 ∧ u.s = P.s ∧ u.agg = P.agg := by
  obtain ⟨u, hstep, hcu, hhist⟩ := columnSearchStep_found P c t2 hfind
  have hvis : u.visited_columns = setInsert c P.visited_columns := by
    have h5 := congrArg State.visited_columns hcu
    exact h5
  obtain ⟨hm1, hm2, hm3⟩ := setInsert_mem c P.visited_columns
  refine ⟨u, hstep, ?_, ?_, ?_, ?_, ?_, ?_, ?_, ?_, ?_, ?_, ?_, hhist, ?_, ?_, ?_⟩
  · intro now r hul hds hs hn hP
    rw [rateScalingTail_search now r ⟨hul, hds, hs⟩ hn, hP, hstep]
    dsimp only
    rw [if_neg (fun h => Bool.false_ne_true h.1)]
  · have h5 := congrArg State.oldColumnParameters hcu
    exact h5
  · have h5 := congrArg State.last_tpt hcu
    exact h5
  · have h5 := congrArg State.mode hcu
    exact h5
  · have h5 := congrArg State.antennas hcu
    exact h5
  · have h5 := congrArg State.guardInterval hcu
    exact h5
  · have h5 := congrArg State.bandWidth hcu
    exact h5
  · have h5 := congrArg State.columnScaling hcu
    exact h5
  · rw [hvis]; exact hm1
  · rw [hvis]; exact hm2
  · rw [hvis]; exact hm3
  · have h5 := congrArg State.index hcu
    exact h5
  · have h5 := congrArg State.s hcu
    exact h5
  · have h5 := congrArg State.agg hcu
    exact h5

set_option maxRecDepth 1000000 in
set_option maxHeartbeats 4000000 in
/-- In Legacy on antenna A at 20 MHz with three failures in slot 0, `getNextColumn` finds
the column Legacy on antenna B. -/
theorem legacyB_found :
    getNextColumn
      { withSlots
          { State.default with visited_columns := [(LEGACY, AntennaSet.ofList [A], LGI)] }
          [((LEGACY, 20, LGI, NO_AGG, 0), [false, false, false])] with
        last_tpt := ((withSlots
          { State.default with visited_columns := [(LEGACY, AntennaSet.ofList [A], LGI)] }
          [((LEGACY, 20, LGI, NO_AGG, 0), [false, false, false])]).history
          (withSlots
            { State.default with visited_columns := [(LEGACY, AntennaSet.ofList [A], LGI)] }
            [((LEGACY, 20, LGI, NO_AGG, 0), [false, false, false])]).index).average_tpt }
      (withSlots
        { State.default with visited_columns := [(LEGACY, AntennaSet.ofList [A], LGI)] }
        [((LEGACY, 20, LGI, NO_AGG, 0), [false, false, false])]).visited_columns =
      some ((true, (LEGACY, AntennaSet.ofList [B], LGI)),
        withSlots
          { State.default with visited_columns := [(LEGACY, AntennaSet.ofList [A], LGI)] }
          [((LEGACY, 20, LGI, NO_AGG, 0), [false, false, false])]) := by
  decide!

set_option maxRecDepth 1000000 in
set_option maxHeartbeats 4000000 in
/-- Witness of C25: with three failures in slot 0 of the constructed Legacy column the
column search finds Legacy antenna B and starts its trial. -/
theorem column_trial_start_witness :
    ∃ u, columnSearchStep
        (withSlots
          { State.default with visited_columns := [(LEGACY, AntennaSet.ofList [A], LGI)] }
          [((LEGACY, 20, LGI, NO_AGG, 0), [false, false, false])]) = some (u, false) ∧
      u.oldColumnParameters = (LEGACY, AntennaSet.ofList [A], LGI, 0, 20) ∧
      u.last_tpt = 0 ∧ u.antennas = AntennaSet.ofList [B] ∧ u.columnScaling = true ∧
      (LEGACY, AntennaSet.ofList [B], LGI) ∈ u.visited_columns ∧
      (∀ i, 0 ≤ i → i ≤ 14 → (u.history i).data = []) := by
  obtain ⟨u, h1, _, h3, h4, _, h6, _, _, h9, h10, _, _, h13, _⟩ :=
    column_trial_start _ _ _ legacyB_found
  exact ⟨u, h1, h3.trans (by decide), h4.trans (by decide), h6, h9, h10, h13⟩

/-! ## The visited set (C21) -/

theorem VisitedInv_congr {a b : State} (h1 : a.colKey = b.colKey)
    (h2 : a.visited_columns = b.visited_columns) (h3 : a.s = b.s)
    (h4 : a.columnScaling = b.columnScaling) (h5 : a.oldColKey = b.oldColKey)
    (hb : VisitedInv b) : VisitedInv a := by
  unfold VisitedInv at *
  rw [h1, h2, h3, h4, h5]
  exact hb

theorem VisitedInv_of_control {a b : State} (h : a.control = b.control) (hb : VisitedInv b) :
    VisitedInv a :=
  VisitedInv_congr (colKey_of_control h) (visited_columns_of_control h) (s_of_control h)
    (columnScaling_of_control h)
    (by unfold oldColKey; rw [oldColumnParameters_of_control h]) hb

theorem VisitedInv_stay_in_table (now : Int) (t : State) (h : VisitedInv t) :
    VisitedInv (stay_in_table now t) := by
  by_cases hs : t.s = RS_STATE_STAY_IN_COLUMN
  · by_cases hx : t.total_failed > t.getMaxFailureLimit ∨
        t.total_success > t.getMaxSuccessLimit ∨
        (t.columnScaling = false ∧ flush_interval_passed now t = true)
    · rw [stay_in_table_expired now t hs hx]
      refine ⟨?_, ?_, ?_, ?_⟩
      · show t.colKey ∈ [t.colKey]
        exact List.mem_singleton.mpr rfl
      · show RS_STATE_SEARCH_CYCLE_STARTED ≠ RS_STATE_SEARCH_CYCLE_ENDED
        decide
      · intro hcs
        have h1 : t.s = RS_STATE_SEARCH_CYCLE_STARTED := (h.2.2.1 hcs).1
        rw [hs] at h1
        exact absurd h1 (by decide)
      · intro h1
        have h2 : RS_STATE_SEARCH_CYCLE_STARTED = RS_STATE_STAY_IN_COLUMN := h1
        exact absurd h2 (by decide)
    · rw [stay_in_table_not_expired now t hs hx]
      by_cases hc : t.table_count + 1 > t.getTableCountLimit
      · rw [if_pos hc]
        exact VisitedInv_of_control (control_clearHistories _)
          (VisitedInv_congr rfl rfl rfl rfl rfl h)
      · rw [if_neg hc]
        exact VisitedInv_congr rfl rfl rfl rfl rfl h
  · rw [stay_in_table_other_phase now t hs]
    exact h

theorem columnTrialStep_done (t : State) (index : Int) :
    (columnTrialStep t index).2.2.1 = true := by
  unfold columnTrialStep
  split_ifs <;> rfl

theorem applyIndex_control_index (r : State × Bool × Bool × Int) :
    (applyIndex r).colKey = r.1.colKey ∧ (applyIndex r).visited_columns = r.1.visited_columns ∧
    (applyIndex r).s = r.1.s ∧ (applyIndex r).columnScaling = r.1.columnScaling ∧
    (applyIndex r).oldColKey = r.1.oldColKey := by
  unfold applyIndex
  split_ifs <;> exact ⟨rfl, rfl, rfl, rfl, rfl⟩

theorem mcsScalingStep_done (t : State) (index : Int) (r : State × Bool × Bool × Int)
    (hr : mcsScalingStep t index = some r) : r.2.2.1 = false := by
  cases hadj : getAdjacentRatesIndexes t with
  | none =>
    rw [mcsScalingStep_none _ _ hadj] at hr
    cases hr
  | some p =>
    obtain ⟨adj, t1⟩ := p
    rw [mcsScalingStep_eq _ t1 _ adj hadj] at hr
    cases hr
    rfl

theorem columnSearchStep_none (t : State)
    (h : getNextColumn { t with last_tpt := (t.history t.index).average_tpt }
      t.visited_columns = Option.none) : columnSearchStep t = Option.none := by
  unfold columnSearchStep
  dsimp only
  rw [h]

/-- The column search keeps the invariant of the visited set when it runs in phase
SearchCycleStarted with no trial active: it either returns the state of a new trial, or
the state in phase SearchCycleEnded that `set_stay_in_table` receives next. -/
theorem VisitedInv_columnSearchStep (now : Int) (t t4 : State) (d : Bool) (h : VisitedInv t)
    (hs : t.s = RS_STATE_SEARCH_CYCLE_STARTED) (hcs : t.columnScaling = false)
    (hstep : columnSearchStep t = some (t4, d)) :
    VisitedInv (if d = true ∧ t4.s = RS_STATE_SEARCH_CYCLE_ENDED then set_stay_in_table now t4
      else t4) := by
  cases hn : getNextColumn { t with last_tpt := (t.history t.index).average_tpt }
      t.visited_columns with
  | none =>
    rw [columnSearchStep_none t hn] at hstep
    cases hstep
  | some res =>
    obtain ⟨⟨found, c⟩, t2⟩ := res
    cases found with
    | false =>
      rw [columnSearchStep_not_found t _ hn rfl] at hstep
      cases hstep
      rw [if_pos ⟨rfl, rfl⟩]
      have hc := control_getNextColumn _ _ _ hn
      dsimp only at hc
      refine ⟨?_, ?_, ?_, ?_⟩
      · show t2.colKey ∈ [t2.colKey]
        exact List.mem_singleton.mpr rfl
      · show RS_STATE_STAY_IN_COLUMN ≠ RS_STATE_SEARCH_CYCLE_ENDED
        decide
      · intro h1
        have h2 : t2.columnScaling = true := h1
        rw [columnScaling_of_control hc] at h2
        have h3 : t.columnScaling = true := h2
        rw [hcs] at h3
        exact absurd h3 Bool.false_ne_true
      · intro _
        rfl
    | true =>
      obtain ⟨u, hu, hcu, _⟩ := columnSearchStep_found t c t2 hn
      rw [hu] at hstep
      cases hstep
      rw [if_neg (fun h1 => Bool.false_ne_true h1.1)]
      have hvis : t4.visited_columns = setInsert c t.visited_columns := by
        have h5 := congrArg State.visited_columns hcu
        exact h5
      have hkey : t4.colKey = c := by
        have h5 := congrArg State.colKey hcu
        exact h5
      have hold : t4.oldColKey = t.colKey := by
        have h5 := congrArg State.oldColKey hcu
        exact h5
      have hs4 : t4.s = t.s := by
        have h5 := congrArg State.s hcu
        exact h5
      obtain ⟨hm1, hm2, _⟩ := setInsert_mem c t.visited_columns
      refine ⟨?_, ?_, ?_, ?_⟩
      · rw [hkey, hvis]; exact hm1
      · rw [hs4, hs]; decide
      · intro _
        exact ⟨by rw [hs4, hs], by rw [hold, hvis]; exact hm2 _ h.1⟩
      · intro h1
        rw [hs4, hs] at h1
        exact absurd h1 (by decide)

theorem VisitedInv_rateScalingTail_trial (now : Int) (t u : State) (index : Int)
    (h : VisitedInv t) (hcs : t.columnScaling = true)
    (hu : rateScalingTail now (columnTrialStep t index) = some u) : VisitedInv u := by
  have hs : t.s = RS_STATE_SEARCH_CYCLE_STARTED := (h.2.2.1 hcs).1
  have hold : t.oldColKey ∈ t.visited_columns := (h.2.2.1 hcs).2
  have hinv : VisitedInv (applyIndex (columnTrialStep t index)) := by
    by_cases hk : (t.history t.index).average_tpt > t.last_tpt
    · rw [applyIndex_columnTrialStep_keep t index hk]
      refine ⟨h.1, h.2.1, ?_, h.2.2.2⟩
      intro h1
      exact absurd h1 Bool.false_ne_true
    · rw [applyIndex_columnTrialStep_back t index hk]
      refine ⟨hold, h.2.1, ?_, ?_⟩
      · intro h1
        exact absurd h1 Bool.false_ne_true
      · intro h1
        have h2 : t.s = RS_STATE_STAY_IN_COLUMN := h1
        rw [hs] at h2
        exact absurd h2 (by decide)
  have hS := VisitedInv_stay_in_table now _ hinv
  rw [rateScalingTail_no_search now _ (fun hc => by
    rw [columnTrialStep_done] at hc
    exact Bool.false_ne_true hc.2.1.symm)] at hu
  rw [if_neg (fun hc => hS.2.1 hc.2)] at hu
  cases hu
  exact hS

theorem VisitedInv_rateScalingTail_mcs (now : Int) (t u : State) (index : Int)
    (r : State × Bool × Bool × Int) (h : VisitedInv t) (hcs : t.columnScaling = false)
    (hr : mcsScalingStep t index = some r) (hu : rateScalingTail now r = some u) :
    VisitedInv u := by
  have hc := mcsScalingStep_control t index r hr
  have hds := mcsScalingStep_done t index r hr
  obtain ⟨a1, a2, a3, a4, a5⟩ := applyIndex_control_index r
  have hinv : VisitedInv (applyIndex r) :=
    VisitedInv_congr a1 a2 a3 a4 a5 (VisitedInv_of_control hc h)
  have hS := VisitedInv_stay_in_table now _ hinv
  have hScs : (stay_in_table now (applyIndex r)).columnScaling = false := by
    rw [(stay_in_table_frame now (applyIndex r)).2.2.2.2.2.1, a4, columnScaling_of_control hc,
      hcs]
  by_cases hsearch : r.2.1 = false ∧ r.2.2.1 = false ∧
      (stay_in_table now (applyIndex r)).s = RS_STATE_SEARCH_CYCLE_STARTED
  · by_cases hn : ((stay_in_table now (applyIndex r)).history
        (stay_in_table now (applyIndex r)).index).counter = 0
    · rw [rateScalingTail_no_sample now r hsearch hn] at hu
      cases hu
      exact VisitedInv_of_control (control_touchHistory _ _) hS
    · rw [rateScalingTail_search now r hsearch hn] at hu
      cases hstep : columnSearchStep ((stay_in_table now (applyIndex r)).touchHistory
          (stay_in_table now (applyIndex r)).index) with
      | none =>
        rw [hstep] at hu
        cases hu
      | some p =>
        obtain ⟨t4, d⟩ := p
        rw [hstep] at hu
        dsimp only at hu
        have key := VisitedInv_columnSearchStep now _ t4 d
          (VisitedInv_of_control (control_touchHistory _ _) hS) hsearch.2.2 hScs hstep
        by_cases hfin : d = true ∧ t4.s = RS_STATE_SEARCH_CYCLE_ENDED
        · rw [if_pos hfin] at hu key
          cases hu
          exact key
        · rw [if_neg hfin] at hu key
          cases hu
          exact key
  · rw [rateScalingTail_no_search now r hsearch] at hu
    rw [if_neg (fun hc2 => hS.2.1 hc2.2)] at hu
    cases hu
    exact hS

theorem VisitedInv_RateScaling (now : Int) (t u : State) (h : VisitedInv t)
    (hu : RateScaling now t = some u) : VisitedInv u := by
  have ht : VisitedInv (t.touchHistory t.index) :=
    VisitedInv_of_control (control_touchHistory _ _) h
  by_cases hav : (t.history t.index).average_tpt = -1
  · rw [RateScaling_of_unknown now t hav] at hu
    cases hu
    exact VisitedInv_stay_in_table now _ ht
  · rw [RateScaling_known now t hav] at hu
    by_cases hcs : t.columnScaling = true
    · rw [if_pos hcs] at hu
      exact VisitedInv_rateScalingTail_trial now _ u t.index ht hcs hu
    · rw [if_neg hcs] at hu
      cases hr : mcsScalingStep (t.touchHistory t.index) t.index with
      | none =>
        rw [hr] at hu
        cases hu
      | some r =>
        rw [hr] at hu
        exact VisitedInv_rateScalingTail_mcs now _ u t.index r ht
          (by simpa using hcs) hr hu

theorem VisitedInv_txRecord (t : State) (success failed : Int) (ampdu : Bool)
    (h : VisitedInv t) : VisitedInv (txRecord t success failed ampdu) := by
  unfold txRecord
  dsimp only
  generalize (if ampdu = true ∧ success = 0 then (1 : Int) else failed) = failed1
  have hc : (recordLoop (recordLoop t success true) failed1 false).control = t.control := by
    rw [control_recordLoop, control_recordLoop]
  have h2 := VisitedInv_of_control hc h
  by_cases hs : (recordLoop (recordLoop t success true) failed1 false).s =
      RS_STATE_STAY_IN_COLUMN
  · rw [if_pos hs]
    exact VisitedInv_congr rfl rfl rfl rfl rfl h2
  · rw [if_neg hs]
    exact h2

theorem VisitedInv_tx (now : Int) (t u : State) (success failed : Int) (ampdu : Bool)
    (h : VisitedInv t) (hu : tx now t success failed ampdu = some u) : VisitedInv u :=
  VisitedInv_RateScaling now _ u (VisitedInv_txRecord t success failed ampdu h) hu

theorem VisitedInv_reachable (maxWidth : Int) (u : State) (h : Reachable maxWidth u) :
    VisitedInv u := by
  induction h with
  | init =>
    refine ⟨?_, ?_, ?_, ?_⟩
    · show (LEGACY, AntennaSet.ofList [A], LGI) ∈ setInsert (LEGACY, AntennaSet.ofList [A], LGI) []
      decide
    · show RS_STATE_SEARCH_CYCLE_STARTED ≠ RS_STATE_SEARCH_CYCLE_ENDED
      decide
    · intro h1
      have h2 : false = true := h1
      exact absurd h2 Bool.false_ne_true
    · intro h1
      have h2 : RS_STATE_SEARCH_CYCLE_STARTED = RS_STATE_STAY_IN_COLUMN := h1
      exact absurd h2 (by decide)
  | report now t u success failed ampdu _ htx ih =>
    exact VisitedInv_tx now t u success failed ampdu ih htx

section SlotLemmas

variable {κ ν : Type} [DecidableEq κ]

theorem amSet_append_new (k : κ) (v : ν) (m : List (κ × ν)) (h : ∀ p ∈ m, p.1 ≠ k) :
    amSet k v m = m ++ [(k, v)] := by
  induction m with
  | nil => rfl
  | cons p m ih =>
    obtain ⟨k1, v1⟩ := p
    have h1 : k1 ≠ k := h (k1, v1) (List.mem_cons_self _ _)
    rw [amSet, if_neg h1, ih (fun q hq => h q (List.mem_cons_of_mem _ hq))]
    rfl

end SlotLemmas

/-- The inner loop of the constructor appends the slots of one table, when no slot of that
table is in the map yet. -/
theorem initHistories_inner (t : TableKey × List Int) (n : Nat) (acc : List (HistKey × History))
    (hacc : ∀ p ∈ acc, (p.1.1, p.1.2.1, p.1.2.2.1, p.1.2.2.2.1) ≠ t.1) :
    (List.range n).foldl
        (fun acc1 (i : Nat) =>
          amSet (t.1.1, t.1.2.1, t.1.2.2.1, t.1.2.2.2, Int.ofNat i)
            (History.ofMax (t.2.getD i 0)) acc1) acc =
      acc ++ (List.range n).map fun (i : Nat) =>
        ((t.1.1, t.1.2.1, t.1.2.2.1, t.1.2.2.2, Int.ofNat i), History.ofMax (t.2.getD i 0)) := by
  induction n with
  | zero => simp
  | succ n ih =>
    rw [List.range_succ, List.foldl_append, ih, List.map_append, List.foldl_cons, List.foldl_nil,
      amSet_append_new, List.map_singleton, List.append_assoc]
    intro p hp
    rcases List.mem_append.mp hp with h1 | h1
    · intro h2
      apply hacc p h1
      rw [h2]
    · obtain ⟨i, hi, hpi⟩ := List.mem_map.mp h1
      rw [← hpi]
      intro h2
      have h3 : Int.ofNat i = Int.ofNat n := by
        have h4 := congrArg (fun q : HistKey => q.2.2.2.2) h2
        exact h4
      have h5 : i = n := Int.ofNat.inj h3
      have h6 := List.mem_range.mp hi
      omega

/-- The double loop of the constructor lists the slots table by table, when the table keys
are pairwise different. -/
theorem initHistories_outer :
    ∀ (ts : List (TableKey × List Int)) (acc : List (HistKey × History)),
      (ts.map Prod.fst).Nodup →
      (∀ p ∈ acc, ∀ t ∈ ts, (p.1.1, p.1.2.1, p.1.2.2.1, p.1.2.2.2.1) ≠ t.1) →
      ts.foldl
        (fun acc t =>
          (List.range t.2.length).foldl
            (fun acc1 (i : Nat) =>
              amSet (t.1.1, t.1.2.1, t.1.2.2.1, t.1.2.2.2, Int.ofNat i)
                (History.ofMax (t.2.getD i 0)) acc1)
            acc) acc =
      acc ++ ts.flatMap fun t =>
        (List.range t.2.length).map fun (i : Nat) =>
          ((t.1.1, t.1.2.1, t.1.2.2.1, t.1.2.2.2, Int.ofNat i),
            History.ofMax (t.2.getD i 0)) := by
  intro ts
  induction ts with
  | nil => intro acc _ _; simp
  | cons t ts ih =>
    intro acc hnd hacc
    rw [List.foldl_cons, initHistories_inner t _ acc
      (fun p hp => hacc p hp t (List.mem_cons_self _ _))]
    rw [List.map_cons, List.nodup_cons] at hnd
    rw [ih _ hnd.2, List.flatMap_cons, List.append_assoc]
    intro p hp t2 ht2
    rcases List.mem_append.mp hp with h1 | h1
    · exact hacc p h1 t2 (List.mem_cons_of_mem _ ht2)
    · obtain ⟨i, _, hpi⟩ := List.mem_map.mp h1
      rw [← hpi]
      intro h2
      apply hnd.1
      have h3 : t.1 = t2.1 := h2
      rw [h3]
      exact List.mem_map_of_mem _ ht2

theorem initHistories_slotList :
    initHistories buildTheoreticalThroughputTables = slotList [] := by
  unfold initHistories
  rw [initHistories_outer _ [] (by decide) (fun p hp => by simp at hp)]
  rfl

/-- The constructed state, with its histories listed slot by slot. -/
theorem ofMaxWidth_withSlots (maxWidth : Int) :
    ofMaxWidth maxWidth =
      withSlots
        { State.default with
          visited_columns := [(LEGACY, AntennaSet.ofList [A], LGI)]
          maxWidth :=
            if maxWidth = 20 then BW_20
            else if maxWidth = 40 then BW_40
            else if maxWidth = 80 then BW_80
            else BW_160 } [] := by
  unfold ofMaxWidth withSlots
  dsimp only
  rw [initHistories_slotList]
  rfl

/-! ## Runs of reports -/

theorem reports_none (l : List (Int × Int × Int × Bool)) : reports Option.none l = Option.none := by
  cases l <;> rfl

theorem reports_append (o : Option State) (l1 l2 : List (Int × Int × Int × Bool)) :
    reports o (l1 ++ l2) = reports (reports o l1) l2 := by
  induction l1 generalizing o with
  | nil =>
    cases o with
    | none => simp only [reports_none]
    | some t => rfl
  | cons r rest ih =>
    cases o with
    | none => simp only [reports_none]
    | some t => exact ih _

/-- A run of reports from a reachable state ends in a reachable state. -/
theorem reports_reachable (maxWidth : Int) (l : List (Int × Int × Int × Bool)) (t u : State)
    (ht : Reachable maxWidth t) (h : reports (some t) l = some u) : Reachable maxWidth u := by
  induction l generalizing t with
  | nil =>
    cases h
    exact ht
  | cons r rest ih =>
    cases hstep : tx r.1 t r.2.1 r.2.2.1 r.2.2.2 with
    | none =>
      rw [reports, hstep, reports_none] at h
      cases h
    | some v =>
      rw [reports, hstep] at h
      exact ih v (Reachable.report r.1 t v r.2.1 r.2.2.1 r.2.2.2 ht hstep) h

/-! ## A Legacy column trial at 40 MHz -/

set_option maxRecDepth 1000000 in
set_option maxHeartbeats 4000000 in
/-- The first seventeen reports of `legacyTrialReports`, run from the constructed state of a
station of maximum width 40, two reports at a time. -/
theorem legacyTrial_run :
    reports (some (ofMaxWidth 40)) (legacyTrialReports.take 17) = some legacyTrialBefore := by
  have h0 : reports (some (withSlots
        { State.default with
          visited_columns := [(LEGACY, AntennaSet.ofList [A], LGI)]
          maxWidth := if (40 : Int) = 20 then BW_20 else if (40 : Int) = 40 then BW_40
            else if (40 : Int) = 80 then BW_80 else BW_160 } []))
      [(1, 1, 6, true), (1, 1, 6, true)] = some (legacyTrialCheckpoint 1) := by
    decide!
  have h1 : reports (some (legacyTrialCheckpoint 1))
      [(1, 0, 1, false), (1, 1, 3, true)] = some (legacyTrialCheckpoint 2) := by
    decide!
  have h2 : reports (some (legacyTrialCheckpoint 2))
      [(1, 1, 9, true), (1, 1, 6, true)] = some (legacyTrialCheckpoint 3) := by
    decide!
  have h3 : reports (some (legacyTrialCheckpoint 3))
      [(1, 0, 1, false), (1, 1, 12, true)] = some (legacyTrialCheckpoint 4) := by
    decide!
  have h4 : reports (some (legacyTrialCheckpoint 4))
      [(1, 0, 1, false), (1, 1, 9, true)] = some (legacyTrialCheckpoint 5) := by
    decide!
  have h5 : reports (some (legacyTrialCheckpoint 5))
      [(1, 0, 1, false), (25000000001, 0, 1, false)] = some (legacyTrialCheckpoint 6) := by
    decide!
  have h6 : reports (some (legacyTrialCheckpoint 6))
      [(1, 1, 11, true), (1, 0, 1, false)] = some (legacyTrialCheckpoint 7) := by
    decide!
  have h7 : reports (some (legacyTrialCheckpoint 7))
      [(1, 1, 20, true), (1, 0, 1, false)] = some (legacyTrialCheckpoint 8) := by
    decide!
  have h8 : reports (some (legacyTrialCheckpoint 8))
      [(1, 1, 15, true)] = some (legacyTrialBefore) := by
    decide!
  have hsplit : legacyTrialReports.take 17 =
      [(1, 1, 6, true), (1, 1, 6, true)] ++
      ([(1, 0, 1, false), (1, 1, 3, true)] ++
      ([(1, 1, 9, true), (1, 1, 6, true)] ++
      ([(1, 0, 1, false), (1, 1, 12, true)] ++
      ([(1, 0, 1, false), (1, 1, 9, true)] ++
      ([(1, 0, 1, false), (25000000001, 0, 1, false)] ++
      ([(1, 1, 11, true), (1, 0, 1, false)] ++
      ([(1, 1, 20, true), (1, 0, 1, false)] ++
      [(1, 1, 15, true)]))))))) := by
    decide
  rw [ofMaxWidth_withSlots, hsplit, reports_append, h0, reports_append, h1, reports_append, h2,
    reports_append, h3, reports_append, h4, reports_append, h5, reports_append, h6,
    reports_append, h7, h8]

set_option maxRecDepth 1000000 in
set_option maxHeartbeats 4000000 in
/-- The last report of `legacyTrialReports`: the column search starts the Legacy trial. -/
theorem legacyTrial_last : tx 1 legacyTrialBefore 0 1 false = some legacyTrialState := by
  decide!

theorem legacyTrial_full :
    reports (some (ofMaxWidth 40)) legacyTrialReports = some legacyTrialState := by
  have hsplit : legacyTrialReports = legacyTrialReports.take 17 ++ [(1, 0, 1, false)] := by
    decide
  rw [hsplit, reports_append, legacyTrial_run]
  show reports (tx 1 legacyTrialBefore 0 1 false) [] = _
  rw [legacyTrial_last]
  rfl

theorem legacyTrialBefore_reachable : Reachable 40 legacyTrialBefore :=
  reports_reachable 40 _ _ _ Reachable.init legacyTrial_run

theorem legacyTrialState_reachable : Reachable 40 legacyTrialState :=
  Reachable.report 1 _ _ 0 1 false legacyTrialBefore_reachable legacyTrial_last

set_option maxRecDepth 1000000 in
/-- C22 (defect in the code): the eighteen reports `legacyTrialReports` take a station of
maximum width 40 from its constructed state into a state in Legacy mode at 40 MHz whose
rate index is -1, outside 0..11, and whose current slot has no history. -/
theorem legacy_trial_index_out_of_range :
    reports (some (ofMaxWidth 40)) legacyTrialReports = some legacyTrialState ∧
    Reachable 40 legacyTrialState ∧
    legacyTrialState.mode = LEGACY ∧ legacyTrialState.bandWidth = 40 ∧
    legacyTrialState.index = -1 ∧ ¬ (0 ≤ legacyTrialState.index) ∧
    amFind (legacyTrialState.histKey legacyTrialState.index) legacyTrialState.Histories =
      Option.none :=
  ⟨legacyTrial_full, legacyTrialState_reachable, rfl, rfl, rfl, by decide, by decide⟩

set_option maxRecDepth 1000000 in
/-- C23 (defect in the code): in the reachable state `legacyTrialBefore` of a station of
maximum width 40, the report `tx(0, 1, false)` starts a trial of Legacy antenna A; the
table that `getNextIndex` looks up for it, (Legacy, 40 MHz, long GI, no aggregation), is
not among the tables built at construction, so the lookup reads an empty vector, returns
index -1 and leaves an empty table in the map; and the state after the report is reachable
with no built table for its current (mode, bandwidth, guard interval, aggregation). -/
theorem legacy_trial_table_missing :
    Reachable 40 legacyTrialBefore ∧
    tx 1 legacyTrialBefore 0 1 false = some legacyTrialState ∧
    Reachable 40 legacyTrialState ∧
    amFind (LEGACY, legacyTrialBefore.bandWidth, LGI, legacyTrialBefore.agg)
      buildTheoreticalThroughputTables = Option.none ∧
    (txRecord legacyTrialBefore 0 1 false).table
      (LEGACY, (txRecord legacyTrialBefore 0 1 false).bandWidth, LGI,
        (txRecord legacyTrialBefore 0 1 false).agg) = [] ∧
    (getNextIndex (txRecord legacyTrialBefore 0 1 false)
      (LEGACY, AntennaSet.ofList [A], LGI)).1 = -1 ∧
    amFind (LEGACY, 40, LGI, NO_AGG) legacyTrialBefore.TheoreticalThroughputTables =
      Option.none ∧
    amFind (LEGACY, 40, LGI, NO_AGG) legacyTrialState.TheoreticalThroughputTables = some [] ∧
    amFind (legacyTrialState.mode, legacyTrialState.bandWidth, legacyTrialState.guardInterval,
      legacyTrialState.agg) buildTheoreticalThroughputTables = Option.none :=
  ⟨legacyTrialBefore_reachable, legacyTrial_last, legacyTrialState_reachable, by decide,
    by decide, by decide, by decide, by decide, by decide⟩

/-! ## Twenty successful reports (C29) -/

/-- Outside the phase StayInColumn `RateScaling` consults the clock only when it enters
that phase: a call that does not end in StayInColumn returns the same at every clock
value. -/
theorem RateScaling_clock_free (now now1 : Int) (t : State)
    (hs : t.s ≠ RS_STATE_STAY_IN_COLUMN)
    (h : ∀ u, RateScaling now t = some u → u.s ≠ RS_STATE_STAY_IN_COLUMN) :
    RateScaling now1 t = RateScaling now t := by
  by_cases hav : (t.history t.index).average_tpt = -1
  · rw [RateScaling_of_unknown now t hav, RateScaling_of_unknown now1 t hav,
      stay_in_table_other_phase now (t.touchHistory t.index) hs,
      stay_in_table_other_phase now1 (t.touchHistory t.index) hs]
  · rw [RateScaling_known now t hav] at h ⊢
    rw [RateScaling_known now1 t hav]
    have hfirst : ∀ r, (if t.columnScaling = true then
          some (columnTrialStep (t.touchHistory t.index) t.index)
        else mcsScalingStep (t.touchHistory t.index) t.index) = some r → r.1.s = t.s := by
      intro r hr
      by_cases hcs : t.columnScaling = true
      · rw [if_pos hcs] at hr
        cases hr
        rw [columnTrialStep_s]
        rfl
      · rw [if_neg hcs] at hr
        rw [s_of_control (mcsScalingStep_control _ _ _ hr)]
        rfl
    generalize (if t.columnScaling = true then
        some (columnTrialStep (t.touchHistory t.index) t.index)
      else mcsScalingStep (t.touchHistory t.index) t.index) = first at h hfirst ⊢
    cases first with
    | none => rfl
    | some r =>
      dsimp only at h ⊢
      have hst : ∀ n : Int, stay_in_table n (applyIndex r) = applyIndex r := fun n =>
        stay_in_table_other_phase n _ (by rw [applyIndex_s, hfirst r rfl]; exact hs)
      rw [rateScalingTail_eq] at h ⊢
      rw [rateScalingTail_eq]
      rw [hst now] at h ⊢
      rw [hst now1]
      generalize (if r.2.1 = false ∧ r.2.2.1 = false ∧
          (applyIndex r).s = RS_STATE_SEARCH_CYCLE_STARTED then
        if (((applyIndex r).touchHistory (applyIndex r).index).history
            ((applyIndex r).touchHistory (applyIndex r).index).index).counter ≠ 0 then
          columnSearchStep ((applyIndex r).touchHistory (applyIndex r).index)
        else some ((applyIndex r).touchHistory (applyIndex r).index, r.2.2.1)
      else some (applyIndex r, r.2.2.1)) = sr at h ⊢
      cases sr with
      | none => rfl
      | some p =>
        obtain ⟨t4, d⟩ := p
        dsimp only at h ⊢
        by_cases hfin : d = true ∧ t4.s = RS_STATE_SEARCH_CYCLE_ENDED
        · rw [if_pos hfin] at h
          exact absurd rfl (h _ rfl)
        · rw [if_neg hfin, if_neg hfin]

theorem tx_clock_free (now now1 : Int) (t : State) (success failed : Int) (ampdu : Bool)
    (hs : t.s ≠ RS_STATE_STAY_IN_COLUMN)
    (h : ∀ u, tx now t success failed ampdu = some u → u.s ≠ RS_STATE_STAY_IN_COLUMN) :
    tx now1 t success failed ampdu = tx now t success failed ampdu := by
  unfold tx at h ⊢
  exact RateScaling_clock_free now now1 _ (by rw [txRecord_s]; exact hs) h

theorem neverStays_head (t : State) (l : List (Int × Int × Int × Bool))
    (h : neverStays t l = true) : t.s ≠ RS_STATE_STAY_IN_COLUMN := by
  cases l with
  | nil => exact of_decide_eq_true h
  | cons r rest =>
    rw [neverStays, Bool.and_eq_true] at h
    exact of_decide_eq_true h.1

/-- A run that never enters the phase StayInColumn does not depend on the clock values of
its reports. -/
theorem reports_clock_free :
    ∀ (l : List (Int × Int × Int × Bool)) (t : State), neverStays t l = true →
      ∀ l1 : List (Int × Int × Int × Bool), l1.map Prod.snd = l.map Prod.snd →
        reports (some t) l1 = reports (some t) l := by
  intro l
  induction l with
  | nil =>
    intro t _ l1 hl
    rw [List.map_nil, List.map_eq_nil_iff] at hl
    rw [hl]
  | cons r rest ih =>
    intro t hn l1 hl
    cases l1 with
    | nil => simp at hl
    | cons r1 rest1 =>
      rw [List.map_cons, List.map_cons, List.cons.injEq] at hl
      obtain ⟨hr, hrest⟩ := hl
      have hs := neverStays_head t _ hn
      rw [neverStays, Bool.and_eq_true] at hn
      cases hstep : tx r.1 t r.2.1 r.2.2.1 r.2.2.2 with
      | none =>
        rw [hstep] at hn
        exact absurd hn.2 Bool.false_ne_true
      | some u =>
        rw [hstep] at hn
        have hu := neverStays_head u _ hn.2
        have hclock : tx r1.1 t r1.2.1 r1.2.2.1 r1.2.2.2 = some u := by
          rw [hr, tx_clock_free r.1 r1.1 t _ _ _ hs (fun v hv => by
            rw [hstep] at hv
            cases hv
            exact hu)]
          exact hstep
        rw [reports, reports, hclock, hstep]
        exact ih u hn.2 rest1 hrest

theorem ofMaxWidth_cases (maxWidth : Int) :
    ofMaxWidth maxWidth = ofMaxWidth 20 ∨ ofMaxWidth maxWidth = ofMaxWidth 40 ∨
    ofMaxWidth maxWidth = ofMaxWidth 80 ∨ ofMaxWidth maxWidth = ofMaxWidth 160 := by
  by_cases h20 : maxWidth = 20
  · left; rw [h20]
  by_cases h40 : maxWidth = 40
  · right; left; rw [h40]
  by_cases h80 : maxWidth = 80
  · right; right; left; rw [h80]
  right; right; right
  unfold ofMaxWidth
  rw [if_neg h20, if_neg h40, if_neg h80]
  rfl

theorem success_reports_snd (clocks : List Int) :
    (clocks.map fun n => ((n, 1, 0, false) : Int × Int × Int × Bool)).map Prod.snd =
      List.replicate clocks.length (1, 0, false) := by
  induction clocks with
  | nil => rfl
  | cons n rest ih =>
    rw [List.map_cons, List.map_cons, ih]
    rfl

set_option maxRecDepth 1000000 in
set_option maxHeartbeats 4000000 in
/-- The 20 successful reports, all made at clock value 0, from each of the four constructed
states: the run stays outside StayInColumn and ends at rate index 2. -/
theorem twenty_successes_at_zero (t : State)
    (ht : t = ofMaxWidth 20 ∨ t = ofMaxWidth 40 ∨ t = ofMaxWidth 80 ∨ t = ofMaxWidth 160) :
    neverStays t (List.replicate 20 (0, 1, 0, false)) = true ∧
    (reports (some t) (List.replicate 20 (0, 1, 0, false))).map
      (fun u => (u.index, (u.history u.index).data, (u.history u.index).success_ratio,
        (u.history u.index).average_tpt, (u.history 0).average_tpt,
        (u.history 1).average_tpt)) =
      some (2, [true, true, true, true], 12800, -1, 700, 1300) := by
  rcases ht with h | h | h | h <;> subst h
  · exact ⟨by decide!, by decide!⟩
  · exact ⟨by decide!, by decide!⟩
  · exact ⟨by decide!, by decide!⟩
  · exact ⟨by decide!, by decide!⟩

set_option maxRecDepth 1000000 in
set_option maxHeartbeats 4000000 in
/-- C29, counterexample: after 20 reports `tx(1, 0, false)` from the constructed state the
average throughput of the current rate slot is the sentinel `INVALID_THROUGHPUT`. -/
theorem twenty_successes_counterexample :
    (reports (some (ofMaxWidth 20)) (List.replicate 20 (0, 1, 0, false))).map
      (fun u => (u.history u.index).average_tpt) = some INVALID_THROUGHPUT := by
  decide!

/-- C29, amended: after 20 consecutive reports `tx(1, 0, false)` from a freshly constructed
state, at any clock values, the rate index is 2 (the 8th and the 16th report upscale), the
current rate slot holds the last 4 outcomes, its success ratio reads 12800 and its average
throughput is still the sentinel; the average throughput of the slots left behind is
defined, 700 for slot 0 and 1300 for slot 1. -/
theorem twenty_successes (maxWidth : Int) (clocks : List Int) (hlen : clocks.length = 20) :
    ∃ u, reports (some (ofMaxWidth maxWidth))
        (clocks.map fun n => ((n, 1, 0, false) : Int × Int × Int × Bool)) = some u ∧
      u.index = 2 ∧ (u.history u.index).data = [true, true, true, true] ∧
      (u.history u.index).success_ratio = 12800 ∧
      (u.history u.index).average_tpt = INVALID_THROUGHPUT ∧
      (u.history 0).average_tpt = 700 ∧ (u.history 1).average_tpt = 1300 := by
  obtain ⟨hnever, hrun⟩ := twenty_successes_at_zero (ofMaxWidth maxWidth)
    (ofMaxWidth_cases maxWidth)
  have hsame := reports_clock_free _ _ hnever
    (clocks.map fun n => ((n, 1, 0, false) : Int × Int × Int × Bool))
    (by rw [success_reports_snd, hlen]; rfl)
  rw [← hsame] at hrun
  cases hres : reports (some (ofMaxWidth maxWidth))
      (clocks.map fun n => ((n, 1, 0, false) : Int × Int × Int × Bool)) with
  | none =>
    rw [hres] at hrun
    cases hrun
  | some u =>
    rw [hres] at hrun
    have h2 : (u.index, (u.history u.index).data, (u.history u.index).success_ratio,
        (u.history u.index).average_tpt, (u.history 0).average_tpt,
        (u.history 1).average_tpt) =
        (2, [true, true, true, true], 12800, -1, 700, 1300) := Option.some.inj hrun
    simp only [Prod.mk.injEq] at h2
    exact ⟨u, rfl, h2.1, h2.2.1, h2.2.2.1, h2.2.2.2.1, h2.2.2.2.2.1, h2.2.2.2.2.2⟩

/-- Witness of the amended C29: twenty reports at the clock values 1 to 20. -/
theorem twenty_successes_witness :
    ∃ u, reports (some (ofMaxWidth 40))
        ((List.range' 1 20).map fun n => (((n : Nat) : Int), 1, 0, false)) = some u ∧
      u.index = 2 ∧ (u.history u.index).average_tpt = INVALID_THROUGHPUT := by
  obtain ⟨u, h1, h2, _, _, h5, _⟩ :=
    twenty_successes 40 ((List.range' 1 20).map fun n => ((n : Nat) : Int)) (by decide)
  rw [List.map_map] at h1
  exact ⟨u, h1, h2, h5⟩

/-! ## Column graph (C30) -/

/-- C30: `buildColumns` registers exactly 8 columns under pairwise different keys; every
column has a non-empty candidate list; every candidate is the key of one of the 8 columns
and differs from the column that lists it; every column is reachable from
(Legacy, {A}, long GI) along candidate edges; and every non-Legacy column lists the two
Legacy columns as its last two candidates. -/
theorem buildColumns_graph :
    (buildColumns.length = 8 ∧ (buildColumns.map Prod.fst).Nodup ∧
      ∀ p ∈ buildColumns, p.2.getColumn = p.1) ∧
    (∀ p ∈ buildColumns, p.2.next_columns ≠ []) ∧
    (∀ p ∈ buildColumns, ∀ c ∈ p.2.next_columns,
      c ∈ buildColumns.map Prod.fst ∧ c ≠ p.1) ∧
    (∀ p ∈ buildColumns,
      Relation.ReflTransGen columnEdge (LEGACY, AntennaSet.ofList [A], LGI) p.1) ∧
    (∀ p ∈ buildColumns, p.1.1 ≠ LEGACY →
      p.2.next_columns.drop (p.2.next_columns.length - 2) =
        [(LEGACY, AntennaSet.ofList [A], LGI), (LEGACY, AntennaSet.ofList [B], LGI)]) := by
  refine ⟨by decide, by decide, by decide, ?_, by decide⟩
  have e1 : columnEdge (LEGACY, AntennaSet.ofList [A], LGI)
      (LEGACY, AntennaSet.ofList [B], LGI) := by decide
  have e2 : columnEdge (LEGACY, AntennaSet.ofList [A], LGI)
      (SISO, AntennaSet.ofList [A], LGI) := by decide
  have e3 : columnEdge (LEGACY, AntennaSet.ofList [A], LGI)
      (MIMO, AntennaSet.ofList [A, B], LGI) := by decide
  have e4 : columnEdge (SISO, AntennaSet.ofList [A], LGI)
      (SISO, AntennaSet.ofList [B], LGI) := by decide
  have e5 : columnEdge (SISO, AntennaSet.ofList [A], LGI)
      (SISO, AntennaSet.ofList [A], SGI) := by decide
  have e6 : columnEdge (SISO, AntennaSet.ofList [A], SGI)
      (SISO, AntennaSet.ofList [B], SGI) := by decide
  have e7 : columnEdge (MIMO, AntennaSet.ofList [A, B], LGI)
      (MIMO, AntennaSet.ofList [A, B], SGI) := by decide
  intro p hp
  simp only [buildColumns, List.mem_cons, List.mem_singleton, List.not_mem_nil, or_false] at hp
  rcases hp with h | h | h | h | h | h | h | h <;> subst h
  · exact Relation.ReflTransGen.refl
  · exact Relation.ReflTransGen.single e1
  · exact Relation.ReflTransGen.single e2
  · exact (Relation.ReflTransGen.single e2).tail e4
  · exact (Relation.ReflTransGen.single e2).tail e5
  · exact ((Relation.ReflTransGen.single e2).tail e5).tail e6
  · exact Relation.ReflTransGen.single e3
  · exact (Relation.ReflTransGen.single e3).tail e7

/-! ## getTxVector (C27, C28) -/

/-- C27: in SISO mode `getTxVector` names the rate "VhtMcs" or "HtMcs" (VHT enabled or
not) followed by the decimal MCS index, which is 0 for rate index 4 and `index - 5` for
every other rate index; rate index 9 gives "VhtMcs4" and "HtMcs4". -/
theorem getTxVector_siso (t : State) (ht vht : Bool) (hmode : t.mode = SISO) :
    (getTxVector t ht vht).1 =
        (if vht = true then "VhtMcs" else "HtMcs") ++
          toString (if t.index = 4 then (0 : Int) else t.index - 5) ∧
    (t.index = 4 → (getTxVector t ht true).1 = "VhtMcs0" ∧
      (getTxVector t ht false).1 = "HtMcs0") ∧
    (t.index = 9 → (getTxVector t ht true).1 = "VhtMcs4" ∧
      (getTxVector t ht false).1 = "HtMcs4") := by
  have key : ∀ v : Bool, (getTxVector t ht v).1 =
      (if v = true then "VhtMcs" else "HtMcs") ++
        toString (if t.index = 4 then (0 : Int) else t.index - 5) := by
    intro v
    unfold getTxVector txRate
    rw [if_pos hmode]
    cases v <;> rfl
  refine ⟨key vht, ?_, ?_⟩
  · intro h
    rw [key true, key false, h]
    exact ⟨by decide, by decide⟩
  · intro h
    rw [key true, key false, h]
    exact ⟨by decide, by decide⟩

/-- Witness of C27 at a SISO state with rate index 9. -/
theorem getTxVector_siso_witness :
    (getTxVector { State.default with mode := SISO, index := 9 } true true).1 = "VhtMcs4" ∧
    (getTxVector { State.default with mode := SISO, index := 9 } true false).1 = "HtMcs4" :=
  (getTxVector_siso { State.default with mode := SISO, index := 9 } true true rfl).2.2 rfl

theorem legacyRateName_cases (i : Int) :
    (i = 4 → legacyRateName i = "OfdmRate6Mbps") ∧
    (i = 5 → legacyRateName i = "OfdmRate9Mbps") ∧
    (i = 6 → legacyRateName i = "OfdmRate12Mbps") ∧
    (i = 7 → legacyRateName i = "OfdmRate18Mbps") ∧
    (i = 8 → legacyRateName i = "OfdmRate24Mbps") ∧
    (i = 9 → legacyRateName i = "OfdmRate36Mbps") ∧
    (i = 10 → legacyRateName i = "OfdmRate48Mbps") ∧
    (i = 11 → legacyRateName i = "OfdmRate54Mbps") ∧
    (12 ≤ i → legacyRateName i = "") := by
  refine ⟨?_, ?_, ?_, ?_, ?_, ?_, ?_, ?_, ?_⟩
  · intro h; subst h; rfl
  · intro h; subst h; rfl
  · intro h; subst h; rfl
  · intro h; subst h; rfl
  · intro h; subst h; rfl
  · intro h; subst h; rfl
  · intro h; subst h; rfl
  · intro h; subst h; rfl
  · intro h
    unfold legacyRateName
    have hne : ∀ k : Int, k ≤ 11 → ¬ i = k := fun k hk hik => by omega
    rw [if_neg (hne 0 (by decide)), if_neg (hne 1 (by decide)), if_neg (hne 2 (by decide)),
      if_neg (hne 3 (by decide)), if_neg (hne 4 (by decide)), if_neg (hne 5 (by decide)),
      if_neg (hne 6 (by decide)), if_neg (hne 7 (by decide)), if_neg (hne 8 (by decide)),
      if_neg (hne 9 (by decide)), if_neg (hne 10 (by decide)), if_neg (hne 11 (by decide))]

/-- C28: in Legacy mode `getTxVector` names "OfdmRate6Mbps" for every rate index up to 4
and the OFDM rates 9, 12, 18, 24, 36, 48, 54 Mbps for the indices 5 to 11, and never one
of the four DSSS names; in every mode the tuple carries the guard-interval duration 400
for short and 800 for long, the size of the antenna set, stream count 2 for MIMO and 1
otherwise, the constant 0, the current bandwidth, the aggregation flag and `false`.  The
method assigns to no member, which the model renders by returning the tuple only. -/
theorem getTxVector_legacy_and_tuple (t : State) (ht vht : Bool) :
    (t.mode = LEGACY →
      (t.index ≤ 4 → (getTxVector t ht vht).1 = "OfdmRate6Mbps") ∧
      (t.index = 5 → (getTxVector t ht vht).1 = "OfdmRate9Mbps") ∧
      (t.index = 6 → (getTxVector t ht vht).1 = "OfdmRate12Mbps") ∧
      (t.index = 7 → (getTxVector t ht vht).1 = "OfdmRate18Mbps") ∧
      (t.index = 8 → (getTxVector t ht vht).1 = "OfdmRate24Mbps") ∧
      (t.index = 9 → (getTxVector t ht vht).1 = "OfdmRate36Mbps") ∧
      (t.index = 10 → (getTxVector t ht vht).1 = "OfdmRate48Mbps") ∧
      (t.index = 11 → (getTxVector t ht vht).1 = "OfdmRate54Mbps") ∧
      (getTxVector t ht vht).1 ∉
        ["DsssRate1Mbps", "DsssRate2Mbps", "DsssRate5_5Mbps", "DsssRate11Mbps"]) ∧
    (getTxVector t ht vht).2.1 = (if t.guardInterval = SGI then 400 else 800) ∧
    (getTxVector t ht vht).2.2.1 = t.antennas.size ∧
    (getTxVector t ht vht).2.2.2.1 = (if t.mode = MIMO then 2 else 1) ∧
    (getTxVector t ht vht).2.2.2.2.1 = 0 ∧
    (getTxVector t ht vht).2.2.2.2.2.1 = t.bandWidth ∧
    ((getTxVector t ht vht).2.2.2.2.2.2.1 = true ↔ t.agg = AGG) ∧
    (getTxVector t ht vht).2.2.2.2.2.2.2 = false := by
  refine ⟨?_, ?_, rfl, ?_, rfl, rfl, ?_, rfl⟩
  · intro hmode
    have hrate : (getTxVector t ht vht).1 =
        legacyRateName (if t.index ≤ 4 then 4 else t.index) := by
      unfold getTxVector txRate
      rw [if_neg (by rw [hmode]; decide), if_neg (by rw [hmode]; decide)]
    have hc := legacyRateName_cases (if t.index ≤ 4 then 4 else t.index)
    rw [hrate]
    refine ⟨?_, ?_, ?_, ?_, ?_, ?_, ?_, ?_, ?_⟩
    · intro h; exact hc.1 (by rw [if_pos h])
    · intro h; exact hc.2.1 (by rw [if_neg (by omega)]; exact h)
    · intro h; exact hc.2.2.1 (by rw [if_neg (by omega)]; exact h)
    · intro h; exact hc.2.2.2.1 (by rw [if_neg (by omega)]; exact h)
    · intro h; exact hc.2.2.2.2.1 (by rw [if_neg (by omega)]; exact h)
    · intro h; exact hc.2.2.2.2.2.1 (by rw [if_neg (by omega)]; exact h)
    · intro h; exact hc.2.2.2.2.2.2.1 (by rw [if_neg (by omega)]; exact h)
    · intro h; exact hc.2.2.2.2.2.2.2.1 (by rw [if_neg (by omega)]; exact h)
    · generalize hj : (if t.index ≤ 4 then (4 : Int) else t.index) = j
      have hj4 : 4 ≤ j := by rw [← hj]; split_ifs <;> omega
      have hc2 := legacyRateName_cases j
      by_cases h4 : j = 4
      · rw [hc2.1 h4]; decide
      by_cases h5 : j = 5
      · rw [hc2.2.1 h5]; decide
      by_cases h6 : j = 6
      · rw [hc2.2.2.1 h6]; decide
      by_cases h7 : j = 7
      · rw [hc2.2.2.2.1 h7]; decide
      by_cases h8 : j = 8
      · rw [hc2.2.2.2.2.1 h8]; decide
      by_cases h9 : j = 9
      · rw [hc2.2.2.2.2.2.1 h9]; decide
      by_cases h10 : j = 10
      · rw [hc2.2.2.2.2.2.2.1 h10]; decide
      by_cases h11 : j = 11
      · rw [hc2.2.2.2.2.2.2.2.1 h11]; decide
      rw [hc2.2.2.2.2.2.2.2.2 (by omega)]; decide
  · show (if t.guardInterval = LGI then (800 : Int) else 400) = _
    cases t.guardInterval <;> rfl
  · show (txRate t vht).2 = _
    unfold txRate
    cases hm : t.mode <;> cases vht <;> rfl
  · show decide (t.agg = AGG) = true ↔ _
    exact decide_eq_true_iff

/-- Witness of C28 at a Legacy state with rate index 7. -/
theorem getTxVector_legacy_and_tuple_witness :
    (getTxVector { State.default with index := 7 } true true).1 = "OfdmRate18Mbps" :=
  ((getTxVector_legacy_and_tuple { State.default with index := 7 } true true).1 rfl).2.2.2.1 rfl

/-! ## The rate class follows the mode -/

theorem ClassInv_congr {a b : State} (hm : a.mode = b.mode) (ht : a.type = b.type)
    (hb : ClassInv b) : ClassInv a := by
  unfold ClassInv at *
  rw [hm, ht]
  exact hb

theorem ClassInv_of_control {a b : State} (h : a.control = b.control) (hb : ClassInv b) :
    ClassInv a :=
  ClassInv_congr (mode_of_control h) (type_of_control h) hb

theorem ClassInv_of_mode (m : column_mode) :
    (if m = LEGACY then LEGACY_G else NONE) = LEGACY_G ↔ m = LEGACY := by
  by_cases hm : m = LEGACY
  · rw [if_pos hm]
    exact ⟨fun _ => hm, fun _ => rfl⟩
  · rw [if_neg hm]
    exact ⟨fun h => absurd h (by decide), fun h => absurd h hm⟩

theorem ClassInv_stay_in_table (now : Int) (t : State) (h : ClassInv t) :
    ClassInv (stay_in_table now t) :=
  ClassInv_congr (stay_in_table_frame now t).1 (stay_in_table_type now t) h

theorem ClassInv_applyIndex (r : State × Bool × Bool × Int) (h : ClassInv r.1) :
    ClassInv (applyIndex r) := by
  unfold applyIndex
  split_ifs
  · exact ClassInv_congr rfl rfl h
  · exact h

theorem ClassInv_columnTrialStep (t : State) (index : Int) (h : ClassInv t) :
    ClassInv (applyIndex (columnTrialStep t index)) := by
  by_cases hk : (t.history t.index).average_tpt > t.last_tpt
  · rw [applyIndex_columnTrialStep_keep t index hk]
    exact ClassInv_congr rfl rfl h
  · rw [applyIndex_columnTrialStep_back t index hk]
    exact ClassInv_of_mode _

theorem ClassInv_columnSearchStep (t t4 : State) (d : Bool) (h : ClassInv t)
    (hstep : columnSearchStep t = some (t4, d)) : ClassInv t4 := by
  cases hn : getNextColumn { t with last_tpt := (t.history t.index).average_tpt }
      t.visited_columns with
  | none =>
    rw [columnSearchStep_none t hn] at hstep
    cases hstep
  | some res =>
    obtain ⟨⟨found, c⟩, t2⟩ := res
    cases found with
    | false =>
      rw [columnSearchStep_not_found t _ hn rfl] at hstep
      cases hstep
      have hc := control_getNextColumn _ _ _ hn
      dsimp only at hc
      have hm : t2.mode = t.mode := by
        have h5 := mode_of_control hc
        exact h5
      have ht : t2.type = t.type := by
        have h5 := type_of_control hc
        exact h5
      exact ClassInv_congr hm ht h
    | true =>
      obtain ⟨u, hu, hcu, _⟩ := columnSearchStep_found t c t2 hn
      rw [hu] at hstep
      cases hstep
      have hm : t4.mode = c.1 := by
        have h5 := congrArg State.mode hcu
        exact h5
      have ht : t4.type = if c.1 = LEGACY then LEGACY_G else NONE := by
        have h5 := congrArg State.type hcu
        exact h5
      unfold ClassInv
      rw [hm, ht]
      exact ClassInv_of_mode _

theorem ClassInv_rateScalingTail (now : Int) (r : State × Bool × Bool × Int) (u : State)
    (h : ClassInv (applyIndex r)) (hu : rateScalingTail now r = some u) : ClassInv u := by
  have hS := ClassInv_stay_in_table now _ h
  by_cases hsearch : r.2.1 = false ∧ r.2.2.1 = false ∧
      (stay_in_table now (applyIndex r)).s = RS_STATE_SEARCH_CYCLE_STARTED
  · by_cases hn : ((stay_in_table now (applyIndex r)).history
        (stay_in_table now (applyIndex r)).index).counter = 0
    · rw [rateScalingTail_no_sample now r hsearch hn] at hu
      cases hu
      exact ClassInv_of_control (control_touchHistory _ _) hS
    · rw [rateScalingTail_search now r hsearch hn] at hu
      cases hstep : columnSearchStep ((stay_in_table now (applyIndex r)).touchHistory
          (stay_in_table now (applyIndex r)).index) with
      | none =>
        rw [hstep] at hu
        cases hu
      | some p =>
        obtain ⟨t4, d⟩ := p
        rw [hstep] at hu
        dsimp only at hu
        have key := ClassInv_columnSearchStep _ t4 d
          (ClassInv_of_control (control_touchHistory _ _) hS) hstep
        by_cases hfin : d = true ∧ t4.s = RS_STATE_SEARCH_CYCLE_ENDED
        · rw [if_pos hfin] at hu
          cases hu
          exact ClassInv_congr rfl rfl key
        · rw [if_neg hfin] at hu
          cases hu
          exact key
  · rw [rateScalingTail_no_search now r hsearch] at hu
    cases hu
    split_ifs
    · exact ClassInv_congr rfl rfl hS
    · exact hS

theorem ClassInv_RateScaling (now : Int) (t u : State) (h : ClassInv t)
    (hu : RateScaling now t = some u) : ClassInv u := by
  have ht : ClassInv (t.touchHistory t.index) :=
    ClassInv_of_control (control_touchHistory _ _) h
  by_cases hav : (t.history t.index).average_tpt = -1
  · rw [RateScaling_of_unknown now t hav] at hu
    cases hu
    exact ClassInv_stay_in_table now _ ht
  · rw [RateScaling_known now t hav] at hu
    by_cases hcs : t.columnScaling = true
    · rw [if_pos hcs] at hu
      exact ClassInv_rateScalingTail now _ u (ClassInv_columnTrialStep _ _ ht) hu
    · rw [if_neg hcs] at hu
      cases hr : mcsScalingStep (t.touchHistory t.index) t.index with
      | none =>
        rw [hr] at hu
        cases hu
      | some r =>
        rw [hr] at hu
        exact ClassInv_rateScalingTail now r u
          (ClassInv_applyIndex r (ClassInv_of_control (mcsScalingStep_control _ _ r hr) ht)) hu

theorem ClassInv_txRecord (t : State) (success failed : Int) (ampdu : Bool)
    (h : ClassInv t) : ClassInv (txRecord t success failed ampdu) := by
  unfold txRecord
  dsimp only
  generalize (if ampdu = true ∧ success = 0 then (1 : Int) else failed) = failed1
  have hc : (recordLoop (recordLoop t success true) failed1 false).control = t.control := by
    rw [control_recordLoop, control_recordLoop]
  have h2 := ClassInv_of_control hc h
  by_cases hs : (recordLoop (recordLoop t success true) failed1 false).s =
      RS_STATE_STAY_IN_COLUMN
  · rw [if_pos hs]
    exact ClassInv_congr rfl rfl h2
  · rw [if_neg hs]
    exact h2

/-- In every state reachable by reports the rate class is Legacy-G exactly when the mode is
Legacy. -/
theorem ClassInv_reachable (maxWidth : Int) (u : State) (h : Reachable maxWidth u) :
    ClassInv u := by
  induction h with
  | init => exact ⟨fun _ => rfl, fun _ => rfl⟩
  | report now t u success failed ampdu _ htx ih =>
    exact ClassInv_RateScaling now _ u (ClassInv_txRecord t success failed ampdu ih) htx

/-! ## getAdjacentRatesIndexes outside the Legacy class (C31) -/

/-- The search loop of `getAdjacentRatesIndexes` only creates histories: the state it
returns reads like the state it started from. -/
theorem history_scanRates (l : List Int) (t : State) (j : Int) :
    (scanRates t l).2.history j = t.history j := by
  induction l generalizing t with
  | nil => rfl
  | cons i rest ih =>
    rw [scanRates]
    split_ifs
    · exact history_touchHistory t i j
    · rw [ih, history_touchHistory]

/-- The downward loop over `n - 1, ..., 0`: the greatest position below `n` with a
non-zero ceiling, or `INVALID_INDEX`. -/
theorem scanRates_down (t : State) :
    ∀ (n : Nat) (u : State), (∀ j, u.history j = t.history j) →
      ((scanRates u ((List.range n).reverse.map Int.ofNat)).1 = -1 ∧
        ∀ j : Int, 0 ≤ j → j < n → (t.history j).get_max_throughput = 0) ∨
      (0 ≤ (scanRates u ((List.range n).reverse.map Int.ofNat)).1 ∧
        (scanRates u ((List.range n).reverse.map Int.ofNat)).1 < n ∧
        (t.history (scanRates u ((List.range n).reverse.map Int.ofNat)).1).get_max_throughput
          ≠ 0 ∧
        ∀ j : Int, (scanRates u ((List.range n).reverse.map Int.ofNat)).1 < j → j < n →
          (t.history j).get_max_throughput = 0) := by
  intro n
  induction n with
  | zero =>
    intro u _
    left
    exact ⟨rfl, fun j h0 h1 => by simp at h1; omega⟩
  | succ n ih =>
    intro u hu
    have hl : (List.range (n + 1)).reverse.map Int.ofNat =
        Int.ofNat n :: (List.range n).reverse.map Int.ofNat := by
      rw [List.range_succ, List.reverse_append]
      rfl
    rw [hl, scanRates]
    by_cases hc : ((u.touchHistory (Int.ofNat n)).history (Int.ofNat n)).get_max_throughput ≠ 0
    · rw [if_pos hc]
      right
      rw [history_touchHistory, hu] at hc
      refine ⟨by simp, by simp, hc, ?_⟩
      intro j h1 h2
      simp at h1 h2
      omega
    · rw [if_neg hc]
      rw [history_touchHistory, hu] at hc
      have hz : (t.history (Int.ofNat n)).get_max_throughput = 0 := by
        by_contra h
        exact hc h
      rcases ih (u.touchHistory (Int.ofNat n))
        (fun j => by rw [history_touchHistory, hu]) with ⟨h1, h2⟩ | ⟨h1, h2, h3, h4⟩
      · left
        refine ⟨h1, ?_⟩
        intro j hj0 hjn
        by_cases hjeq : j = Int.ofNat n
        · rw [hjeq]; exact hz
        · exact h2 j hj0 (by
            have : j < ((n + 1 : Nat) : Int) := hjn
            have h5 : Int.ofNat n = (n : Int) := rfl
            rw [h5] at hjeq
            push_cast at this
            omega)
      · right
        refine ⟨h1, by push_cast; omega, h3, ?_⟩
        intro j hlo hjn
        by_cases hjeq : j = Int.ofNat n
        · rw [hjeq]; exact hz
        · exact h4 j hlo (by
            have : j < ((n + 1 : Nat) : Int) := hjn
            have h5 : Int.ofNat n = (n : Int) := rfl
            rw [h5] at hjeq
            push_cast at this
            omega)

theorem range_shift (b : Int) (m : Nat) :
    (List.range (m + 1)).map (fun k => b + 1 + Int.ofNat k) =
      (b + 1) :: (List.range m).map (fun k => (b + 1) + 1 + Int.ofNat k) := by
  rw [List.range_succ_eq_map, List.map_cons, List.map_map]
  congr 1
  · simp
  · apply List.map_congr_left
    intro k _
    show b + 1 + Int.ofNat (k + 1) = b + 1 + 1 + Int.ofNat k
    have h1 : Int.ofNat (k + 1) = (k : Int) + 1 := rfl
    have h2 : Int.ofNat k = (k : Int) := rfl
    rw [h1, h2]
    ring

/-- The upward loop over `b + 1, ..., b + m`: the least position above `b` with a non-zero
ceiling, or `INVALID_INDEX`. -/
theorem scanRates_up (t : State) :
    ∀ (m : Nat) (b : Int) (u : State), (∀ j, u.history j = t.history j) →
      ((scanRates u ((List.range m).map (fun k => b + 1 + Int.ofNat k))).1 = -1 ∧
        ∀ j : Int, b < j → j ≤ b + m → (t.history j).get_max_throughput = 0) ∨
      (b < (scanRates u ((List.range m).map (fun k => b + 1 + Int.ofNat k))).1 ∧
        (scanRates u ((List.range m).map (fun k => b + 1 + Int.ofNat k))).1 ≤ b + m ∧
        (t.history (scanRates u
          ((List.range m).map (fun k => b + 1 + Int.ofNat k))).1).get_max_throughput ≠ 0 ∧
        ∀ j : Int, b < j →
          j < (scanRates u ((List.range m).map (fun k => b + 1 + Int.ofNat k))).1 →
          (t.history j).get_max_throughput = 0) := by
  intro m
  induction m with
  | zero =>
    intro b u _
    left
    exact ⟨rfl, fun j h0 h1 => by simp at h1; omega⟩
  | succ m ih =>
    intro b u hu
    rw [range_shift, scanRates]
    by_cases hc : ((u.touchHistory (b + 1)).history (b + 1)).get_max_throughput ≠ 0
    · rw [if_pos hc]
      right
      rw [history_touchHistory, hu] at hc
      refine ⟨by omega, by push_cast; omega, hc, ?_⟩
      intro j h1 h2
      omega
    · rw [if_neg hc]
      rw [history_touchHistory, hu] at hc
      have hz : (t.history (b + 1)).get_max_throughput = 0 := by
        by_contra h
        exact hc h
      rcases ih (b + 1) (u.touchHistory (b + 1))
        (fun j => by rw [history_touchHistory, hu]) with ⟨h1, h2⟩ | ⟨h1, h2, h3, h4⟩
      · left
        refine ⟨h1, ?_⟩
        intro j hj0 hjn
        by_cases hjeq : j = b + 1
        · rw [hjeq]; exact hz
        · exact h2 j (by omega) (by push_cast at hjn; omega)
      · right
        refine ⟨by omega, by push_cast; omega, h3, ?_⟩
        intro j hlo hjn
        by_cases hjeq : j = b + 1
        · rw [hjeq]; exact hz
        · exact h4 j (by omega) hjn

/-- C31: in every state reachable by reports the rate class is not Legacy-G exactly when the
mode is not Legacy; and in every state outside the Legacy class (`type` is not `LEGACY_G`)
`getAdjacentRatesIndexes` returns; the lower neighbour is the greatest index `j` with
`0 ≤ j < index` whose history has a non-zero ceiling, or -1 when there is none; the higher
neighbour is the least index `j` with `index < j ≤ max` whose history has a non-zero
ceiling, or -1 when there is none, where `max` is 13 at 20 MHz outside Legacy mode and 14
otherwise. -/
theorem getAdjacentRatesIndexes_non_legacy :
    (∀ (maxWidth : Int) (t : State), Reachable maxWidth t →
      (t.type ≠ LEGACY_G ↔ t.mode ≠ LEGACY)) ∧
    ∀ t : State, t.type ≠ LEGACY_G →
      ∃ lo hi u, getAdjacentRatesIndexes t = some ((lo, hi), u) ∧
        ((lo = -1 ∧ ∀ j : Int, 0 ≤ j → j < t.index → (t.history j).get_max_throughput = 0) ∨
          (0 ≤ lo ∧ lo < t.index ∧ (t.history lo).get_max_throughput ≠ 0 ∧
            ∀ j : Int, lo < j → j < t.index → (t.history j).get_max_throughput = 0)) ∧
        ((hi = -1 ∧ ∀ j : Int, t.index < j →
            j ≤ (if t.bandWidth = 20 ∧ t.mode ≠ LEGACY then 13 else 14) →
            (t.history j).get_max_throughput = 0) ∨
          (t.index < hi ∧ hi ≤ (if t.bandWidth = 20 ∧ t.mode ≠ LEGACY then 13 else 14) ∧
            (t.history hi).get_max_throughput ≠ 0 ∧
            ∀ j : Int, t.index < j → j < hi → (t.history j).get_max_throughput = 0)) := by
  refine ⟨fun maxWidth t ht => not_congr (ClassInv_reachable maxWidth t ht), ?_⟩
  intro t htype
  unfold getAdjacentRatesIndexes
  dsimp only
  rw [if_pos htype]
  generalize hmax : (if t.bandWidth = 20 ∧ t.mode ≠ LEGACY then (13 : Int) else 14) = mx
  refine ⟨_, _, _, rfl, ?_, ?_⟩
  · rcases scanRates_down t t.index.toNat t (fun _ => rfl) with ⟨h1, h2⟩ | ⟨h1, h2, h3, h4⟩
    · left
      exact ⟨h1, fun j h0 hj => h2 j h0 (by omega)⟩
    · right
      exact ⟨h1, by omega, h3, fun j hlo hj => h4 j hlo (by omega)⟩
  · rcases scanRates_up t (mx - t.index).toNat t.index
      (scanRates t ((List.range t.index.toNat).reverse.map Int.ofNat)).2
      (fun j => history_scanRates _ t j) with ⟨h1, h2⟩ | ⟨h1, h2, h3, h4⟩
    · left
      exact ⟨h1, fun j h0 hj => h2 j h0 (by omega)⟩
    · right
      exact ⟨h1, by omega, h3, h4⟩

set_option maxRecDepth 100000 in
/-- Witness of C31: in SISO at 20 MHz and rate index 4 the neighbours are -1 and 6. -/
theorem getAdjacentRatesIndexes_non_legacy_witness :
    (getAdjacentRatesIndexes
      (withSlots { State.default with mode := SISO, type := NONE, index := 4 } [])).map
        Prod.fst = some (-1, 6) ∧
    ∃ lo hi u, getAdjacentRatesIndexes
        (withSlots { State.default with mode := SISO, type := NONE, index := 4 } []) =
          some ((lo, hi), u) ∧ 0 ≤ hi :=
  ⟨by decide,
    (getAdjacentRatesIndexes_non_legacy.2
      (withSlots { State.default with mode := SISO, type := NONE, index := 4 } [])
      (by decide)).elim fun lo h => h.elim fun hi h2 => h2.elim fun u h3 =>
        ⟨lo, hi, u, h3.1, by
          rcases h3.2.2 with ⟨h4, h5⟩ | ⟨h4, _⟩
          · exact absurd (h5 6 (by decide) (by decide)) (by decide)
          · have : (withSlots { State.default with mode := SISO, type := NONE, index := 4 }
                []).index = 4 := rfl
            omega⟩⟩

/-! ## A trial is active only in SearchCycleStarted (C35) -/

/-- C35: in every state reachable from `State(maxWidth)` by reports an active column trial
implies phase SearchCycleStarted, so in StayInColumn no trial is active; and in every
report made in a reachable state the state on which `RateScaling` evaluates
`stay_in_table` has no trial active whenever it is in StayInColumn: the state after the
recording when the average throughput is unknown, the state after the first half of
`RateScaling` (where the trial flag is always cleared) otherwise. -/
theorem trial_only_in_search :
    (∀ (maxWidth : Int) (u : State), Reachable maxWidth u →
      (u.columnScaling = true → u.s = RS_STATE_SEARCH_CYCLE_STARTED) ∧
      (u.s = RS_STATE_STAY_IN_COLUMN → u.columnScaling = false)) ∧
    (∀ (maxWidth : Int) (t : State) (success failed : Int) (ampdu : Bool),
      Reachable maxWidth t →
      (((txRecord t success failed ampdu).touchHistory
          (txRecord t success failed ampdu).index).s = RS_STATE_STAY_IN_COLUMN →
        ((txRecord t success failed ampdu).touchHistory
          (txRecord t success failed ampdu).index).columnScaling = false) ∧
      (∀ r : State × Bool × Bool × Int,
        (if (txRecord t success failed ampdu).columnScaling = true then
            some (columnTrialStep ((txRecord t success failed ampdu).touchHistory
              (txRecord t success failed ampdu).index) (txRecord t success failed ampdu).index)
          else mcsScalingStep ((txRecord t success failed ampdu).touchHistory
              (txRecord t success failed ampdu).index)
            (txRecord t success failed ampdu).index) = some r →
        (applyIndex r).columnScaling = false)) := by
  have key : ∀ X : State, VisitedInv X →
      (X.columnScaling = true → X.s = RS_STATE_SEARCH_CYCLE_STARTED) ∧
      (X.s = RS_STATE_STAY_IN_COLUMN → X.columnScaling = false) := by
    intro X hX
    refine ⟨fun h => (hX.2.2.1 h).1, fun hs => ?_⟩
    cases hcs : X.columnScaling with
    | false => rfl
    | true =>
      have h1 := (hX.2.2.1 hcs).1
      rw [hs] at h1
      exact absurd h1 (by decide)
  refine ⟨fun w u h => key u (VisitedInv_reachable w u h), ?_⟩
  intro w t success failed ampdu ht
  have h1 := VisitedInv_txRecord t success failed ampdu (VisitedInv_reachable w t ht)
  generalize txRecord t success failed ampdu = t1 at h1
  have h2 : VisitedInv (t1.touchHistory t1.index) :=
    VisitedInv_of_control (control_touchHistory _ _) h1
  refine ⟨(key _ h2).2, ?_⟩
  intro r hr
  by_cases hcs : t1.columnScaling = true
  · rw [if_pos hcs] at hr
    cases hr
    by_cases hk : ((t1.touchHistory t1.index).history (t1.touchHistory t1.index).index).average_tpt
        > (t1.touchHistory t1.index).last_tpt
    · rw [applyIndex_columnTrialStep_keep _ _ hk]
    · rw [applyIndex_columnTrialStep_back _ _ hk]
  · rw [if_neg hcs] at hr
    have hc := mcsScalingStep_control _ _ r hr
    rw [control_touchHistory] at hc
    rw [(applyIndex_control_index r).2.2.2.1, columnScaling_of_control hc]
    simpa using hcs

/-- Witness of C35 at the reachable state in which the run `legacyTrialReports` ends, where
a trial is active. -/
theorem trial_only_in_search_witness :
    (legacyTrialState.columnScaling = true →
      legacyTrialState.s = RS_STATE_SEARCH_CYCLE_STARTED) ∧
    (legacyTrialState.s = RS_STATE_STAY_IN_COLUMN → legacyTrialState.columnScaling = false) :=
  trial_only_in_search.1 40 legacyTrialState legacyTrialState_reachable

/-! ## The set of history keys (C32) -/

set_option maxRecDepth 1000000 in
set_option maxHeartbeats 4000000 in
/-- C32 (defect in the code): the constructor creates one empty history for each of the 33
tables, whose keys are pairwise different, and each of its 15 indices, carrying the
table's value at that index; but the eighteen reports `legacyTrialReports` take a station
of maximum width 40 into a reachable state with 510 histories instead of 495: the 15 keys
(Legacy, 40 MHz, long GI, no aggregation, i), absent after the constructor, hold
default-constructed histories. -/
theorem history_keys_grow :
    (∀ maxWidth : Int, (ofMaxWidth maxWidth).Histories =
      buildTheoreticalThroughputTables.flatMap fun t =>
        (List.range t.2.length).map fun (i : Nat) =>
          ((t.1.1, t.1.2.1, t.1.2.2.1, t.1.2.2.2, Int.ofNat i),
            History.ofMax (t.2.getD i 0))) ∧
    buildTheoreticalThroughputTables.length = 33 ∧
    (buildTheoreticalThroughputTables.map Prod.fst).Nodup ∧
    (∀ p ∈ buildTheoreticalThroughputTables, p.2.length = 15) ∧
    (ofMaxWidth 40).Histories.length = 495 ∧
    reports (some (ofMaxWidth 40)) legacyTrialReports = some legacyTrialState ∧
    Reachable 40 legacyTrialState ∧
    legacyTrialState.Histories.length = 510 ∧
    (∀ i ∈ List.range 15,
      amFind (LEGACY, 40, LGI, NO_AGG, Int.ofNat i) (ofMaxWidth 40).Histories = Option.none ∧
      amFind (LEGACY, 40, LGI, NO_AGG, Int.ofNat i) legacyTrialState.Histories =
        some History.empty) := by
  have hH : ∀ maxWidth : Int, (ofMaxWidth maxWidth).Histories = slotList [] := by
    intro maxWidth
    have h := congrArg State.Histories (ofMaxWidth_withSlots maxWidth)
    exact h
  refine ⟨?_, by decide, by decide, by decide, ?_, legacyTrial_full,
    legacyTrialState_reachable, ?_, ?_⟩
  · intro maxWidth
    rw [hH]
    rfl
  · rw [hH]
    decide!
  · decide!
  · rw [hH]
    decide!

/-! ## The Legacy adjacency table (C37) -/

set_option maxRecDepth 100000 in
/-- C37: with `c i` the ceiling of index `i` in the Legacy table, for every index `i` in
0..11 the higher neighbour of `legacy_g_mapping`, when it is not -1, is an index in 0..11
with a strictly greater ceiling, and the lower neighbour, when it is not -1, an index in
0..11 with a strictly smaller one; index 0 alone has no lower neighbour and index 11 alone
no higher one; and from every index at most 11 steps to the higher neighbour reach 11 and
at most 11 steps to the lower neighbour reach 0. -/
theorem legacy_g_mapping_monotone :
    legacy_g_mapping.length = 12 ∧
    (∀ i ∈ List.range 12,
      ((legacy_g_mapping.getD i (-1, -1)).2 ≠ -1 →
        0 ≤ (legacy_g_mapping.getD i (-1, -1)).2 ∧ (legacy_g_mapping.getD i (-1, -1)).2 ≤ 11 ∧
        ((amAt [] (LEGACY, BW_20, LGI, NO_AGG) buildTheoreticalThroughputTables).getD
          (legacy_g_mapping.getD i (-1, -1)).2.toNat 0) >
          (amAt [] (LEGACY, BW_20, LGI, NO_AGG) buildTheoreticalThroughputTables).getD i 0) ∧
      ((legacy_g_mapping.getD i (-1, -1)).1 ≠ -1 →
        0 ≤ (legacy_g_mapping.getD i (-1, -1)).1 ∧ (legacy_g_mapping.getD i (-1, -1)).1 ≤ 11 ∧
        ((amAt [] (LEGACY, BW_20, LGI, NO_AGG) buildTheoreticalThroughputTables).getD
          (legacy_g_mapping.getD i (-1, -1)).1.toNat 0) <
          (amAt [] (LEGACY, BW_20, LGI, NO_AGG) buildTheoreticalThroughputTables).getD i 0) ∧
      ((legacy_g_mapping.getD i (-1, -1)).1 = -1 ↔ i = 0) ∧
      ((legacy_g_mapping.getD i (-1, -1)).2 = -1 ↔ i = 11)) ∧
    (∀ i ∈ List.range 12, ∃ n ∈ List.range 12,
      Nat.iterate (fun j : Int => (legacy_g_mapping.getD j.toNat (-1, -1)).2) n (Int.ofNat i)
        = 11) ∧
    (∀ i ∈ List.range 12, ∃ n ∈ List.range 12,
      Nat.iterate (fun j : Int => (legacy_g_mapping.getD j.toNat (-1, -1)).1) n (Int.ofNat i)
        = 0) := by
  refine ⟨by decide, by decide, by decide, by decide⟩

/-! ## Timed expiry with the flush timestamp 0 (C38) -/

/-- In StayInColumn with the flush timestamp 0, no trial active and both resident counters
within their limits, `stay_in_table` leaves phase and timestamp as they are. -/
theorem stay_in_table_zero_timer (now : Int) (t : State) (hs : t.s = RS_STATE_STAY_IN_COLUMN)
    (hft : t.flush_timer = 0) (hf : ¬ t.total_failed > t.getMaxFailureLimit)
    (hsu : ¬ t.total_success > t.getMaxSuccessLimit) :
    (stay_in_table now t).s = RS_STATE_STAY_IN_COLUMN ∧ (stay_in_table now t).flush_timer = 0 := by
  have hx : ¬ (t.total_failed > t.getMaxFailureLimit ∨ t.total_success > t.getMaxSuccessLimit ∨
      (t.columnScaling = false ∧ flush_interval_passed now t = true)) := by
    rintro (h | h | ⟨_, h⟩)
    · exact hf h
    · exact hsu h
    · exact ((flush_interval_passed_iff now t).mp h).1 hft
  rw [stay_in_table_not_expired now t hs hx]
  by_cases hc : t.table_count + 1 > t.getTableCountLimit
  · rw [if_pos hc]
    exact ⟨(s_of_control (control_clearHistories _)).trans hs,
      (flush_timer_of_control (control_clearHistories _)).trans hft⟩
  · rw [if_neg hc]
    exact ⟨hs, hft⟩

theorem limits_of_mode {a b : State} (h : a.mode = b.mode) :
    a.getMaxFailureLimit = b.getMaxFailureLimit ∧ a.getMaxSuccessLimit = b.getMaxSuccessLimit := by
  unfold getMaxFailureLimit getMaxSuccessLimit
  rw [h]
  exact ⟨rfl, rfl⟩

theorem applyIndex_resident (r : State × Bool × Bool × Int) :
    (applyIndex r).s = r.1.s ∧ (applyIndex r).flush_timer = r.1.flush_timer ∧
    (applyIndex r).total_failed = r.1.total_failed ∧
    (applyIndex r).total_success = r.1.total_success ∧ (applyIndex r).mode = r.1.mode := by
  unfold applyIndex
  split_ifs <;> exact ⟨rfl, rfl, rfl, rfl, rfl⟩

theorem txRecord_control_fields (t : State) (success failed : Int) (ampdu : Bool) :
    (txRecord t success failed ampdu).flush_timer = t.flush_timer ∧
    (txRecord t success failed ampdu).columnScaling = t.columnScaling ∧
    (txRecord t success failed ampdu).mode = t.mode := by
  unfold txRecord
  dsimp only
  generalize (if ampdu = true ∧ success = 0 then (1 : Int) else failed) = failed1
  have hc : (recordLoop (recordLoop t success true) failed1 false).control = t.control := by
    rw [control_recordLoop, control_recordLoop]
  have h1 := flush_timer_of_control hc
  have h2 := columnScaling_of_control hc
  have h3 := mode_of_control hc
  by_cases hs : (recordLoop (recordLoop t success true) failed1 false).s =
      RS_STATE_STAY_IN_COLUMN
  · rw [if_pos hs]
    exact ⟨h1, h2, h3⟩
  · rw [if_neg hs]
    exact ⟨h1, h2, h3⟩

/-- C38: `set_stay_in_table` at clock value 0 records the flush timestamp 0; in
StayInColumn with the flush timestamp 0, at every clock value, `stay_in_table` expires the
phase exactly when one of the two resident counters exceeds its limit; and a report made
in such a state with no trial active, at any clock value, either returns in StayInColumn
with the flush timestamp still 0 or finds, after it has recorded its outcomes, one of the
two resident counters above its limit. -/
theorem timed_expiry_off_at_zero :
    (∀ t : State, (set_stay_in_table 0 t).s = RS_STATE_STAY_IN_COLUMN ∧
      (set_stay_in_table 0 t).flush_timer = 0) ∧
    (∀ (now : Int) (t : State), t.s = RS_STATE_STAY_IN_COLUMN → t.flush_timer = 0 →
      ((stay_in_table now t).s = RS_STATE_SEARCH_CYCLE_STARTED ↔
        (t.total_failed > t.getMaxFailureLimit ∨ t.total_success > t.getMaxSuccessLimit))) ∧
    (∀ (now : Int) (t u : State) (success failed : Int) (ampdu : Bool),
      t.s = RS_STATE_STAY_IN_COLUMN → t.flush_timer = 0 → t.columnScaling = false →
      tx now t success failed ampdu = some u →
      (u.s = RS_STATE_STAY_IN_COLUMN ∧ u.flush_timer = 0) ∨
      (txRecord t success failed ampdu).total_failed >
        (txRecord t success failed ampdu).getMaxFailureLimit ∨
      (txRecord t success failed ampdu).total_success >
        (txRecord t success failed ampdu).getMaxSuccessLimit) := by
  refine ⟨fun t => ⟨rfl, rfl⟩, ?_, ?_⟩
  · intro now t hs hft
    rw [stay_in_table_s_iff now t hs]
    constructor
    · rintro (h | h | ⟨_, h⟩)
      · exact Or.inl h
      · exact Or.inr h
      · exact absurd hft ((flush_interval_passed_iff now t).mp h).1
    · rintro (h | h)
      · exact Or.inl h
      · exact Or.inr (Or.inl h)
  · intro now t u success failed ampdu hs hft hcs htx
    by_cases hf : (txRecord t success failed ampdu).total_failed >
        (txRecord t success failed ampdu).getMaxFailureLimit
    · exact Or.inr (Or.inl hf)
    by_cases hsu : (txRecord t success failed ampdu).total_success >
        (txRecord t success failed ampdu).getMaxSuccessLimit
    · exact Or.inr (Or.inr hsu)
    left
    obtain ⟨hft1, hcs1, _⟩ := txRecord_control_fields t success failed ampdu
    have hs1 : (txRecord t success failed ampdu).s = RS_STATE_STAY_IN_COLUMN := by
      rw [txRecord_s]; exact hs
    rw [hft] at hft1
    rw [hcs] at hcs1
    unfold tx at htx
    generalize txRecord t success failed ampdu = t1 at htx hf hsu hft1 hcs1 hs1
    have hX : ∀ Y : State, Y.s = t1.s → Y.flush_timer = t1.flush_timer →
        Y.total_failed = t1.total_failed → Y.total_success = t1.total_success →
        Y.mode = t1.mode →
        (stay_in_table now Y).s = RS_STATE_STAY_IN_COLUMN ∧
          (stay_in_table now Y).flush_timer = 0 := by
      intro Y h1 h2 h3 h4 h5
      obtain ⟨l1, l2⟩ := limits_of_mode h5
      exact stay_in_table_zero_timer now Y (h1.trans hs1) (h2.trans hft1)
        (by rw [h3, l1]; exact hf) (by rw [h4, l2]; exact hsu)
    by_cases hav : (t1.history t1.index).average_tpt = -1
    · rw [RateScaling_of_unknown now t1 hav] at htx
      cases htx
      exact hX _ rfl rfl rfl rfl rfl
    · rw [RateScaling_known now t1 hav, if_neg (by rw [hcs1]; exact Bool.false_ne_true)] at htx
      cases hr : mcsScalingStep (t1.touchHistory t1.index) t1.index with
      | none =>
        rw [hr] at htx
        cases htx
      | some r =>
        rw [hr] at htx
        dsimp only at htx
        have hc := mcsScalingStep_control _ _ r hr
        rw [control_touchHistory] at hc
        obtain ⟨a1, a2, a3, a4, a5⟩ := applyIndex_resident r
        have hS := hX (applyIndex r) (a1.trans (s_of_control hc))
          (a2.trans (flush_timer_of_control hc)) (a3.trans (total_failed_of_control hc))
          (a4.trans (total_success_of_control hc)) (a5.trans (mode_of_control hc))
        rw [rateScalingTail_no_search now r (fun h => by
          rw [hS.1] at h
          exact absurd h.2.2 (by decide))] at htx
        rw [if_neg (fun h => by
          rw [hS.1] at h
          exact absurd h.2 (by decide))] at htx
        cases htx
        exact hS

/-- Witness of C38: a state in StayInColumn with flush timestamp 0 and 500 recorded
failures, above the Legacy limit, expires at a late clock value. -/
theorem timed_expiry_off_at_zero_witness :
    (stay_in_table 99000000000
      { State.default with
        s := RS_STATE_STAY_IN_COLUMN
        total_failed := 500 }).s = RS_STATE_SEARCH_CYCLE_STARTED :=
  (timed_expiry_off_at_zero.2.1 99000000000
    { State.default with
      s := RS_STATE_STAY_IN_COLUMN
      total_failed := 500 } rfl rfl).mpr (Or.inl (by decide))

/-! ## Histories shared between columns (C39) -/

theorem amAt_iterate_record_other (b : Bool) (k : HistKey) (n : Nat) (t : State)
    (hk : k ≠ t.histKey t.index) :
    amAt History.empty k
      (Nat.iterate (fun u : State => u.setHistory u.index ((u.history u.index).tx b)) n
        t).Histories = amAt History.empty k t.Histories := by
  induction n generalizing t with
  | zero => rfl
  | succ n ih =>
    rw [Function.iterate_succ_apply, ih (t.setHistory t.index ((t.history t.index).tx b)) hk,
      amAt_setHistory, if_neg hk]

/-- A recording loop changes the history of the current slot only. -/
theorem amAt_recordLoop (t : State) (n : Int) (b : Bool) (k : HistKey) :
    amAt History.empty k (recordLoop t n b).Histories =
      if k = t.histKey t.index then (t.history t.index).txLoop n b
      else amAt History.empty k t.Histories := by
  by_cases hk : k = t.histKey t.index
  · rw [if_pos hk, hk]
    have h1 := history_recordLoop t n b
    unfold history at h1
    have h2 : (recordLoop t n b).histKey t.index = t.histKey t.index :=
      (iterate_record_history b n.toNat t).1
    rw [h2] at h1
    exact h1
  · rw [if_neg hk]
    exact amAt_iterate_record_other b k n.toNat t hk

/-- The recording of a report changes the history of the current slot only. -/
theorem amAt_txRecord (t : State) (success failed : Int) (ampdu : Bool) (k : HistKey) :
    amAt History.empty k (txRecord t success failed ampdu).Histories =
      if k = t.histKey t.index then recordReport (t.history t.index) success failed ampdu
      else amAt History.empty k t.Histories := by
  unfold txRecord recordReport
  dsimp only
  generalize (if ampdu = true ∧ success = 0 then (1 : Int) else failed) = failed1
  have hH : (if (recordLoop (recordLoop t success true) failed1 false).s =
        RS_STATE_STAY_IN_COLUMN then
      { recordLoop (recordLoop t success true) failed1 false with
        total_success := (recordLoop (recordLoop t success true) failed1 false).total_success
          + success
        total_failed := (recordLoop (recordLoop t success true) failed1 false).total_failed
          + failed1 }
      else recordLoop (recordLoop t success true) failed1 false).Histories =
      (recordLoop (recordLoop t success true) failed1 false).Histories := by
    by_cases hs : (recordLoop (recordLoop t success true) failed1 false).s =
        RS_STATE_STAY_IN_COLUMN
    · rw [if_pos hs]
    · rw [if_neg hs]
  rw [hH, amAt_recordLoop]
  have hc := control_recordLoop t success true
  have hkey : (recordLoop t success true).histKey (recordLoop t success true).index =
      t.histKey t.index := by
    rw [index_of_control hc]
    exact histKey_of_control hc t.index
  have hhist : (recordLoop t success true).history (recordLoop t success true).index =
      (t.history t.index).txLoop success true := by
    rw [index_of_control hc]
    exact history_recordLoop t success true
  rw [hkey, hhist, amAt_recordLoop]
  by_cases hk : k = t.histKey t.index
  · simp only [if_pos hk]
  · simp only [if_neg hk]

theorem control_txRecord (t : State) (success failed : Int) (ampdu : Bool)
    (hs : t.s ≠ RS_STATE_STAY_IN_COLUMN) :
    (txRecord t success failed ampdu).control = t.control := by
  unfold txRecord
  dsimp only
  generalize (if ampdu = true ∧ success = 0 then (1 : Int) else failed) = failed1
  have hc : (recordLoop (recordLoop t success true) failed1 false).control = t.control := by
    rw [control_recordLoop, control_recordLoop]
  rw [if_neg (by rw [s_of_control hc]; exact hs)]
  exact hc

/-- A report made while a column trial is active, in phase SearchCycleStarted: it
returns; the history map reads as before except at the current slot, which holds the
recorded outcomes; and the scalar fields are unchanged (the trial goes on), or only the
trial flag is cleared (the column is kept), or the snapshot is restored (rollback). -/
theorem trial_report (now : Int) (v : State) (success failed : Int) (ampdu : Bool)
    (hs : v.s = RS_STATE_SEARCH_CYCLE_STARTED) (hcs : v.columnScaling = true) :
    ∃ w, tx now v success failed ampdu = some w ∧
      (∀ k, amAt History.empty k w.Histories =
        if k = v.histKey v.index then recordReport (v.history v.index) success failed ampdu
        else amAt History.empty k v.Histories) ∧
      (w.control = v.control ∨
        w.control = { v.control with columnScaling := false } ∨
        w.control = { v.control with
          mode := v.oldColumnParameters.1
          antennas := v.oldColumnParameters.2.1
          guardInterval := v.oldColumnParameters.2.2.1
          bandWidth := v.oldColumnParameters.2.2.2.2
          type := if v.oldColumnParameters.1 = LEGACY then LEGACY_G else NONE
          columnScaling := false
          index := v.oldColumnParameters.2.2.2.1 }) := by
  have hns : v.s ≠ RS_STATE_STAY_IN_COLUMN := by rw [hs]; decide
  have hXc := control_txRecord v success failed ampdu hns
  have hXr := amAt_txRecord v success failed ampdu
  unfold tx
  generalize txRecord v success failed ampdu = X at hXc hXr
  have hTc : (X.touchHistory X.index).control = v.control := by
    rw [control_touchHistory, hXc]
  have hTr : ∀ k, amAt History.empty k (X.touchHistory X.index).Histories =
      if k = v.histKey v.index then recordReport (v.history v.index) success failed ampdu
      else amAt History.empty k v.Histories := by
    intro k
    rw [← hXr k]
    exact amAt_amTouch _ _ _ _
  have hTs : (X.touchHistory X.index).s = RS_STATE_SEARCH_CYCLE_STARTED :=
    (s_of_control hTc).trans hs
  have hXcs : X.columnScaling = true := (columnScaling_of_control hXc).trans hcs
  have hold : (X.touchHistory X.index).oldColumnParameters = v.oldColumnParameters :=
    oldColumnParameters_of_control hTc
  by_cases hav : (X.history X.index).average_tpt = -1
  · rw [RateScaling_of_unknown now X hav,
      stay_in_table_other_phase now (X.touchHistory X.index) (by rw [hTs]; decide)]
    exact ⟨_, rfl, hTr, Or.inl hTc⟩
  · have hdone : (columnTrialStep (X.touchHistory X.index) X.index).2.2.1 = true := by
      unfold columnTrialStep
      split_ifs <;> rfl
    have hAs : (applyIndex (columnTrialStep (X.touchHistory X.index) X.index)).s =
        RS_STATE_SEARCH_CYCLE_STARTED := by
      rw [applyIndex_s, columnTrialStep_s]
      exact hTs
    have hst : stay_in_table now (applyIndex (columnTrialStep (X.touchHistory X.index) X.index))
        = applyIndex (columnTrialStep (X.touchHistory X.index) X.index) :=
      stay_in_table_other_phase now _ (by rw [hAs]; decide)
    rw [RateScaling_known now X hav, if_pos hXcs]
    dsimp only
    rw [rateScalingTail_no_search now _ (by rw [hdone]; simp), hst,
      if_neg (by rw [hAs]; simp)]
    by_cases hk : ((X.touchHistory X.index).history (X.touchHistory X.index).index).average_tpt
        > (X.touchHistory X.index).last_tpt
    · rw [applyIndex_columnTrialStep_keep _ _ hk]
      refine ⟨_, rfl, hTr, Or.inr (Or.inl ?_)⟩
      show ({ (X.touchHistory X.index).control with columnScaling := false } : State) = _
      rw [hTc]
    · rw [applyIndex_columnTrialStep_back _ _ hk]
      refine ⟨_, rfl, hTr, Or.inr (Or.inr ?_)⟩
      show ({ (X.touchHistory X.index).control with
          mode := (X.touchHistory X.index).oldColumnParameters.1
          antennas := (X.touchHistory X.index).oldColumnParameters.2.1
          guardInterval := (X.touchHistory X.index).oldColumnParameters.2.2.1
          bandWidth := (X.touchHistory X.index).oldColumnParameters.2.2.2.2
          type := if (X.touchHistory X.index).oldColumnParameters.1 = LEGACY then LEGACY_G
            else NONE
          columnScaling := false
          index := (X.touchHistory X.index).oldColumnParameters.2.2.2.1 } : State) = _
      rw [hold, hTc]

/-- A run of reports that starts with a column trial active in phase SearchCycleStarted, the
trial being still active before each of its reports: the history map reads as before except
at the slot of the trial, which holds the outcomes recorded by the run; the scalar fields are
unchanged, or only the trial flag is cleared, or the snapshot is restored. -/
theorem trial_run (l : List (Int × Int × Int × Bool)) :
    ∀ (v w : State), v.s = RS_STATE_SEARCH_CYCLE_STARTED → v.columnScaling = true →
      reports (some v) l = some w →
      (∀ n, n < l.length →
        ∃ x, reports (some v) (l.take n) = some x ∧ x.columnScaling = true) →
      (∀ k, amAt History.empty k w.Histories =
        if k = v.histKey v.index then recordReports (v.history v.index) l
        else amAt History.empty k v.Histories) ∧
      (w.control = v.control ∨
        w.control = { v.control with columnScaling := false } ∨
        w.control = { v.control with
          mode := v.oldColumnParameters.1
          antennas := v.oldColumnParameters.2.1
          guardInterval := v.oldColumnParameters.2.2.1
          bandWidth := v.oldColumnParameters.2.2.2.2
          type := if v.oldColumnParameters.1 = LEGACY then LEGACY_G else NONE
          columnScaling := false
          index := v.oldColumnParameters.2.2.2.1 }) := by
  induction l with
  | nil =>
    intro v w _ _ h _
    have hw : v = w := Option.some.inj h
    subst hw
    refine ⟨fun k => ?_, Or.inl rfl⟩
    by_cases hk : k = v.histKey v.index
    · rw [if_pos hk, hk]
      rfl
    · rw [if_neg hk]
  | cons r rest ih =>
    intro v w hs hcs h hp
    obtain ⟨x, hx, hxr, hxc⟩ := trial_report r.1 v r.2.1 r.2.2.1 r.2.2.2 hs hcs
    have hstep : ∀ l2, reports (some v) (r :: l2) = reports (some x) l2 := by
      intro l2
      show reports (tx r.1 v r.2.1 r.2.2.1 r.2.2.2) l2 = _
      rw [hx]
    rw [hstep] at h
    cases rest with
    | nil =>
      have hw : x = w := Option.some.inj h
      subst hw
      exact ⟨hxr, hxc⟩
    | cons r2 rest2 =>
      obtain ⟨y, hy, hycs⟩ := hp 1 (by simp)
      have hy2 : reports (some v) (r :: []) = some y := hy
      rw [hstep] at hy2
      have hyx : x = y := Option.some.inj hy2
      subst hyx
      have hxc1 : x.control = v.control := by
        rcases hxc with h1 | h1 | h1
        · exact h1
        · have h2 : x.columnScaling = false := congrArg State.columnScaling h1
          rw [h2] at hycs
          exact absurd hycs (by decide)
        · have h2 : x.columnScaling = false := congrArg State.columnScaling h1
          rw [h2] at hycs
          exact absurd hycs (by decide)
      have hxs : x.s = RS_STATE_SEARCH_CYCLE_STARTED := (s_of_control hxc1).trans hs
      have hp2 : ∀ n, n < (r2 :: rest2).length →
          ∃ z, reports (some x) ((r2 :: rest2).take n) = some z ∧ z.columnScaling = true := by
        intro n hn
        obtain ⟨z, hz, hzc⟩ := hp (n + 1) (by simp at hn ⊢; omega)
        rw [List.take_succ_cons, hstep] at hz
        exact ⟨z, hz, hzc⟩
      obtain ⟨hr, hc⟩ := ih x w hxs hycs h hp2
      have hkey : x.histKey x.index = v.histKey v.index := by
        rw [index_of_control hxc1]
        exact histKey_of_control hxc1 v.index
      have hhist : x.history x.index =
          recordReport (v.history v.index) r.2.1 r.2.2.1 r.2.2.2 := by
        unfold history
        rw [hkey, hxr, if_pos rfl]
        rfl
      refine ⟨fun k => ?_, ?_⟩
      · rw [hr k, hkey, hhist, hxr k]
        by_cases hk : k = v.histKey v.index
        · simp only [if_pos hk]
          rfl
        · simp only [if_neg hk]
      · rw [oldColumnParameters_of_control hxc1, hxc1] at hc
        exact hc

/-- C39: the history key has no antenna component.  When the column search in the state
`P` (phase SearchCycleStarted, rate index within 0..14) starts a trial of a column `c` with
the mode and the guard interval of the current column and the bandwidth is kept (`c` is
Legacy, or the bandwidth is already the device maximum), the state `u` of the trial has the
history keys of `P`, and the histories of all 15 rate indices of the column being left are
empty in it.  For every run of reports from `u` during which the trial is active before
each report, the history map then differs from that of `u` only in the slot of the trial,
which holds the outcomes recorded by the run; and after a rollback (third case) the current
slot is again the slot of `P`, which holds exactly the outcomes recorded by the run when the
trial index was the index of `P`, and nothing otherwise. -/
theorem antenna_switch_shares_histories (P : State) (c : ColKey) (t2 : State)
    (hfind : getNextColumn { P with last_tpt := (P.history P.index).average_tpt }
      P.visited_columns = some ((true, c), t2))
    (hs : P.s = RS_STATE_SEARCH_CYCLE_STARTED)
    (hmode : c.1 = P.mode) (hgi : c.2.2 = P.guardInterval)
    (hbw : c.1 = LEGACY ∨ P.bandWidth = P.maxWidth)
    (hidx : 0 ≤ P.index ∧ P.index ≤ 14) :
    ∃ u, columnSearchStep P = some (u, false) ∧
      u.columnScaling = true ∧ u.antennas = c.2.1 ∧
      (∀ i, u.histKey i = P.histKey i) ∧
      (∀ i, 0 ≤ i → i ≤ 14 → (amAt History.empty (P.histKey i) u.Histories).data = []) ∧
      ∀ (l : List (Int × Int × Int × Bool)) (w : State),
        reports (some u) l = some w →
        (∀ n, n < l.length →
          ∃ x, reports (some u) (l.take n) = some x ∧ x.columnScaling = true) →
        (∀ k, amAt History.empty k w.Histories =
          if k = P.histKey u.index then recordReports (u.history u.index) l
          else amAt History.empty k u.Histories) ∧
        ((w.columnScaling = true ∧ w.colKey = u.colKey ∧ w.index = u.index) ∨
          (w.columnScaling = false ∧ w.colKey = u.colKey ∧ w.index = u.index) ∨
          (w.columnScaling = false ∧ w.colKey = P.colKey ∧ w.index = P.index ∧
            w.histKey w.index = P.histKey P.index ∧
            (u.history P.index).data = [] ∧
            w.history w.index =
              if u.index = P.index then recordReports (u.history P.index) l
              else u.history P.index)) := by
  obtain ⟨u, hstep, hcu, hhist⟩ := columnSearchStep_found P c t2 hfind
  have hum : u.mode = c.1 := by
    have h5 := congrArg State.mode hcu
    exact h5
  have hug : u.guardInterval = c.2.2 := by
    have h5 := congrArg State.guardInterval hcu
    exact h5
  have hub : u.bandWidth = if c.1 = LEGACY then P.bandWidth else P.maxWidth := by
    have h5 := congrArg State.bandWidth hcu
    exact h5
  have hua : u.agg = P.agg := by
    have h5 := congrArg State.agg hcu
    exact h5
  have hucs : u.columnScaling = true := by
    have h5 := congrArg State.columnScaling hcu
    exact h5
  have huant : u.antennas = c.2.1 := by
    have h5 := congrArg State.antennas hcu
    exact h5
  have hus : u.s = RS_STATE_SEARCH_CYCLE_STARTED := by
    have h5 : u.s = P.s := by
      have hcg := congrArg State.s hcu
      exact hcg
    exact h5.trans hs
  have huold : u.oldColumnParameters =
      (P.mode, P.antennas, P.guardInterval, P.index, P.bandWidth) := by
    have h5 := congrArg State.oldColumnParameters hcu
    exact h5
  have hub2 : u.bandWidth = P.bandWidth := by
    rw [hub]
    rcases hbw with h | h
    · rw [if_pos h]
    · by_cases hl : c.1 = LEGACY
      · rw [if_pos hl]
      · rw [if_neg hl, h]
  have hkeys : ∀ i, u.histKey i = P.histKey i := by
    intro i
    unfold histKey
    rw [hum, hug, hub2, hua, hmode, hgi]
  have hempty : ∀ i, 0 ≤ i → i ≤ 14 →
      (amAt History.empty (P.histKey i) u.Histories).data = [] := by
    intro i h0 h14
    have h1 := hhist i h0 h14
    unfold history at h1
    rw [hkeys] at h1
    exact h1
  refine ⟨u, hstep, hucs, huant, hkeys, hempty, ?_⟩
  intro l w hrun hp
  obtain ⟨hr, hc⟩ := trial_run l u w hus hucs hrun hp
  rw [hkeys] at hr
  refine ⟨hr, ?_⟩
  rcases hc with h1 | h1 | h1
  · left
    exact ⟨(columnScaling_of_control h1).trans hucs, colKey_of_control h1,
      index_of_control h1⟩
  · right
    left
    have h2 : w.columnScaling = false := by
      have hcg := congrArg State.columnScaling h1
      exact hcg
    have h3 : w.mode = u.mode := by
      have hcg := congrArg State.mode h1
      exact hcg
    have h4 : w.antennas = u.antennas := by
      have hcg := congrArg State.antennas h1
      exact hcg
    have h5 : w.guardInterval = u.guardInterval := by
      have hcg := congrArg State.guardInterval h1
      exact hcg
    have h6 : w.index = u.index := by
      have hcg := congrArg State.index h1
      exact hcg
    refine ⟨h2, ?_, h6⟩
    unfold colKey
    rw [h3, h4, h5]
  · right
    right
    rw [huold] at h1
    have h2 : w.columnScaling = false := by
      have hcg := congrArg State.columnScaling h1
      exact hcg
    have h3 : w.mode = P.mode := by
      have hcg := congrArg State.mode h1
      exact hcg
    have h4 : w.antennas = P.antennas := by
      have hcg := congrArg State.antennas h1
      exact hcg
    have h5 : w.guardInterval = P.guardInterval := by
      have hcg := congrArg State.guardInterval h1
      exact hcg
    have h6 : w.index = P.index := by
      have hcg := congrArg State.index h1
      exact hcg
    have h7 : w.bandWidth = P.bandWidth := by
      have hcg := congrArg State.bandWidth h1
      exact hcg
    have h8 : w.agg = P.agg := by
      have h9 : w.agg = u.agg := by
        have hcg := congrArg State.agg h1
        exact hcg
      exact h9.trans hua
    have hwk : w.histKey w.index = P.histKey P.index := by
      unfold histKey
      rw [h3, h5, h6, h7, h8]
    have hup : u.history P.index = amAt History.empty (P.histKey P.index) u.Histories := by
      unfold history
      rw [hkeys]
    refine ⟨h2, ?_, h6, hwk, ?_, ?_⟩
    · unfold colKey
      rw [h3, h4, h5]
    · rw [hup]
      exact hempty P.index hidx.1 hidx.2
    · have h10 : w.history w.index = amAt History.empty (P.histKey P.index) w.Histories := by
        unfold history
        rw [hwk]
      rw [h10, hr]
      by_cases hi : u.index = P.index
      · rw [if_pos hi, hi, if_pos rfl]
      · rw [if_neg hi, if_neg, hup]
        intro hk
        apply hi
        have h11 := congrArg (fun k : HistKey => k.2.2.2.2) hk
        exact h11.symm

set_option maxRecDepth 1000000 in
/-- Witness of C39: Legacy on antenna A at 20 MHz with three failures in slot 0; the column
search starts the trial of Legacy on antenna B, which has the same history keys, and the
15 histories of the column being left are empty. -/
theorem antenna_switch_shares_histories_witness :
    ∃ u, columnSearchStep
        (withSlots
          { State.default with visited_columns := [(LEGACY, AntennaSet.ofList [A], LGI)] }
          [((LEGACY, 20, LGI, NO_AGG, 0), [false, false, false])]) = some (u, false) ∧
      u.antennas = AntennaSet.ofList [B] ∧
      (∀ i, u.histKey i = (LEGACY, 20, LGI, NO_AGG, i)) ∧
      (∀ i, 0 ≤ i → i ≤ 14 →
        (amAt History.empty (LEGACY, 20, LGI, NO_AGG, i) u.Histories).data = []) :=
  (antenna_switch_shares_histories
    (withSlots
      { State.default with visited_columns := [(LEGACY, AntennaSet.ofList [A], LGI)] }
      [((LEGACY, 20, LGI, NO_AGG, 0), [false, false, false])])
    (LEGACY, AntennaSet.ofList [B], LGI)
    (withSlots
      { State.default with visited_columns := [(LEGACY, AntennaSet.ofList [A], LGI)] }
      [((LEGACY, 20, LGI, NO_AGG, 0), [false, false, false])])
    legacyB_found rfl rfl rfl (Or.inl rfl) ⟨by decide, by decide⟩).imp
      fun _ h => ⟨h.1, h.2.2.1, h.2.2.2.1, h.2.2.2.2.1⟩

/-! ## MCS scaling at a high success ratio (C40) -/

theorem history_getAdjacentRatesIndexes (t u : State) (adj : Int × Int)
    (h : getAdjacentRatesIndexes t = some (adj, u)) (j : Int) : u.history j = t.history j := by
  unfold getAdjacentRatesIndexes at h
  dsimp only at h
  by_cases h1 : t.type ≠ LEGACY_G
  · rw [if_pos h1] at h
    cases h
    rw [history_scanRates, history_scanRates]
  · rw [if_neg h1] at h
    by_cases h2 : 0 ≤ t.index
    · rw [if_pos h2] at h
      cases hm : legacy_g_mapping[t.index.toNat]? with
      | none =>
        rw [hm] at h
        cases h
      | some p =>
        rw [hm] at h
        cases h
        rfl
    · rw [if_neg h2] at h
      cases h

theorem history_adjacentRates (t : State) (adj : Int × Int) (j : Int) :
    (adjacentRates t adj).2.history j = t.history j := by
  unfold adjacentRates
  dsimp only
  by_cases h1 : adj.1 ≠ INVALID_INDEX <;> by_cases h2 : adj.2 ≠ INVALID_INDEX
  · rw [if_pos h2, if_pos h1, history_touchHistory, history_touchHistory]
  · rw [if_neg h2, if_pos h1, history_touchHistory]
  · rw [if_pos h2, if_neg h1, history_touchHistory]
  · rw [if_neg h2, if_neg h1]

/-- Without a lower neighbour the lower neighbour's throughput stays unknown. -/
theorem adjacentRates_no_lower (t : State) (adj : Int × Int) (h : adj.1 = -1) :
    (adjacentRates t adj).1.1 = -1 := by
  unfold adjacentRates
  dsimp only
  rw [if_neg (not_not.mpr h)]

/-- The higher neighbour found by the search loop lies above the rate index. -/
theorem getAdjacentRatesIndexes_higher (t u : State) (adj : Int × Int)
    (htype : t.type ≠ LEGACY_G) (h : getAdjacentRatesIndexes t = some (adj, u)) :
    adj.2 = -1 ∨ t.index < adj.2 := by
  unfold getAdjacentRatesIndexes at h
  dsimp only at h
  rw [if_pos htype] at h
  cases h
  dsimp only
  rcases scanRates_up t ((if t.bandWidth = 20 ∧ t.mode ≠ LEGACY then (13 : Int) else 14)
      - t.index).toNat t.index
    (scanRates t ((List.range t.index.toNat).reverse.map Int.ofNat)).2
    (fun j => history_scanRates _ t j) with ⟨h1, _⟩ | ⟨h1, _⟩
  · exact Or.inl h1
  · exact Or.inr h1

/-- The higher neighbour listed by `legacy_g_mapping` lies above the rate index, except at
the indices 4 and 5, whose higher neighbour is 3. -/
theorem getAdjacentRatesIndexes_legacy_higher (t u : State) (adj : Int × Int)
    (htype : t.type = LEGACY_G) (h : getAdjacentRatesIndexes t = some (adj, u)) :
    (t.index = 4 ∧ adj.2 = 3) ∨ (t.index = 5 ∧ adj.2 = 3) ∨ adj.2 = -1 ∨ t.index < adj.2 := by
  unfold getAdjacentRatesIndexes at h
  dsimp only at h
  rw [if_neg (not_not.mpr htype)] at h
  by_cases h2 : 0 ≤ t.index
  · rw [if_pos h2] at h
    obtain ⟨n, hn⟩ := Int.eq_ofNat_of_zero_le h2
    rw [hn] at h ⊢
    rw [Int.toNat_ofNat] at h
    by_cases hlt : n < 12
    · interval_cases n <;> cases h <;> decide
    · have hnone : legacy_g_mapping[n]? = Option.none := by
        apply List.getElem?_eq_none
        have : legacy_g_mapping.length = 12 := rfl
        omega
      rw [hnone] at h
      cases h
  · rw [if_neg h2] at h
    cases h

set_option maxRecDepth 1000000 in
/-- C40, counterexample to "never lowers the rate index": in Legacy at 20 MHz with rate
index 5, eight successes in the current slot (success ratio 12800, average throughput
5700) and no trial active, the decision is UPSCALE and the MCS-scaling step sets the rate
index to 3, the higher neighbour that `legacy_g_mapping` lists for index 5; the report
returns with rate index 3. -/
theorem mcs_high_ratio_counterexample :
    (withSlots { State.default with index := 5 }
      [((LEGACY, 20, LGI, NO_AGG, 5), List.replicate 8 true)]).columnScaling = false ∧
    ((withSlots { State.default with index := 5 }
      [((LEGACY, 20, LGI, NO_AGG, 5), List.replicate 8 true)]).history 5).average_tpt = 5700 ∧
    ((withSlots { State.default with index := 5 }
      [((LEGACY, 20, LGI, NO_AGG, 5), List.replicate 8 true)]).history 5).success_ratio
        = 12800 ∧
    (mcsScalingStep ((withSlots { State.default with index := 5 }
      [((LEGACY, 20, LGI, NO_AGG, 5), List.replicate 8 true)]).touchHistory 5) 5).map
        (fun r => (r.2.1, r.2.2.2, (applyIndex r).index)) = some (true, 3, 3) ∧
    (RateScaling 0 (withSlots { State.default with index := 5 }
      [((LEGACY, 20, LGI, NO_AGG, 5), List.replicate 8 true)])).map State.index = some 3 := by
  decide!

/-- C40 (amended): for a state with no trial active whose current slot has a defined,
non-zero average throughput and a success ratio of at least 10880, `RateScaling` runs the
MCS-scaling step, the decision of `MCSScaling` in it is never DOWNSCALE, and the rate index
after the step is the index before it (STAY, or UPSCALE without higher neighbour) or the
higher neighbour returned by `getAdjacentRatesIndexes`.  Outside the Legacy class the index
is therefore never lowered; in the Legacy class it is never lowered except at the indices
4 and 5, where the higher neighbour listed by `legacy_g_mapping` is 3. -/
theorem mcs_high_ratio_no_downscale (t t1 : State) (adj : Int × Int)
    (hcs : t.columnScaling = false)
    (hav : (t.history t.index).average_tpt ≠ -1)
    (ha : (t.history t.index).average_tpt ≠ 0)
    (hsr : (t.history t.index).success_ratio ≥ 10880)
    (hadj : getAdjacentRatesIndexes (t.touchHistory t.index) = some (adj, t1)) :
    (∀ now, RateScaling now t =
      match mcsScalingStep (t.touchHistory t.index) t.index with
      | Option.none => Option.none
      | some r => rateScalingTail now r) ∧
    (MCSScaling (adjacentRates t1 adj).2 adj (adjacentRates t1 adj).1).1
      ≠ RS_ACTION_DOWNSCALE ∧
    ∃ r, mcsScalingStep (t.touchHistory t.index) t.index = some r ∧
      ((applyIndex r).index = t.index ∨ (adj.2 ≠ -1 ∧ (applyIndex r).index = adj.2)) ∧
      (t.type ≠ LEGACY_G → t.index ≤ (applyIndex r).index) ∧
      (t.type = LEGACY_G → t.index ≠ 4 → t.index ≠ 5 → t.index ≤ (applyIndex r).index) := by
  have hstep := mcsScalingStep_eq (t.touchHistory t.index) t1 t.index adj hadj
  have hc : (adjacentRates t1 adj).2.control = t.control := by
    rw [control_adjacentRates, control_getAdjacentRatesIndexes _ _ _ hadj,
      control_touchHistory]
  have hi : (adjacentRates t1 adj).2.index = t.index := index_of_control hc
  have hh : (adjacentRates t1 adj).2.history (adjacentRates t1 adj).2.index
      = t.history t.index := by
    rw [hi, history_adjacentRates, history_getAdjacentRatesIndexes _ _ _ hadj,
      history_touchHistory]
  have hidx : (MCSScaling (adjacentRates t1 adj).2 adj (adjacentRates t1 adj).1).2.index
      = t.index := by
    have hc2 : (MCSScaling (adjacentRates t1 adj).2 adj (adjacentRates t1 adj).1).2.control
        = t.control := by
      rw [control_MCSScaling, hc]
    exact index_of_control hc2
  have hai := applyIndex_scaleSwitch _
    (MCSScaling (adjacentRates t1 adj).2 adj (adjacentRates t1 adj).1).1 adj t.index hidx
  have hnd : (MCSScaling (adjacentRates t1 adj).2 adj (adjacentRates t1 adj).1).1
      ≠ RS_ACTION_DOWNSCALE := by
    rw [MCSScaling_action, hh]
    have hlow := adjacentRates_no_lower t1 adj
    generalize (adjacentRates t1 adj).1 = r at hlow ⊢
    generalize ((adjacentRates t1 adj).2.history adj.1).get_max_throughput = c
    rw [if_neg (by
      rintro (h | h)
      · omega
      · exact ha h)]
    split_ifs with h2 h3 h4 h5 h6 h7 <;> try decide
    exfalso
    apply h7
    by_cases h8 : adj.1 = -1
    · have h9 := hlow h8
      rcases h6 with ⟨h10, _⟩ | ⟨_, h11⟩
      · exact absurd h9 h10
      · exact absurd h8 h11
    · exact ⟨h8, Or.inl hsr⟩
  have hty : (t.touchHistory t.index).type = t.type := rfl
  have hix : (t.touchHistory t.index).index = t.index := rfl
  refine ⟨fun now => ?_, hnd, _, hstep, ?_, ?_, ?_⟩
  · have hR := RateScaling_known now t hav
    rw [if_neg (by rw [hcs]; decide)] at hR
    exact hR
  all_goals rw [hai]
  all_goals generalize (MCSScaling (adjacentRates t1 adj).2 adj (adjacentRates t1 adj).1).1
    = a at hnd ⊢
  · cases a
    · exact Or.inl rfl
    · exact absurd rfl hnd
    · dsimp only
      by_cases h : adj.2 ≠ -1
      · rw [if_pos h]
        exact Or.inr ⟨h, rfl⟩
      · rw [if_neg h]
        exact Or.inl rfl
  · intro htype
    have hup := getAdjacentRatesIndexes_higher _ _ _ (by rw [hty]; exact htype) hadj
    rw [hix] at hup
    cases a
    · exact le_refl _
    · exact absurd rfl hnd
    · dsimp only
      by_cases h : adj.2 ≠ -1
      · rw [if_pos h]
        rcases hup with h1 | h1
        · exact absurd h1 h
        · omega
      · rw [if_neg h]
  · intro htype h4 h5
    have hup := getAdjacentRatesIndexes_legacy_higher _ _ _ (by rw [hty]; exact htype) hadj
    rw [hix] at hup
    cases a
    · exact le_refl _
    · exact absurd rfl hnd
    · dsimp only
      by_cases h : adj.2 ≠ -1
      · rw [if_pos h]
        rcases hup with ⟨h1, _⟩ | ⟨h1, _⟩ | h1 | h1
        · exact absurd h1 h4
        · exact absurd h1 h5
        · exact absurd h1 h
        · omega
      · rw [if_neg h]

set_option maxRecDepth 1000000 in
/-- Witness of C40 (amended): Legacy at 20 MHz, rate index 0 with eight successes; the
neighbours are (-1, 1) and the step moves to index 1. -/
theorem mcs_high_ratio_no_downscale_witness :
    (MCSScaling (adjacentRates ((withSlots State.default
        [((LEGACY, 20, LGI, NO_AGG, 0), List.replicate 8 true)]).touchHistory 0) (-1, 1)).2
      (-1, 1) (adjacentRates ((withSlots State.default
        [((LEGACY, 20, LGI, NO_AGG, 0), List.replicate 8 true)]).touchHistory 0) (-1, 1)).1).1
      ≠ RS_ACTION_DOWNSCALE :=
  (mcs_high_ratio_no_downscale
    (withSlots State.default [((LEGACY, 20, LGI, NO_AGG, 0), List.replicate 8 true)])
    ((withSlots State.default
      [((LEGACY, 20, LGI, NO_AGG, 0), List.replicate 8 true)]).touchHistory 0) (-1, 1)
    rfl (by decide!) (by decide!) (by decide!) (by decide!)).2.1

end State

namespace History

/-! ## Bounds of the two statistics (C36) -/

/-- C36: for a history with ceiling `m ≥ 0`: when its average throughput is defined (not
the sentinel), `0 ≤ average_tpt ≤ 100 * m` and `0 ≤ success_ratio ≤ 12800`; and when it
holds only successes, at least 8 of them, `success_ratio = 12800` and
`average_tpt = 100 * m` exactly. -/
theorem throughput_bounds (h : History) (hm : 0 ≤ h.max_throughput) :
    (h.average_tpt ≠ INVALID_THROUGHPUT →
      0 ≤ h.average_tpt ∧ h.average_tpt ≤ 100 * h.max_throughput ∧
      0 ≤ h.success_ratio ∧ h.success_ratio ≤ 12800) ∧
    (∀ k : Nat, 8 ≤ k → h.data = List.replicate k true →
      h.success_ratio = 12800 ∧ h.average_tpt = 100 * h.max_throughput) := by
  constructor
  · intro hdef
    by_cases hc : h.fail_counter ≥ IWL_MVM_RS_RATE_MIN_FAILURE_TH ∨
        h.success_counter ≥ IWL_MVM_RS_RATE_MIN_SUCCESS_TH
    · have hne : h.data ≠ [] := by
        intro he
        unfold fail_counter success_counter at hc
        rw [he] at hc
        simp [INVALID_THROUGHPUT, IWL_MVM_RS_RATE_MIN_FAILURE_TH,
          IWL_MVM_RS_RATE_MIN_SUCCESS_TH] at hc
      have h0 := success_ratio_nonneg h hne
      have h1 := success_ratio_le h
      have hp0 : 0 ≤ h.success_ratio * h.max_throughput := mul_nonneg h0 hm
      have hp1 : h.success_ratio * h.max_throughput ≤ 12800 * h.max_throughput :=
        mul_le_mul_of_nonneg_right h1 hm
      have havg : h.average_tpt = (h.success_ratio * h.max_throughput + 64) / 128 := by
        unfold average_tpt
        rw [if_pos hc]
        unfold get_max_throughput
        exact Int.tdiv_eq_ediv (by omega) (by decide)
      rw [havg]
      refine ⟨by omega, by omega, h0, h1⟩
    · exfalso
      apply hdef
      unfold average_tpt
      rw [if_neg hc]
  · intro k hk hd
    have hne : h.data ≠ [] := by
      rw [hd]
      intro he
      have := congrArg List.length he
      simp at this
      omega
    obtain ⟨hsc, _, hsr⟩ := stats_of_ne h hne
    have hcount : h.data.count true = k := by rw [hd]; simp
    have hlen : h.data.length = k := by rw [hd]; simp
    have hkpos : (0 : Int) < (k : Int) := by omega
    have hsr2 : h.success_ratio = 12800 := by
      rw [hsr, hcount, hlen]
      have : (128 * 100 * (k : Int)) = 12800 * (k : Int) := by ring
      rw [this]
      exact Int.mul_ediv_cancel _ (by omega)
    refine ⟨hsr2, ?_⟩
    unfold average_tpt
    rw [if_pos (Or.inr (by
      rw [hsc, hcount]
      show (k : Int) ≥ 8
      omega))]
    unfold get_max_throughput
    rw [hsr2, Int.tdiv_eq_ediv (by omega) (by decide)]
    omega

/-- Witness of C36: eight successes under the ceiling 7. -/
theorem throughput_bounds_witness :
    (⟨List.replicate 8 true, 7⟩ : History).success_ratio = 12800 ∧
    (⟨List.replicate 8 true, 7⟩ : History).average_tpt = 100 * 7 :=
  (throughput_bounds ⟨List.replicate 8 true, 7⟩ (by decide)).2 8 (by decide) rfl

end History

namespace Quaternion

theorem ofAngleAxis_norm (t : ℝ) (v : Vector) (hv : v.x * v.x + v.y * v.y + v.z * v.z = 1) :
    (ofAngleAxis t v).x * (ofAngleAxis t v).x + (ofAngleAxis t v).y * (ofAngleAxis t v).y +
      (ofAngleAxis t v).z * (ofAngleAxis t v).z + (ofAngleAxis t v).w * (ofAngleAxis t v).w = 1 := by
  show v.x * Real.sin (t * 0.5) * (v.x * Real.sin (t * 0.5)) +
      v.y * Real.sin (t * 0.5) * (v.y * Real.sin (t * 0.5)) +
      v.z * Real.sin (t * 0.5) * (v.z * Real.sin (t * 0.5)) +
      Real.cos (t * 0.5) * Real.cos (t * 0.5) = 1
  have h := Real.sin_sq_add_cos_sq (t * 0.5)
  linear_combination (Real.sin (t * 0.5)) ^ 2 * hv + h

theorem ofAngleAxis_length (t : ℝ) (v : Vector) (hv : v.x * v.x + v.y * v.y + v.z * v.z = 1) :
    (ofAngleAxis t v).GetLength = 1 := by
  unfold GetLength
  rw [ofAngleAxis_norm t v hv, Real.sqrt_one]

theorem round_trip_of_unit (t : ℝ) (v : Vector) (hv : v.x * v.x + v.y * v.y + v.z * v.z = 1)
    (h0 : 0 ≤ t) (h2 : t ≤ 2 * Real.pi) :
    (ofAngleAxis t v).GetLength = 1 ∧ (ofAngleAxis t v).normalize = ofAngleAxis t v ∧
    (ofAngleAxis t v).angle = t := by
  have hlen := ofAngleAxis_length t v hv
  refine ⟨hlen, ?_, ?_⟩
  · unfold normalize
    simp only [hlen, div_one]
  · unfold angle
    have hw : (ofAngleAxis t v).w = Real.cos (t * 0.5) := rfl
    have hc : Real.cos ((Int.tdiv 1 2 : Int) : ℝ) = 1 := by
      have : (Int.tdiv 1 2 : Int) = 0 := by decide
      rw [this]
      simp
    rw [hc, hw, if_neg (not_lt.mpr (Real.abs_cos_le_one _)),
      Real.arccos_cos (by linarith) (by linarith)]
    ring


theorem normalize_of_unit (t : ℝ) (v : Vector) (hv : v.x * v.x + v.y * v.y + v.z * v.z = 1) :
    (ofAngleAxis t v).normalize = ofAngleAxis t v := by
  unfold normalize
  simp only [ofAngleAxis_length t v hv, div_one]

theorem rotate_of_unit (t : ℝ) (v u : Vector) (hv : v.x * v.x + v.y * v.y + v.z * v.z = 1) :
    (ofAngleAxis t v).rotate u =
      Vector.add
        (Vector.add (Vector.scale (Real.cos t) u) (Vector.scale (Real.sin t) (Cross v u)))
        (Vector.scale (Dot v u * (1 - Real.cos t)) v) := by
  have hs : Real.sin t = 2 * Real.sin (t * 0.5) * Real.cos (t * 0.5) := by
    rw [← Real.sin_two_mul]
    congr 1
    ring
  have hc : Real.cos t = 2 * Real.cos (t * 0.5) ^ 2 - 1 := by
    rw [← Real.cos_two_mul]
    congr 1
    ring
  have h1 := Real.sin_sq_add_cos_sq (t * 0.5)
  unfold rotate ofAngleAxis Vector.add Vector.scale Cross Dot
  simp only [hs, hc, Vector.mk.injEq]
  refine ⟨?_, ?_, ?_⟩
  · linear_combination (2 * (v.x * u.x + v.y * u.y + v.z * u.z) * v.x - u.x) * h1 -
      u.x * Real.sin (t * 0.5) ^ 2 * hv
  · linear_combination (2 * (v.x * u.x + v.y * u.y + v.z * u.z) * v.y - u.y) * h1 -
      u.y * Real.sin (t * 0.5) ^ 2 * hv
  · linear_combination (2 * (v.x * u.x + v.y * u.y + v.z * u.z) * v.z - u.z) * h1 -
      u.z * Real.sin (t * 0.5) ^ 2 * hv


theorem test_axes_unit :
    ((⟨0, 0, 1⟩ : Vector).x * (⟨0, 0, 1⟩ : Vector).x + (⟨0, 0, 1⟩ : Vector).y * (⟨0, 0, 1⟩ : Vector).y +
      (⟨0, 0, 1⟩ : Vector).z * (⟨0, 0, 1⟩ : Vector).z = 1) ∧
    ((⟨0 / Real.sqrt 2, 1 / Real.sqrt 2, 1 / Real.sqrt 2⟩ : Vector).x *
        (⟨0 / Real.sqrt 2, 1 / Real.sqrt 2, 1 / Real.sqrt 2⟩ : Vector).x +
      (⟨0 / Real.sqrt 2, 1 / Real.sqrt 2, 1 / Real.sqrt 2⟩ : Vector).y *
        (⟨0 / Real.sqrt 2, 1 / Real.sqrt 2, 1 / Real.sqrt 2⟩ : Vector).y +
      (⟨0 / Real.sqrt 2, 1 / Real.sqrt 2, 1 / Real.sqrt 2⟩ : Vector).z *
        (⟨0 / Real.sqrt 2, 1 / Real.sqrt 2, 1 / Real.sqrt 2⟩ : Vector).z = 1) ∧
    ((⟨1 / Real.sqrt 14, 2 / Real.sqrt 14, 3 / Real.sqrt 14⟩ : Vector).x *
        (⟨1 / Real.sqrt 14, 2 / Real.sqrt 14, 3 / Real.sqrt 14⟩ : Vector).x +
      (⟨1 / Real.sqrt 14, 2 / Real.sqrt 14, 3 / Real.sqrt 14⟩ : Vector).y *
        (⟨1 / Real.sqrt 14, 2 / Real.sqrt 14, 3 / Real.sqrt 14⟩ : Vector).y +
      (⟨1 / Real.sqrt 14, 2 / Real.sqrt 14, 3 / Real.sqrt 14⟩ : Vector).z *
        (⟨1 / Real.sqrt 14, 2 / Real.sqrt 14, 3 / Real.sqrt 14⟩ : Vector).z = 1) := by
  have h2 : Real.sqrt 2 * Real.sqrt 2 = 2 := Real.mul_self_sqrt (by norm_num)
  have h14 : Real.sqrt 14 * Real.sqrt 14 = 14 := Real.mul_self_sqrt (by norm_num)
  refine ⟨by norm_num, ?_, ?_⟩
  · show 0 / Real.sqrt 2 * (0 / Real.sqrt 2) + 1 / Real.sqrt 2 * (1 / Real.sqrt 2) +
      1 / Real.sqrt 2 * (1 / Real.sqrt 2) = 1
    rw [div_mul_div_comm, div_mul_div_comm, h2]
    norm_num
  · show 1 / Real.sqrt 14 * (1 / Real.sqrt 14) + 2 / Real.sqrt 14 * (2 / Real.sqrt 14) +
      3 / Real.sqrt 14 * (3 / Real.sqrt 14) = 1
    rw [div_mul_div_comm, div_mul_div_comm, div_mul_div_comm, h14]
    norm_num

/-- C33: over the real numbers, for every unit axis `v` and every angle `t` with
`0 ≤ t ≤ 2π`, the quaternion `Quaternion(t, v)` has length 1, is unchanged by `normalize`,
and `angle` returns `t`; the three test instances, angle `π * 0.25` about the axes
(0,0,1), (0,1,1)/√2 and (1,2,3)/√14, normalised as the tests do, have length 1 and angle
`π * 0.25`. -/
theorem angle_round_trip :
    (∀ (t : ℝ) (v : Vector), v.x * v.x + v.y * v.y + v.z * v.z = 1 → 0 ≤ t → t ≤ 2 * Real.pi →
      (ofAngleAxis t v).GetLength = 1 ∧ (ofAngleAxis t v).normalize = ofAngleAxis t v ∧
      (ofAngleAxis t v).angle = t) ∧
    (∀ v ∈ [(⟨0, 0, 1⟩ : Vector), ⟨0 / Real.sqrt 2, 1 / Real.sqrt 2, 1 / Real.sqrt 2⟩,
        ⟨1 / Real.sqrt 14, 2 / Real.sqrt 14, 3 / Real.sqrt 14⟩],
      (ofAngleAxis (Real.pi * 0.25) v).normalize.GetLength = 1 ∧
      (ofAngleAxis (Real.pi * 0.25) v).normalize.angle = Real.pi * 0.25) := by
  refine ⟨fun t v hv h0 h2 => round_trip_of_unit t v hv h0 h2, ?_⟩
  intro v hmem
  have hunit : v.x * v.x + v.y * v.y + v.z * v.z = 1 := by
    simp only [List.mem_cons, List.mem_singleton, List.not_mem_nil, or_false] at hmem
    rcases hmem with h | h | h
    · rw [h]; exact test_axes_unit.1
    · rw [h]; exact test_axes_unit.2.1
    · rw [h]; exact test_axes_unit.2.2
  have hpi := Real.pi_pos
  obtain ⟨h1, h2, h3⟩ := round_trip_of_unit (Real.pi * 0.25) v hunit (by positivity)
    (by nlinarith)
  rw [h2]
  exact ⟨h1, h3⟩

/-- Witness of C33: the first test instance, angle `π * 0.25` about the axis (0,0,1). -/
theorem angle_round_trip_witness :
    (ofAngleAxis (Real.pi * 0.25) ⟨0, 0, 1⟩).GetLength = 1 ∧
    (ofAngleAxis (Real.pi * 0.25) ⟨0, 0, 1⟩).normalize = ofAngleAxis (Real.pi * 0.25) ⟨0, 0, 1⟩ ∧
    (ofAngleAxis (Real.pi * 0.25) ⟨0, 0, 1⟩).angle = Real.pi * 0.25 :=
  angle_round_trip.1 (Real.pi * 0.25) ⟨0, 0, 1⟩ (by norm_num)
    (by have := Real.pi_pos; positivity) (by have := Real.pi_pos; nlinarith)


theorem rotate_quarter (v : Vector) (hv : v.x * v.x + v.y * v.y + v.z * v.z = 1) :
    (ofAngleAxis (Real.pi / 2.0) v).normalize.rotate ⟨1, 0, 0⟩ =
      Vector.add (Cross v ⟨1, 0, 0⟩) (Vector.scale (Dot v ⟨1, 0, 0⟩) v) := by
  have h2 : (2.0 : ℝ) = 2 := by norm_num
  rw [normalize_of_unit _ v hv, rotate_of_unit _ v _ hv, h2, Real.cos_pi_div_two,
    Real.sin_pi_div_two]
  unfold Vector.add Vector.scale Cross Dot
  simp

/-- C34: over the real numbers, for every unit axis `v`, every angle `t` and every vector
`u`, `Quaternion(t, v).rotate(u)` is `u cos t + (v × u) sin t + v (v · u) (1 - cos t)`; and
rotating (1,0,0) by `π / 2.0` about +x, +y, +z, -x, -y, -z, after `normalize` as in the
test, gives (1,0,0), (0,0,-1), (0,1,0), (1,0,0), (0,0,1), (0,-1,0). -/
theorem rotate_rodrigues :
    (∀ (t : ℝ) (v u : Vector), v.x * v.x + v.y * v.y + v.z * v.z = 1 →
      (ofAngleAxis t v).rotate u =
        Vector.add
          (Vector.add (Vector.scale (Real.cos t) u) (Vector.scale (Real.sin t) (Cross v u)))
          (Vector.scale (Dot v u * (1 - Real.cos t)) v)) ∧
    (ofAngleAxis (Real.pi / 2.0) ⟨1, 0, 0⟩).normalize.rotate ⟨1, 0, 0⟩ = ⟨1, 0, 0⟩ ∧
    (ofAngleAxis (Real.pi / 2.0) ⟨0, 1, 0⟩).normalize.rotate ⟨1, 0, 0⟩ = ⟨0, 0, -1⟩ ∧
    (ofAngleAxis (Real.pi / 2.0) ⟨0, 0, 1⟩).normalize.rotate ⟨1, 0, 0⟩ = ⟨0, 1, 0⟩ ∧
    (ofAngleAxis (Real.pi / 2.0) ⟨-1, 0, 0⟩).normalize.rotate ⟨1, 0, 0⟩ = ⟨1, 0, 0⟩ ∧
    (ofAngleAxis (Real.pi / 2.0) ⟨0, -1, 0⟩).normalize.rotate ⟨1, 0, 0⟩ = ⟨0, 0, 1⟩ ∧
    (ofAngleAxis (Real.pi / 2.0) ⟨0, 0, -1⟩).normalize.rotate ⟨1, 0, 0⟩ = ⟨0, -1, 0⟩ := by
  refine ⟨fun t v u hv => rotate_of_unit t v u hv, ?_, ?_, ?_, ?_, ?_, ?_⟩
  · rw [rotate_quarter _ (by norm_num)]
    unfold Vector.add Vector.scale Cross Dot
    simp
  · rw [rotate_quarter _ (by norm_num)]
    unfold Vector.add Vector.scale Cross Dot
    simp
  · rw [rotate_quarter _ (by norm_num)]
    unfold Vector.add Vector.scale Cross Dot
    simp
  · rw [rotate_quarter _ (by norm_num)]
    unfold Vector.add Vector.scale Cross Dot
    simp
  · rw [rotate_quarter _ (by norm_num)]
    unfold Vector.add Vector.scale Cross Dot
    simp
  · rw [rotate_quarter _ (by norm_num)]
    unfold Vector.add Vector.scale Cross Dot
    simp

/-- Witness of C34: the rotation by `π / 2` about the axis (0,0,1) of the vector (1,0,0). -/
theorem rotate_rodrigues_witness :
    (ofAngleAxis (Real.pi / 2) ⟨0, 0, 1⟩).rotate ⟨1, 0, 0⟩ =
      Vector.add
        (Vector.add (Vector.scale (Real.cos (Real.pi / 2)) ⟨1, 0, 0⟩)
          (Vector.scale (Real.sin (Real.pi / 2)) (Cross ⟨0, 0, 1⟩ ⟨1, 0, 0⟩)))
        (Vector.scale (Dot ⟨0, 0, 1⟩ ⟨1, 0, 0⟩ * (1 - Real.cos (Real.pi / 2))) ⟨0, 0, 1⟩) :=
  rotate_rodrigues.1 (Real.pi / 2) ⟨0, 0, 1⟩ ⟨1, 0, 0⟩ (by norm_num)

end Quaternion

end IntelRate
